import Mathlib

/-!
# Blockly generators for Ch, Cpp and JavaScript: loops and procedures

A shallow embedding of `generators/ch/loops.js`, `generators/cpp/procedures.js`,
`generators/javascript/procedures.js` and of the helper `scrub_` of
`generators/cpp.js`, followed by theorems about the text they emit.

Generated text is a `String`.  The generator keeps mutable state (the name
database `variableDB_` and the table `definitions_`), which is passed
explicitly.  A JavaScript `throw` is `Except.error`.  The code of Blockly core
(`Blockly.Generator`, `Blockly.Names`) is not part of these sources: the
emitters receive it as the fields of `Core`.
-/

set_option autoImplicit false
set_option maxRecDepth 8000

namespace Blockly

/-! ## Constants of the generator object -/

/-- Precedence of an atomic expression (`ORDER_ATOMIC` of generators/ch.js). -/
def ORDER_ATOMIC : Nat := 0
/-- Precedence of a function call. -/
def ORDER_FUNCTION_CALL : Nat := 2
/-- Precedence of `!`. -/
def ORDER_LOGICAL_NOT : Nat := 4
/-- Precedence of an assignment. -/
def ORDER_ASSIGNMENT : Nat := 16
/-- Precedence of the comma operator. -/
def ORDER_COMMA : Nat := 17
/-- Precedence of a parenthesised position. -/
def ORDER_NONE : Nat := 99

/-- Name space tag of variables, `Blockly.Variables.NAME_TYPE`. -/
def Variables.NAME_TYPE : String := "VARIABLE"
/-- Name space tag of procedures, `Blockly.Procedures.NAME_TYPE`. -/
def Procedures.NAME_TYPE : String := "PROCEDURE"
/-- Input kind of a value slot, `Blockly.INPUT_VALUE`. -/
def INPUT_VALUE : Nat := 1

/-! ## Blocks -/

/-- One entry of `block.inputList`: its name, its kind and the id of the block
plugged into it, if any. -/
structure Input where
  name : String
  type : Nat
  targetBlock : Option String
  deriving Repr, DecidableEq

/-- What the emitters read of a block.  A connection is `none` when the block
has no such connection, `some none` when it is open and `some (some id)` when
the block `id` is attached to it. -/
structure Block where
  id : String
  fields : List (String × String)
  inputList : List Input := []
  outputConnection : Option (Option String) := none
  nextConnection : Option (Option String) := none
  comment : String := ""
  arguments_ : List String := []
  hasReturnValue_ : Bool := false
  deriving Repr, DecidableEq

/-- The value of a field, `block.getFieldValue(name)`; `none` is `null`.  The
emitters pass the fields VAR and NAME, which their block kinds always have, on
to the name database; a missing one is read there as the empty name. -/
def Block.getFieldValue (block : Block) (name : String) : Option String :=
  (block.fields.find? (fun f => f.1 == name)).map (fun f => f.2)

/-- Whether the block has the field, `block.getField(name)` read as a boolean. -/
def Block.getField (block : Block) (name : String) : Bool :=
  block.fields.any (fun f => f.1 == name)

/-- The text of `block.getCommentText()`. -/
def Block.getCommentText (block : Block) : String := block.comment

/-! ## JavaScript values -/

/-- The expression `a || d` on strings: the empty string is falsy. -/
def jsOr (a d : String) : String := if a = "" then d else a

/-- The regular expression `/^\w+$/` of loops.js. -/
def isWord (s : String) : Bool :=
  !s.data.isEmpty && s.data.all (fun c => c.isAlphanum || c == '_')

/-- The text that one match contributes: the replacement text `rep` of
`String.prototype.replace` with its patterns expanded, `$$` to a dollar sign,
`$&` to the matched text, a dollar sign and a grave accent to the text before
the match, a dollar sign and an apostrophe to the text after it.  The pattern
`/%1/g` has no groups, so every other dollar sign stands for itself. -/
def expandReplacement (matched before after : List Char) : List Char → List Char
  | [] => []
  | '$' :: '$' :: rest => '$' :: expandReplacement matched before after rest
  | '$' :: '&' :: rest => matched ++ expandReplacement matched before after rest
  | '$' :: d :: rest =>
    if d = Char.ofNat 96 then before ++ expandReplacement matched before after rest
    else if d = Char.ofNat 39 then after ++ expandReplacement matched before after rest
    else '$' :: d :: expandReplacement matched before after rest
  | c :: rest => c :: expandReplacement matched before after rest

/-- Every `%1` of the text replaced: `text.replace(/%1/g, rep)`, where `before`
is the part of the text already passed. -/
def replacePercent1 (rep before : List Char) : List Char → List Char
  | [] => []
  | '%' :: '1' :: rest =>
    expandReplacement ['%', '1'] before rest rep ++ replacePercent1 rep (before ++ ['%', '1']) rest
  | c :: rest => c :: replacePercent1 rep (before ++ [c]) rest

/-- The call `text.replace(/%1/g, "'" + id + "'")` of procedures.js. -/
def replaceId (text id : String) : String :=
  String.mk (replacePercent1 ("\x27" ++ id ++ "\x27").data [] text.data)

/-! ## Numeric literals and numbers

A JavaScript number is an IEEE 754 double.  A finite double is a binary
fraction, hence a decimal fraction, and is kept as its exact value.  A numeric
literal is read as the decimal fraction it writes and then rounded to the
nearest double.  The two zeros are one value here: `<=`, `==`, `Math.abs` and
the conversion to a string, the operations of the emitters, do not tell them
apart. -/

/-- A number `mantissa / 10 ^ scale`. -/
structure Decimal where
  mantissa : Int
  scale : Nat
  deriving Repr, DecidableEq

/-- A JavaScript number: not a number, an infinity, or a finite double given
by its exact value. -/
inductive JSNumber where
  | NaN
  | Infinity (negative : Bool)
  | finite (value : Decimal)
  deriving Repr, DecidableEq

/-- The white space class `\s`, on the characters generated code contains. -/
def isSpace (c : Char) : Bool :=
  c.toNat == 32 || c.toNat == 9 || c.toNat == 10 || c.toNat == 11 || c.toNat == 12 ||
    c.toNat == 13 || c.toNat == 160

/-- The digit class `\d`. -/
def isDigit (c : Char) : Bool := decide (48 ≤ c.toNat) && decide (c.toNat ≤ 57)

/-- The value of a run of decimal digits. -/
def digitsVal (ds : List Char) : Nat :=
  ds.foldl (fun n c => 10 * n + (c.toNat - 48)) 0

/-- The unsigned part `\d+(\.\d+)?` at the head of the text, and the rest. -/
def scanUnsigned (cs : List Char) : Option (Decimal × List Char) :=
  let ip := cs.takeWhile isDigit
  let rest := cs.dropWhile isDigit
  if ip.isEmpty then none
  else
    match rest with
    | '.' :: r =>
      let fp := r.takeWhile isDigit
      if fp.isEmpty then some (⟨digitsVal ip, 0⟩, rest)
      else some (⟨digitsVal (ip ++ fp), fp.length⟩, r.dropWhile isDigit)
    | _ => some (⟨digitsVal ip, 0⟩, rest)

/-- The literal `\s*-?\d+(\.\d+)?` at the head of the text, and the rest. -/
def scanNumber (cs : List Char) : Option (Decimal × List Char) :=
  match cs.dropWhile isSpace with
  | '-' :: r => (scanUnsigned r).map (fun p => (⟨-p.1.mantissa, p.1.scale⟩, p.2))
  | r => scanUnsigned r

/-- Whether the text starts with a digit, as a numeric literal without a sign
does. -/
def startsWithDigit (str : String) : Bool :=
  match str.data with
  | c :: _ => isDigit c
  | [] => false

/-- Modelled from the spec: `Blockly.isNumber` of Blockly core (not part of
these sources) tells whether a code is a numeric literal; the literals are
those of `/^\s*-?\d+(\.\d+)?\s*$/`. -/
def isNumber (str : String) : Bool :=
  match scanNumber str.data with
  | some (_, rest) => rest.all isSpace
  | none => false

/-- The number of binary digits of `n`, counted in at most `fuel` steps. -/
def bitLengthAux : Nat → Nat → Nat
  | 0, _ => 0
  | fuel + 1, n => if n = 0 then 0 else bitLengthAux fuel (n / 2) + 1

/-- The number of binary digits of `n`: the least `k` with `n < 2 ^ k`. -/
def bitLength (n : Nat) : Nat := bitLengthAux n n

/-- The exponent of the leading binary digit of `n / d`, for positive `n` and
`d`: the `e` with `2 ^ e ≤ n / d < 2 ^ (e + 1)`. -/
def binaryExponent (n d : Nat) : Int :=
  let e : Int := (bitLength n : Int) - (bitLength d : Int)
  if d * 2 ^ e.toNat ≤ n * 2 ^ (-e).toNat then e else e - 1

/-- The integer nearest to `n / d`; of two equally near ones the even one. -/
def roundHalfEven (n d : Nat) : Nat :=
  let q := n / d
  let r := n % d
  if d < 2 * r then q + 1
  else if d = 2 * r then (if q % 2 = 0 then q else q + 1)
  else q

/-- The fraction `n / 10 ^ scale` without its trailing zeros after the point,
as a numerator and a scale. -/
def reduceDecimal (n : Nat) : Nat → Nat × Nat
  | 0 => (n, 0)
  | scale + 1 => if n % 10 = 0 then reduceDecimal (n / 10) scale else (n, scale + 1)

/-- The multiple of `2 ^ up / 2 ^ down` nearest to `n / d`, of two equally near
ones the one with the even multiplier; a result of `2 ^ 1024` or more is an
infinity.  One of `up` and `down` is zero. -/
def quantize (negative : Bool) (n d up down : Nat) : JSNumber :=
  let r := roundHalfEven (n * 2 ^ down) (d * 2 ^ up)
  if 1024 < bitLength (r * 2 ^ up) then .Infinity negative
  else
    let v := reduceDecimal (r * 2 ^ up * 5 ^ down) down
    .finite ⟨if negative then -(v.1 : Int) else (v.1 : Int), v.2⟩

/-- The double nearest to a decimal fraction (IEEE 754 binary64, round to
nearest, ties to even): it keeps 53 binary digits from the leading one, and
below `2 ^ -1022` the digits down to `2 ^ -1074`. -/
def toDouble (x : Decimal) : JSNumber :=
  let n := x.mantissa.natAbs
  if n = 0 then .finite ⟨0, 0⟩
  else
    let d := 10 ^ x.scale
    let p := max (binaryExponent n d) (-1022) - 52
    quantize (decide (x.mantissa < 0)) n d p.toNat (-p).toNat

/-- The host function `parseFloat` on the texts the emitters pass to it, which
all satisfy `isNumber`: the double nearest to the literal. -/
def parseFloat (str : String) : JSNumber :=
  match scanNumber str.data with
  | some (x, _) => toDouble x
  | none => .NaN

/-- The comparison `x <= y` of two numbers; it is false when one is not a
number. -/
def jsLe : JSNumber → JSNumber → Bool
  | .finite x, .finite y =>
    decide (x.mantissa * (10 : Int) ^ y.scale ≤ y.mantissa * (10 : Int) ^ x.scale)
  | .Infinity true, .finite _ => true
  | .finite _, .Infinity false => true
  | .Infinity a, .Infinity b => a || !b
  | _, _ => false

/-- The host function `Math.abs`. -/
def jsAbs : JSNumber → JSNumber
  | .finite x => .finite ⟨(x.mantissa.natAbs : Int), x.scale⟩
  | .Infinity _ => .Infinity false
  | .NaN => .NaN

/-- The comparison `x == 1`. -/
def jsIsOne : JSNumber → Bool
  | .finite x => decide (x.mantissa = (10 : Int) ^ x.scale)
  | _ => false

/-- Whether a number is the finite number `m / 10 ^ scale`. -/
def JSNumber.hasValue (x : JSNumber) (m scale : Nat) : Bool :=
  match x with
  | .finite y => decide (y.mantissa * (10 : Int) ^ scale = (m : Int) * (10 : Int) ^ y.scale)
  | _ => false

/-- The decimal of `k` digits for the double `m / 10 ^ scale`, where `m` is
written with `len` digits and `k` is at most `len`: the digits `s`, their
number, and the position `n` of the decimal point, so that the decimal is
`s * 10 ^ (n - k)`.  It is the
decimal of `k` digits nearest to the double (of two equally near ones the even
one) among those that read back as this double, and `none` when no decimal of
`k` digits reads back as it. -/
def digitsOfLength (m scale len k : Nat) : Option (Nat × Nat × Int) :=
  let unit := 10 ^ (len - k)
  let lo := m / unit
  let back := fun (s : Nat) => (toDouble ⟨((s * unit : Nat) : Int), scale⟩).hasValue m scale
  if m % unit = 0 then
    if back lo then some (lo, k, (len : Int) - (scale : Int)) else none
  else
    let hi := lo + 1
    let below := m % unit
    let above := unit - below
    let pick := fun (s : Nat) =>
      if s = 10 ^ k then some (1, 1, (len : Int) - (scale : Int) + 1)
      else some (s, k, (len : Int) - (scale : Int))
    match back lo, back hi with
    | true, true =>
      if below < above then pick lo
      else if above < below then pick hi
      else if lo % 2 = 0 then pick lo else pick hi
    | true, false => pick lo
    | false, true => pick hi
    | false, false => none

/-- The shortest decimal that reads back as the double `m / 10 ^ scale`: the
first of the lengths `k`, `k + 1`, ... that has one.  The length `len` of `m`
itself always has one, the value itself, so the search ends there at the
latest. -/
def shortestDigits (m scale len : Nat) : Nat → Nat → Nat × Nat × Int
  | 0, _ => (m, len, (len : Int) - (scale : Int))
  | fuel + 1, k =>
    match digitsOfLength m scale len k with
    | some r => r
    | none => shortestDigits m scale len fuel (k + 1)

/-- A run of `n` zeros. -/
def zeros (n : Nat) : String := String.mk (List.replicate n '0')

/-- The text of the positive number `s * 10 ^ (n - k)`, where `s` has `k`
digits: the digits followed by `n - k` zeros, which is the numeral of
`s * 10 ^ (n - k)`, when `k ≤ n ≤ 21`; the digits with a point after the
first `n` when `0 < n ≤ 21`; `0.` and `-n` zeros before the digits when
`-6 < n ≤ 0`; and otherwise the exponent form, with the exponent `n - 1`. -/
def formatDigits (s k : Nat) (n : Int) : String :=
  let digits := (Nat.repr s).data
  if (k : Int) ≤ n ∧ n ≤ 21 then Nat.repr (s * 10 ^ (n.toNat - k))
  else if 0 < n ∧ n ≤ 21 then
    String.mk (digits.take n.toNat) ++ "." ++ String.mk (digits.drop n.toNat)
  else if -6 < n ∧ n ≤ 0 then "0." ++ zeros (-n).toNat ++ String.mk digits
  else
    let e := n - 1
    (if k = 1 then String.mk digits
      else String.mk (digits.take 1) ++ "." ++ String.mk (digits.drop 1)) ++
      "e" ++ (if 0 ≤ e then "+" else "-") ++ Nat.repr e.natAbs

/-- The text of a number in a string concatenation, as in `code + x`: the
shortest decimal that reads back as the same double. -/
def jsNumberToString : JSNumber → String
  | .NaN => "NaN"
  | .Infinity negative => if negative then "-Infinity" else "Infinity"
  | .finite x =>
    let m := x.mantissa.natAbs
    if m = 0 then "0"
    else
      let len := (Nat.repr m).length
      let r := shortestDigits m x.scale len len 1
      (if x.mantissa < 0 then "-" else "") ++ formatDigits r.1 r.2.1 r.2.2

/-! ## Generator state and the collaborators in Blockly core -/

/-- The mutable state of a generator object: the name database and the
dictionary `definitions_`, kept in insertion order. -/
structure GenState (ν : Type) where
  variableDB_ : ν
  definitions_ : List (String × String)

/-- The assignment `dict[key] = value` on an insertion-ordered dictionary. -/
def dictSet (dict : List (String × String)) (key value : String) :
    List (String × String) :=
  if dict.any (fun e => e.1 == key) then
    dict.map (fun e => if e.1 == key then (key, value) else e)
  else dict ++ [(key, value)]

/-- The lookup `dict[key]`. -/
def dictGet (dict : List (String × String)) (key : String) : Option String :=
  (dict.find? (fun e => e.1 == key)).map (fun e => e.2)

/-- Emitted text together with the generator state after the call. -/
abbrev Out (ν : Type) : Type := String × GenState ν

/-- The functions and constants of Blockly core that the generators call
(`Blockly.Generator.prototype` and `Blockly.Names.prototype`), whose code is
not part of these sources.  `valueToCode`, `statementToCode` and `blockToCode`
run the emitters of other blocks, so they may throw and may allocate names.
An unset `STATEMENT_PREFIX` or `INFINITE_LOOP_TRAP` is the empty string.
`stringOfNumber` is the host conversion `String(Number(text))` of a field
text. -/
structure Core (ν : Type) where
  valueToCode : Block → String → Nat → GenState ν → Except String (Out ν)
  statementToCode : Block → String → GenState ν → Except String (Out ν)
  blockToCode : Option String → GenState ν → Except String (Out ν)
  addLoopTrap : String → String → String
  prefixLines : String → String → String
  allNestedComments : String → String
  getName : String → String → ν → String × ν
  getDistinctName : String → String → ν → String × ν
  stringOfNumber : String → String
  INDENT : String
  STATEMENT_PREFIX : String
  INFINITE_LOOP_TRAP : String

/-- The call `variableDB_.getName(name, type)` on the generator state. -/
def Core.dbGetName {ν : Type} (G : Core ν) (name type : String) (s : GenState ν) :
    String × GenState ν :=
  ((G.getName name type s.variableDB_).1,
    { s with variableDB_ := (G.getName name type s.variableDB_).2 })

/-- The call `variableDB_.getDistinctName(name, type)` on the generator state. -/
def Core.dbGetDistinctName {ν : Type} (G : Core ν) (name type : String)
    (s : GenState ν) : String × GenState ν :=
  ((G.getDistinctName name type s.variableDB_).1,
    { s with variableDB_ := (G.getDistinctName name type s.variableDB_).2 })

namespace Ch

/-- The emitter `Blockly.Ch['controls_repeat_ext']` of loops.js. -/
def controls_repeat_ext {ν : Type} (G : Core ν) (block : Block) (s : GenState ν) :
    Except String (Out ν) := do
  let r0 ←
    if block.getField "TIMES" then
      pure (G.stringOfNumber ((block.getFieldValue "TIMES").getD ""), s)
    else do
      let r ← G.valueToCode block "TIMES" ORDER_ASSIGNMENT s
      pure (jsOr r.1 "0", r.2)
  let repeats := r0.1
  let r1 ← G.statementToCode block "DO" r0.2
  let branch := G.addLoopTrap r1.1 block.id
  let code := ""
  let loopVar := G.dbGetDistinctName "count" Variables.NAME_TYPE r1.2
  let hoist := !isWord repeats && !isNumber repeats
  let e := if hoist then G.dbGetDistinctName "repeat_end" Variables.NAME_TYPE loopVar.2
    else (repeats, loopVar.2)
  let endVar := e.1
  let code := if hoist then code ++ "var " ++ endVar ++ " = " ++ repeats ++ ";\n" else code
  let code := code ++
    ".then(function() \x7b \n" ++
    "    return promiseTimes(" ++ endVar ++ ", function() \x7b\n" ++
    "        return Promise.resolve()\n" ++
    "        " ++ branch ++ "\n" ++
    "    \x7d);\n" ++
    "\x7d)\n"
  pure (code, e.2)

/-- The emitter `Blockly.Ch['controls_whileUntil']` of loops.js. -/
def controls_whileUntil {ν : Type} (G : Core ν) (block : Block) (s : GenState ν) :
    Except String (Out ν) := do
  let until_ := block.getFieldValue "MODE" == some "UNTIL"
  let r0 ← G.valueToCode block "BOOL"
    (if until_ then ORDER_LOGICAL_NOT else ORDER_NONE) s
  let argument0 := jsOr r0.1 "false"
  let r1 ← G.statementToCode block "DO" r0.2
  let branch := G.addLoopTrap r1.1 block.id
  let argument0 := if until_ then "!" ++ argument0 else argument0
  let code :=
    ".then(function() \x7b\n" ++
    "    return promiseWhile( \n" ++
    "        function() \x7b return ( " ++ argument0 ++ " ) \x7d,\n" ++
    "        function() \x7b\n" ++
    "            return Promise.resolve()\n" ++
    "            " ++ branch ++ "\n" ++
    "        \x7d\n" ++
    "    );\n" ++
    "\x7d)\n"
  pure (code, r1.2)

/-- The update of the loop variable in the branch of `controls_for` for
numeric literals (loops.js, lines 116 to 121), after the variable's name. -/
def forStaticUpdate (up : Bool) (increment : String) : String :=
  let step := jsAbs (parseFloat increment)
  if jsIsOne step then (if up then "++" else "--")
  else (if up then " += " else " -= ") ++ jsNumberToString step

/-- The branch of `controls_for` for numeric literals (loops.js, lines 105 to
125). -/
def forStatic (variable0 argument0 argument1 increment branch : String) : String :=
  let up := jsLe (parseFloat argument0) (parseFloat argument1)
  let code :=
    ".then(function() \x7b\n" ++
    "    " ++ variable0 ++ " = " ++ argument0 ++ ";\n" ++
    "   return promiseWhile(\n" ++
    "       function()\x7breturn (" ++ variable0 ++ (if up then " <= " else " >= ") ++
      argument1 ++ ");\x7d,\n" ++
    "       function() \x7b\n" ++
    "           return Promise.resolve()\n" ++
    "           " ++ branch ++ "\n" ++
    "           .then( function() \x7b\n" ++
    "           " ++ variable0
  let code := code ++ forStaticUpdate up increment
  let code := code ++ ";\n"
  let code := code ++ "           \x7d)\n"
  let code := code ++ "       \x7d);\n" ++
    "\x7d)\n"
  code

/-- The other branch of `controls_for` (loops.js, lines 127 to 176). -/
def forDynamic {ν : Type} (G : Core ν)
    (variable0 argument0 argument1 increment branch : String) (s : GenState ν) : Out ν :=
  let code := ".then(function() \x7b\n"
  let hoistStart := !isWord argument0 && !isNumber argument0
  let a := if hoistStart then
      G.dbGetDistinctName (variable0 ++ "_start") Variables.NAME_TYPE s
    else (argument0, s)
  let startVar := a.1
  let code := if hoistStart then code ++ "var " ++ startVar ++ " = " ++ argument0 ++ ";\n"
    else code
  let hoistEnd := !isWord argument1 && !isNumber argument1
  let b := if hoistEnd then
      G.dbGetDistinctName (variable0 ++ "_end") Variables.NAME_TYPE a.2
    else (argument1, a.2)
  let endVar := b.1
  let code := if hoistEnd then code ++ "var " ++ endVar ++ " = " ++ argument1 ++ ";\n"
    else code
  let c := G.dbGetDistinctName (variable0 ++ "_inc") Variables.NAME_TYPE b.2
  let incVar := c.1
  let code := code ++ "var " ++ incVar ++ " = "
  let code := if isNumber increment then
      code ++ jsNumberToString (jsAbs (parseFloat increment)) ++ ";\n"
    else code ++ "Math.abs(" ++ increment ++ ");\n"
  let code := code ++ "if (" ++ startVar ++ " > " ++ endVar ++ ") \x7b\n"
  let code := code ++ G.INDENT ++ incVar ++ " = -" ++ incVar ++ ";\n"
  let code := code ++ "\x7d\n"
  let code := code ++
    "return promiseWhile(\n" ++
    "    function() \x7b\n" ++
    "        return " ++ incVar ++ " >= 0 ? " ++
      variable0 ++ " <= " ++ endVar ++ " : " ++
      variable0 ++ " >= " ++ endVar ++ ";\n" ++
    "    \x7d,\n" ++
    "    function() \x7b\n" ++
    "        " ++ branch ++ "\n" ++
    "        " ++ variable0 ++ " += " ++ incVar ++ ";\n" ++
    "    \x7d);\n"
  let code := code ++ "\x7d)\n"
  (code, c.2)

/-- The emitter `Blockly.Ch['controls_for']` of loops.js. -/
def controls_for {ν : Type} (G : Core ν) (block : Block) (s : GenState ν) :
    Except String (Out ν) := do
  let n := G.dbGetName ((block.getFieldValue "VAR").getD "") Variables.NAME_TYPE s
  let variable0 := n.1
  let r0 ← G.valueToCode block "FROM" ORDER_ASSIGNMENT n.2
  let argument0 := jsOr r0.1 "0"
  let r1 ← G.valueToCode block "TO" ORDER_ASSIGNMENT r0.2
  let argument1 := jsOr r1.1 "0"
  let r2 ← G.valueToCode block "BY" ORDER_ASSIGNMENT r1.2
  let increment := jsOr r2.1 "1"
  let r3 ← G.statementToCode block "DO" r2.2
  let branch := G.addLoopTrap r3.1 block.id
  if isNumber argument0 && isNumber argument1 && isNumber increment then
    pure (forStatic variable0 argument0 argument1 increment branch, r3.2)
  else
    pure (forDynamic G variable0 argument0 argument1 increment branch r3.2)

/-- The emitter `Blockly.Ch['controls_forEach']` of loops.js. -/
def controls_forEach {ν : Type} (G : Core ν) (block : Block) (s : GenState ν) :
    Except String (Out ν) := do
  let n := G.dbGetName ((block.getFieldValue "VAR").getD "") Variables.NAME_TYPE s
  let variable0 := n.1
  let r0 ← G.valueToCode block "LIST" ORDER_ASSIGNMENT n.2
  let argument0 := jsOr r0.1 "[]"
  let r1 ← G.statementToCode block "DO" r0.2
  let branch := G.addLoopTrap r1.1 block.id
  let code := ""
  let hoist := !isWord argument0
  let l := if hoist then
      G.dbGetDistinctName (variable0 ++ "_list") Variables.NAME_TYPE r1.2
    else (argument0, r1.2)
  let listVar := l.1
  let code := if hoist then code ++ "var " ++ listVar ++ " = " ++ argument0 ++ ";\n"
    else code
  let i := G.dbGetDistinctName (variable0 ++ "_index") Variables.NAME_TYPE l.2
  let indexVar := i.1
  let branch := G.INDENT ++ variable0 ++ " = " ++
    listVar ++ "[" ++ indexVar ++ "];\n" ++ branch
  let code := code ++ "for (var " ++ indexVar ++ " in " ++ listVar ++ ") \x7b\n" ++
    branch ++ "\x7d\n"
  pure (code, i.2)

/-- The emitter `Blockly.Ch['controls_flow_statements']` of loops.js. -/
def controls_flow_statements (block : Block) : Except String String :=
  match block.getFieldValue "FLOW" with
  | some "BREAK" =>
    .ok ".then( function() \x7b blockly_loop_break_flag = true; return Promise.resolve(); \x7d)"
  | _ => .error "Unknown flow statement."

end Ch

/-! ## Procedures -/

/-- The loop of `procedures_defreturn` that fills `args` with the allocated
names of `block.arguments_`. -/
def argNames {ν : Type} (G : Core ν) : List String → GenState ν → List String × GenState ν
  | [], s => ([], s)
  | a :: rest, s =>
    let r := G.dbGetName a Variables.NAME_TYPE s
    let t := argNames G rest r.2
    (r.1 :: t.1, t.2)

/-- The loop of the call emitters that fills `args` with the codes of the
slots `ARG0`, `ARG1`, ...; `count` slots remain, the next one is number `x`. -/
def argCodes {ν : Type} (G : Core ν) (block : Block) :
    Nat → Nat → GenState ν → Except String (List String × GenState ν)
  | 0, _, s => pure ([], s)
  | count + 1, x, s => do
    let r ← G.valueToCode block ("ARG" ++ Nat.repr x) ORDER_COMMA s
    let t ← argCodes G block count (x + 1) r.2
    pure (jsOr r.1 "null" :: t.1, t.2)

/-- The body of `procedures_defreturn` up to the call of `scrub_` (procedures.js,
lines 34 to 69; the Cpp and the JavaScript file agree on them up to the name
of the generator object).  It returns the name and the text of the function. -/
def defreturnCode {ν : Type} (G : Core ν) (block : Block) (s : GenState ν) :
    Except String ((String × String) × GenState ν) := do
  let n := G.dbGetName ((block.getFieldValue "NAME").getD "") Procedures.NAME_TYPE s
  let funcName := n.1
  let r0 ← G.statementToCode block "STACK" n.2
  let branch := r0.1
  let branch := if G.STATEMENT_PREFIX ≠ "" then
      G.prefixLines (replaceId G.STATEMENT_PREFIX block.id) G.INDENT ++ branch
    else branch
  let branch := if G.INFINITE_LOOP_TRAP ≠ "" then
      replaceId G.INFINITE_LOOP_TRAP block.id ++ branch
    else branch
  let r1 ← G.valueToCode block "RETURN" ORDER_NONE r0.2
  let returnValue := jsOr r1.1 ""
  let returnValue := if returnValue ≠ "" then
      ".then( function() \x7b \n" ++
      "   funcResolve(" ++ returnValue ++ ");\n" ++
      "   return Promise.reject(\"return\");\n" ++
      "\x7d)\n"
    else returnValue
  let args := argNames G block.arguments_ r1.2
  let code := "function " ++ funcName ++ "(" ++ ", ".intercalate args.1 ++ ") \x7b\n" ++
    "    return new Promise( function(funcResolve, funcReject) \x7b\n" ++
    "        Promise.resolve()\n" ++
    "        " ++ branch ++ returnValue ++
    "        .catch( function(reason) \x7b\n" ++
    "            if(reason == \"break\" || reason == \"return\") \x7b\x7d \n" ++
    "            else \x7breturn Promise.reject(reason);\x7d\n" ++
    "        \x7d );\n" ++
    "    \x7d);\n" ++
    "\x7d\n"
  pure ((funcName, code), args.2)

namespace Cpp

/-- The helper `Blockly.Cpp.scrub_` of cpp.js. -/
def scrub_ {ν : Type} (G : Core ν) (block : Block) (code : String) (s : GenState ν) :
    Except String (Out ν) := do
  let commentCode := ""
  let unplugged := match block.outputConnection with
    | some (some _) => false
    | _ => true
  let commentCode :=
    if unplugged then
      let comment := block.getCommentText
      let commentCode := if comment ≠ "" then
          commentCode ++ G.prefixLines comment "// " ++ "\n"
        else commentCode
      block.inputList.foldl (fun acc inp =>
        if inp.type == INPUT_VALUE then
          match inp.targetBlock with
          | some childBlock =>
            let comment := G.allNestedComments childBlock
            if comment ≠ "" then acc ++ G.prefixLines comment "// " else acc
          | none => acc
        else acc) commentCode
    else commentCode
  let nextBlock := match block.nextConnection with
    | some target => target
    | none => none
  let r ← G.blockToCode nextBlock s
  pure (commentCode ++ code ++ r.1, r.2)

/-- The emitter `Blockly.Cpp['procedures_defreturn']` of cpp/procedures.js,
which is also `Blockly.Cpp['procedures_defnoreturn']`.  The result `none` is
`null`. -/
def procedures_defreturn {ν : Type} (G : Core ν) (block : Block) (s : GenState ν) :
    Except String (Option String × GenState ν) := do
  let d ← defreturnCode G block s
  let funcName := d.1.1
  let r ← scrub_ G block d.1.2 d.2
  pure (none, { r.2 with definitions_ := dictSet r.2.definitions_ funcName r.1 })

/-- The emitter `Blockly.Cpp['procedures_defnoreturn']`. -/
def procedures_defnoreturn {ν : Type} (G : Core ν) (block : Block) (s : GenState ν) :
    Except String (Option String × GenState ν) :=
  procedures_defreturn G block s

/-- The emitter `Blockly.Cpp['procedures_callreturn']`: a code and its
precedence. -/
def procedures_callreturn {ν : Type} (G : Core ν) (block : Block) (s : GenState ν) :
    Except String ((String × Nat) × GenState ν) := do
  let n := G.dbGetName ((block.getFieldValue "NAME").getD "") Procedures.NAME_TYPE s
  let funcName := n.1
  let args ← argCodes G block block.arguments_.length 0 n.2
  let code := funcName ++ "(" ++ ", ".intercalate args.1 ++ ")"
  pure ((code, ORDER_FUNCTION_CALL), args.2)

/-- The emitter `Blockly.Cpp['procedures_callnoreturn']`. -/
def procedures_callnoreturn {ν : Type} (G : Core ν) (block : Block) (s : GenState ν) :
    Except String (Out ν) := do
  let n := G.dbGetName ((block.getFieldValue "NAME").getD "") Procedures.NAME_TYPE s
  let funcName := n.1
  let args ← argCodes G block block.arguments_.length 0 n.2
  let code := ".then( function() \x7b\n" ++
    "    return " ++ funcName ++ "(" ++ ", ".intercalate args.1 ++ ");\n" ++
    "\x7d)\n"
  pure (code, args.2)

/-- The emitter `Blockly.Cpp['procedures_ifreturn']`. -/
def procedures_ifreturn {ν : Type} (G : Core ν) (block : Block) (s : GenState ν) :
    Except String (Out ν) := do
  let r0 ← G.valueToCode block "CONDITION" ORDER_NONE s
  let condition := jsOr r0.1 "false"
  let code := ".then( function() \x7b \n" ++
    "    if (" ++ condition ++ ") \x7b\n"
  let r1 ←
    if block.hasReturnValue_ then do
      let r ← G.valueToCode block "VALUE" ORDER_NONE r0.2
      let value := jsOr r.1 "null"
      pure (code ++ "        funcResolve(" ++ value ++ ");\n" ++
        "        return Promise.reject(\"return\");\n", r.2)
    else
      pure (code ++ "        return Promise.reject(\"return\");\n", r0.2)
  let code := r1.1 ++ "    \x7d else \x7b\n" ++
    "        return Promise.resolve();\n" ++
    "    \x7d\n\x7d)\n"
  pure (code, r1.2)

end Cpp

namespace JavaScript

/-- The emitter `Blockly.JavaScript['procedures_defreturn']` of
javascript/procedures.js, which is also `procedures_defnoreturn`.  The helper
`Blockly.JavaScript.scrub_` is not part of these sources and is the argument
`scrub`. -/
def procedures_defreturn {ν : Type} (G : Core ν)
    (scrub : Block → String → GenState ν → Except String (Out ν))
    (block : Block) (s : GenState ν) :
    Except String (Option String × GenState ν) := do
  let d ← defreturnCode G block s
  let funcName := d.1.1
  let r ← scrub block d.1.2 d.2
  pure (none, { r.2 with definitions_ := dictSet r.2.definitions_ funcName r.1 })

/-- The emitter `Blockly.JavaScript['procedures_defnoreturn']`. -/
def procedures_defnoreturn {ν : Type} (G : Core ν)
    (scrub : Block → String → GenState ν → Except String (Out ν))
    (block : Block) (s : GenState ν) :
    Except String (Option String × GenState ν) :=
  procedures_defreturn G scrub block s

/-- The emitter `Blockly.JavaScript['procedures_callreturn']`. -/
def procedures_callreturn {ν : Type} (G : Core ν) (block : Block) (s : GenState ν) :
    Except String ((String × Nat) × GenState ν) := do
  let n := G.dbGetName ((block.getFieldValue "NAME").getD "") Procedures.NAME_TYPE s
  let funcName := n.1
  let args ← argCodes G block block.arguments_.length 0 n.2
  let code := funcName ++ "(" ++ ", ".intercalate args.1 ++ ")"
  pure ((code, ORDER_FUNCTION_CALL), args.2)

/-- The emitter `Blockly.JavaScript['procedures_callnoreturn']`. -/
def procedures_callnoreturn {ν : Type} (G : Core ν) (block : Block) (s : GenState ν) :
    Except String (Out ν) := do
  let n := G.dbGetName ((block.getFieldValue "NAME").getD "") Procedures.NAME_TYPE s
  let funcName := n.1
  let args ← argCodes G block block.arguments_.length 0 n.2
  let code :=
    ".then( function() \x7b return new Promise( function( resolve, reject) \x7b\n" ++
    "    " ++ funcName ++ "(" ++ ", ".intercalate args.1 ++ ");\n" ++
    "    resolve();\n" ++
    "\x7d); \x7d)\n"
  pure (code, args.2)

/-- The emitter `Blockly.JavaScript['procedures_ifreturn']`. -/
def procedures_ifreturn {ν : Type} (G : Core ν) (block : Block) (s : GenState ν) :
    Except String (Out ν) := do
  let r0 ← G.valueToCode block "CONDITION" ORDER_NONE s
  let condition := jsOr r0.1 "false"
  let code := ".then( function() \x7b \n" ++
    "    if (" ++ condition ++ ") \x7b\n"
  let r1 ←
    if block.hasReturnValue_ then do
      let r ← G.valueToCode block "VALUE" ORDER_NONE r0.2
      let value := jsOr r.1 "null"
      pure (code ++ "    function_return_value = " ++ value ++ ";\n" ++
        "    return Promise.reject(\"return\");", r.2)
    else
      pure (code ++ "    return Promise.reject(\"return\");\n", r0.2)
  let code := r1.1 ++ "    \x7d else \x7b\n" ++
    "        return Promise.resolve();\n" ++
    "    \x7d\n\x7d)\n"
  pure (code, r1.2)

end JavaScript

/-! ## Reading the emitted counting loop -/

/-- Modelled from the spec: the driver `promiseWhile(guard, body)` of the
execution environment, "a while condition holds driver" that runs the
iterations strictly one after the other.  The state is what the guard reads;
the result lists the states in which the body ran.  It is `none` when a step
cannot be read or when the fuel is used up first. -/
def promiseWhile {σ : Type} (guard : σ → Option Bool) (body : σ → Option σ) :
    Nat → σ → Option (List σ)
  | 0, _ => none
  | fuel + 1, st =>
    match guard st with
    | none => none
    | some false => some []
    | some true =>
      match body st with
      | none => none
      | some st1 => (promiseWhile guard body fuel st1).map (fun t => st :: t)

/-- The integer written by a text, when the text is an integer literal. -/
def readInt (cs : List Char) : Option Int :=
  match scanNumber cs with
  | some (⟨m, 0⟩, rest) => if rest.all isSpace then some m else none
  | _ => none

/-- The value of the emitted guard `(v <op> bound)` when the loop variable
holds `v`: `op` is the operator text and `bound` the text after it. -/
def readGuard (op bound : String) (v : Int) : Option Bool :=
  match readInt bound.data with
  | none => none
  | some b =>
    if op = " <= " then some (decide (v ≤ b))
    else if op = " >= " then some (decide (v ≥ b))
    else none

/-- The value of the loop variable after the emitted update, whose text after
the variable's name is `text`, when it held `v` before. -/
def readUpdate (text : String) (v : Int) : Option Int :=
  match text.data with
  | ['+', '+'] => some (v + 1)
  | ['-', '-'] => some (v - 1)
  | ' ' :: '+' :: '=' :: ' ' :: n => (readInt n).map (fun k => v + k)
  | ' ' :: '-' :: '=' :: ' ' :: n => (readInt n).map (fun k => v - k)
  | _ => none

/-! ## A reference instance of the collaborators

The emitters are defined for every `Core`.  This instance fixes one, so that
they can be evaluated on concrete blocks. -/

/-- Modelled from the spec: the state of the Name Allocator `Blockly.Names`
(not part of these sources): the reserved words, the bindings made so far and
every identifier issued so far. -/
structure NameDB where
  reserved : List String
  db : List ((String × String) × String)
  issued : List String
  deriving Repr, DecidableEq

/-- Modelled from the spec: `getDistinctName(hint, namespace)` of the Name
Allocator manufactures a fresh identifier, distinct from every identifier
issued before and from the reserved words: the hint itself, or the hint
followed by the first number from 2 on that makes it fresh. -/
def NameDB.getDistinctName (hint _type : String) (d : NameDB) : String × NameDB :=
  let used := d.issued ++ d.reserved
  let candidate := fun (i : Nat) => if i = 0 then hint else hint ++ Nat.repr (i + 1)
  let name := match (List.range (used.length + 1)).find?
      (fun i => !used.contains (candidate i)) with
    | some i => candidate i
    | none => hint
  (name, { d with issued := d.issued ++ [name] })

/-- Modelled from the spec: `getName(symbolicName, namespace)` of the Name
Allocator: the identifier bound to the pair, bound on first reference to a
fresh one. -/
def NameDB.getName (name type : String) (d : NameDB) : String × NameDB :=
  match d.db.find? (fun e => e.1 == (name, type)) with
  | some e => (e.2, d)
  | none =>
    let r := NameDB.getDistinctName name type d
    (r.1, { r.2 with db := r.2.db ++ [((name, type), r.1)] })

/-- Modelled from the spec: `prefixLines(text, lead)` of the generator base
class (not part of these sources) puts `lead` before every line of the
text. -/
def prefixLinesChars (lead : List Char) : List Char → List Char
  | [] => []
  | c :: rest =>
    if c.toNat == 10 && !rest.isEmpty then c :: (lead ++ prefixLinesChars lead rest)
    else c :: prefixLinesChars lead rest

/-- A block of another kind, as far as the reference instance reads it: the
code its emitter returns, the precedence of that code and its comments. -/
structure Leaf where
  code : String
  order : Nat := ORDER_ATOMIC
  comments : String := ""
  deriving Repr, DecidableEq

/-- The block plugged into the input `name` of a block, looked up in a
workspace `ws` of leaves. -/
def inputTarget (ws : List (String × Leaf)) (block : Block) (name : String) : Option Leaf :=
  match block.inputList.find? (fun i => i.name == name) with
  | none => none
  | some i =>
    match i.targetBlock with
    | none => none
    | some id => (ws.find? (fun e => e.1 == id)).map (fun e => e.2)

/-- Modelled from the spec: the collaborators in Blockly core over a workspace
of leaves.  `valueToCode` is the Expression Emitter: an empty slot yields no
code, and the code of the operand is wrapped in parentheses when its own
precedence exceeds the precedence the context requires.  No statement prefix
and no loop trap is set. -/
def refCore (ws : List (String × Leaf)) : Core NameDB where
  valueToCode := fun block name order s =>
    match inputTarget ws block name with
    | none => .ok ("", s)
    | some l => .ok (if l.order > order then "(" ++ l.code ++ ")" else l.code, s)
  statementToCode := fun block name s =>
    match inputTarget ws block name with
    | none => .ok ("", s)
    | some l => .ok (l.code, s)
  blockToCode := fun target s =>
    match target with
    | none => .ok ("", s)
    | some id => .ok (((ws.find? (fun e => e.1 == id)).map (fun e => e.2.code)).getD "", s)
  addLoopTrap := fun branch _ => branch
  prefixLines := fun text lead => lead ++ String.mk (prefixLinesChars lead.data text.data)
  allNestedComments := fun id =>
    ((ws.find? (fun e => e.1 == id)).map (fun e => e.2.comments)).getD ""
  getName := NameDB.getName
  getDistinctName := NameDB.getDistinctName
  stringOfNumber := fun t =>
    if isNumber t then jsNumberToString (parseFloat t) else "NaN"
  INDENT := "  "
  STATEMENT_PREFIX := ""
  INFINITE_LOOP_TRAP := ""

/-- The generator state at the start of a pass over a workspace with no
reserved words. -/
def refState : GenState NameDB :=
  { variableDB_ := { reserved := [], db := [], issued := [] }, definitions_ := [] }

/-! ## The generator object between passes: init and finish

The dictionaries `definitions_` and `functionNames_` hold, as keys, the name
`variables` and identifiers issued by the name database, never array indices,
so a `for ... in` loop visits them in insertion order. -/

/-- The properties of a generator object that `init` and `finish` create and
delete; `none` is `undefined`. -/
structure Generator (ν : Type) where
  variableDB_ : Option ν
  definitions_ : Option (List (String × String))
  functionNames_ : Option (List (String × String))

/-- The constructor `new Blockly.Names(reservedWords)` and the method `reset`
of the name database in Blockly core, whose code is not part of these
sources. -/
structure Names (ν : Type) where
  create : String → ν
  reset : ν → ν

/-- The words that ch.js and cpp.js pass to `addReservedWords`. -/
def RESERVED_WORDS_ : String :=
  "Blockly," ++
  "auto,const,double,float,int,short,struct,unsigned," ++
  "break,continue,else,for,long,signed,switch,void," ++
  "case,default,enum,goto,register,sizeof,typedef,volatile," ++
  "char,do,extern,if,return,static,union,while,"

/-- The assignment `x += text` on an array element: an element that was
never assigned is `undefined` and joins the text as the word `undefined`. -/
def jsPlusAssign (x : Option String) (text : String) : String :=
  match x with
  | some t => t ++ text
  | none => "undefined" ++ text

/-- One round of the loop of `init` (ch.js and cpp.js, lines 111 to 124) for
the variable `outputType`, a pair of a name and a kind: the element
`defvars[i]` it leaves, and the name database after it.  `linkbotType` is
`CLinkbotI` in ch.js and `CLinkbot` in cpp.js. -/
def initVariable {ν : Type} (G : Core ν) (linkbotType : String)
    (outputType : String × String) (db : ν) : String × ν :=
  let type := "int"
  if outputType.2 == "Linkbot" then
    let type := linkbotType
    let n1 := G.getName outputType.1 Variables.NAME_TYPE db
    let n2 := G.getName outputType.1 Variables.NAME_TYPE n1.2
    let defvar : Option String := some (
      "double " ++ n1.1 ++ "_wheelDiameter = 3.5;\n" ++
      "double " ++ n2.1 ++ "_trackWidth = 3.7;\n")
    let n3 := G.getName outputType.1 Variables.NAME_TYPE n2.2
    (jsPlusAssign defvar (type ++ " " ++ n3.1 ++ ";"), n3.2)
  else
    let type := if outputType.2 == "Number" then "double" else type
    let defvar : Option String := none
    let n3 := G.getName outputType.1 Variables.NAME_TYPE db
    (jsPlusAssign defvar (type ++ " " ++ n3.1 ++ ";"), n3.2)

/-- The loop of `init` over the variables: the array `defvars` and the name
database after it. -/
def initVariables {ν : Type} (G : Core ν) (linkbotType : String) :
    List (String × String) → ν → List String × ν
  | [], db => ([], db)
  | v :: rest, db =>
    let r := initVariable G linkbotType v db
    let t := initVariables G linkbotType rest r.2
    (r.1 :: t.1, t.2)

/-- The body shared by `Blockly.Ch.init` and `Blockly.Cpp.init`.  The result
of `Blockly.Variables.allVariablesTypes(workspace)`, a function of Blockly
core, is the argument `variables_`: the pairs of a name and a kind. -/
def initWith {ν : Type} (N : Names ν) (G : Core ν) (linkbotType : String)
    (variables_ : List (String × String)) (g : Generator ν) : Generator ν :=
  let definitions_ : List (String × String) := []
  let functionNames_ : List (String × String) := []
  let db := match g.variableDB_ with
    | none => N.create RESERVED_WORDS_
    | some db => N.reset db
  let defvars := initVariables G linkbotType variables_ db
  { variableDB_ := some defvars.2,
    definitions_ := some (dictSet definitions_ "variables" ("\n".intercalate defvars.1)),
    functionNames_ := some functionNames_ }

/-- The body shared by `Blockly.Ch.finish` and `Blockly.Cpp.finish`; the call
of `reset` on a missing name database throws. -/
def finishWith {ν : Type} (N : Names ν) (code : String) (g : Generator ν) :
    Except String (String × Generator ν) :=
  let definitions := match g.definitions_ with
    | some d => d.map (fun e => e.2)
    | none => []
  match g.variableDB_ with
  | none => .error "TypeError: variableDB_ is undefined"
  | some db =>
    .ok ("\n\n".intercalate definitions ++ "\n\n\n" ++ code,
      { variableDB_ := some (N.reset db), definitions_ := none, functionNames_ := none })

/-- The function `Blockly.Ch.init` of ch.js. -/
def Ch.init {ν : Type} (N : Names ν) (G : Core ν) (variables_ : List (String × String))
    (g : Generator ν) : Generator ν :=
  initWith N G "CLinkbotI" variables_ g

/-- The function `Blockly.Cpp.init` of cpp.js. -/
def Cpp.init {ν : Type} (N : Names ν) (G : Core ν) (variables_ : List (String × String))
    (g : Generator ν) : Generator ν :=
  initWith N G "CLinkbot" variables_ g

/-- The function `Blockly.Ch.finish` of ch.js. -/
def Ch.finish {ν : Type} (N : Names ν) (code : String) (g : Generator ν) :
    Except String (String × Generator ν) :=
  finishWith N code g

/-- The function `Blockly.Cpp.finish` of cpp.js; it also logs the definitions
to the console. -/
def Cpp.finish {ν : Type} (N : Names ν) (code : String) (g : Generator ν) :
    Except String (String × Generator ν) :=
  finishWith N code g

/-- The generator state during a pass, for an object that has been
initialised. -/
def Generator.pass {ν : Type} (g : Generator ν) : Option (GenState ν) :=
  match g.variableDB_, g.definitions_ with
  | some db, some d => some { variableDB_ := db, definitions_ := d }
  | _, _ => none

/-- Modelled from the spec: the words of a comma separated list. -/
def splitCommas : List Char → List Char → List String
  | [], acc => if acc.isEmpty then [] else [String.mk acc.reverse]
  | c :: rest, acc =>
    if c == ',' then
      (if acc.isEmpty then splitCommas rest [] else String.mk acc.reverse :: splitCommas rest [])
    else splitCommas rest (c :: acc)

/-- Modelled from the spec: the Name Allocator is created over the reserved
words with no binding, and `reset()` clears all bindings. -/
def refNames : Names NameDB where
  create := fun words => { reserved := splitCommas words.data [], db := [], issued := [] }
  reset := fun d => { d with db := [], issued := [] }

/-! ## The claimed shape of the emitted text -/

/-- Whether the text `needle` occurs in the text `hay`. -/
def occursIn (needle hay : String) : Bool :=
  hay.data.tails.any (fun t => needle.data.isPrefixOf t)

/-- The number of places at which the text `needle` occurs in the text
`hay`. -/
def occurrences (needle hay : String) : Nat :=
  (hay.data.tails.filter (fun t => needle.data.isPrefixOf t)).length

/-- Whether the text `hay` begins with the text `lead`. -/
def beginsWith (lead hay : String) : Bool :=
  lead.data.isPrefixOf hay.data

/-- The final return stage of a procedure, as the spec describes it: a stage
that calls `funcResolve` on the return code and then rejects with the
sentinel `return`. -/
def returnStage (r : String) : String :=
  ".then( function() \x7b \n" ++
  "   funcResolve(" ++ r ++ ");\n" ++
  "   return Promise.reject(\"return\");\n" ++
  "\x7d)\n"

/-- The recovery stage of a procedure: it swallows the sentinels `break` and
`return` and rejects again with every other reason. -/
def catchStage : String :=
  "        .catch( function(reason) \x7b\n" ++
  "            if(reason == \"break\" || reason == \"return\") \x7b\x7d \n" ++
  "            else \x7breturn Promise.reject(reason);\x7d\n" ++
  "        \x7d );\n"

/-- The definition of a procedure, as the spec describes it: a function of
the argument names that returns a promise over `funcResolve` and `funcReject`
whose chain is `Promise.resolve()`, the body chain, the return stage when
there is a return code, and the recovery stage. -/
def procedureText (funcName : String) (args : List String) (body : String)
    (ret : Option String) : String :=
  "function " ++ funcName ++ "(" ++ ", ".intercalate args ++ ") \x7b\n" ++
  "    return new Promise( function(funcResolve, funcReject) \x7b\n" ++
  "        Promise.resolve()\n" ++
  "        " ++ body ++
  (match ret with
    | some r => returnStage r
    | none => "") ++
  catchStage ++
  "    \x7d);\n" ++
  "\x7d\n"

/-! ## Sample workspaces -/

/-- The leaves of the sample workspaces: operands and a loop body. -/
def sampleLeaves : List (String × Leaf) :=
  [("done", { code := "done" }), ("bang", { code := "!" }),
   ("notdone", { code := "!done", order := ORDER_LOGICAL_NOT }),
   ("body", { code := ".then(step)" }),
   ("one", { code := "1" }), ("five", { code := "5" }), ("two", { code := "2" }),
   ("ten", { code := "10" }), ("a", { code := "a" }),
   ("sum", { code := "x + 1", order := 6 }), ("xs", { code := "xs" })]

/-- An until-loop over the guard `done`. -/
def untilDone : Block :=
  { id := "w", fields := [("MODE", "UNTIL")],
    inputList := [⟨"BOOL", INPUT_VALUE, some "done"⟩, ⟨"DO", 3, some "body"⟩] }

/-- A while-loop over the guard `!done`. -/
def whileNotDone : Block :=
  { id := "w", fields := [("MODE", "WHILE")],
    inputList := [⟨"BOOL", INPUT_VALUE, some "notdone"⟩, ⟨"DO", 3, some "body"⟩] }

/-- An until-loop whose guard slot is empty. -/
def untilEmpty : Block :=
  { id := "w", fields := [("MODE", "UNTIL")],
    inputList := [⟨"BOOL", INPUT_VALUE, none⟩, ⟨"DO", 3, some "body"⟩] }

/-- A while-loop whose guard code is the text `!` alone. -/
def whileBang : Block :=
  { id := "w", fields := [("MODE", "WHILE")],
    inputList := [⟨"BOOL", INPUT_VALUE, some "bang"⟩, ⟨"DO", 3, some "body"⟩] }

/-- A counting loop from 1 to 5 by 1. -/
def forOneToFive : Block :=
  { id := "f", fields := [("VAR", "i")],
    inputList := [⟨"FROM", INPUT_VALUE, some "one"⟩, ⟨"TO", INPUT_VALUE, some "five"⟩,
      ⟨"BY", INPUT_VALUE, some "one"⟩, ⟨"DO", 3, some "body"⟩] }

/-- A counting loop from 5 to 1 by 1. -/
def forFiveToOne : Block :=
  { id := "f", fields := [("VAR", "i")],
    inputList := [⟨"FROM", INPUT_VALUE, some "five"⟩, ⟨"TO", INPUT_VALUE, some "one"⟩,
      ⟨"BY", INPUT_VALUE, some "one"⟩, ⟨"DO", 3, some "body"⟩] }

/-- A counting loop from the variable `a` to 10 by 2. -/
def forFromVariable : Block :=
  { id := "f", fields := [("VAR", "i")],
    inputList := [⟨"FROM", INPUT_VALUE, some "a"⟩, ⟨"TO", INPUT_VALUE, some "ten"⟩,
      ⟨"BY", INPUT_VALUE, some "two"⟩, ⟨"DO", 3, some "body"⟩] }

/-- The generator state after the loop variable `i` has been bound. -/
def refStateI : GenState NameDB :=
  { variableDB_ := { reserved := [], db := [(("i", "VARIABLE"), "i")], issued := ["i"] },
    definitions_ := [] }

/-- The generator state after `i` has been bound and `i_inc` issued. -/
def refStateIInc : GenState NameDB :=
  { variableDB_ := { reserved := [], db := [(("i", "VARIABLE"), "i")], issued := ["i", "i_inc"] },
    definitions_ := [] }

/-- A counting loop from the sum `x + 1` to 10 by 2. -/
def forFromSum : Block :=
  { id := "f", fields := [("VAR", "i")],
    inputList := [⟨"FROM", INPUT_VALUE, some "sum"⟩, ⟨"TO", INPUT_VALUE, some "ten"⟩,
      ⟨"BY", INPUT_VALUE, some "two"⟩, ⟨"DO", 3, some "body"⟩] }

/-- The generator state after `i` has been bound and `i_start` and `i_inc`
issued. -/
def refStateIStartInc : GenState NameDB :=
  { variableDB_ :=
      { reserved := [], db := [(("i", "VARIABLE"), "i")], issued := ["i", "i_start", "i_inc"] },
    definitions_ := [] }

/-- A loop over the list `xs` with an empty body. -/
def forEachXs : Block :=
  { id := "e", fields := [("VAR", "x")],
    inputList := [⟨"LIST", INPUT_VALUE, some "xs"⟩, ⟨"DO", 3, none⟩] }

/-- The generator state after `x` has been bound and `x_index` issued. -/
def refStateXIndex : GenState NameDB :=
  { variableDB_ :=
      { reserved := [], db := [(("x", "VARIABLE"), "x")], issued := ["x", "x_index"] },
    definitions_ := [] }

/-- A conditional return of the value `10` under the condition `a`. -/
def ifReturnTen : Block :=
  { id := "r", fields := [],
    inputList := [⟨"CONDITION", INPUT_VALUE, some "a"⟩, ⟨"VALUE", INPUT_VALUE, some "ten"⟩],
    hasReturnValue_ := true }

/-- The definition of a procedure `go(p, q)` that returns `x + 1`. -/
def procGo : Block :=
  { id := "p", fields := [("NAME", "go")],
    inputList := [⟨"STACK", 3, some "body"⟩, ⟨"RETURN", INPUT_VALUE, some "sum"⟩],
    arguments_ := ["p", "q"] }

/-- The definition of a procedure `run()` without a return value. -/
def procRun : Block :=
  { id := "p", fields := [("NAME", "run")],
    inputList := [⟨"STACK", 3, some "body"⟩, ⟨"RETURN", INPUT_VALUE, none⟩] }

/-- The generator state after the procedure name `go` has been bound. -/
def refStateGoName : GenState NameDB :=
  { variableDB_ :=
      { reserved := [], db := [(("go", "PROCEDURE"), "go")], issued := ["go"] },
    definitions_ := [] }

/-- The generator state after `go`, `p` and `q` have been bound. -/
def refStateGo : GenState NameDB :=
  { variableDB_ :=
      { reserved := [],
        db := [(("go", "PROCEDURE"), "go"), (("p", "VARIABLE"), "p"), (("q", "VARIABLE"), "q")],
        issued := ["go", "p", "q"] },
    definitions_ := [] }

/-- The text of the definition of `go(p, q)`. -/
def goText : String :=
  "function go(p, q) \x7b\n" ++
  "    return new Promise( function(funcResolve, funcReject) \x7b\n" ++
  "        Promise.resolve()\n" ++
  "        .then(step)" ++
  ".then( function() \x7b \n" ++
  "   funcResolve(x + 1);\n" ++
  "   return Promise.reject(\"return\");\n" ++
  "\x7d)\n" ++
  "        .catch( function(reason) \x7b\n" ++
  "            if(reason == \"break\" || reason == \"return\") \x7b\x7d \n" ++
  "            else \x7breturn Promise.reject(reason);\x7d\n" ++
  "        \x7d );\n" ++
  "    \x7d);\n" ++
  "\x7d\n"

/-- A call of the procedure `go` as a statement, with the argument `a`. -/
def callGo : Block :=
  { id := "c", fields := [("NAME", "go")],
    inputList := [⟨"ARG0", INPUT_VALUE, some "a"⟩], arguments_ := ["p"] }

/-- A loop that repeats `x + 1` times. -/
def repeatSum : Block :=
  { id := "t", fields := [],
    inputList := [⟨"TIMES", INPUT_VALUE, some "sum"⟩, ⟨"DO", 3, some "body"⟩] }

/-- A loop that repeats ten times, the count held in the field TIMES. -/
def repeatTen : Block :=
  { id := "t", fields := [("TIMES", "10")], inputList := [⟨"DO", 3, some "body"⟩] }

/-- The generator state after `count` has been issued. -/
def refStateCount : GenState NameDB :=
  { variableDB_ := { reserved := [], db := [], issued := ["count"] }, definitions_ := [] }

/-- The generator state after `count` and `repeat_end` have been issued. -/
def refStateCountEnd : GenState NameDB :=
  { variableDB_ := { reserved := [], db := [], issued := ["count", "repeat_end"] },
    definitions_ := [] }

/-- A loop over the list `x + 1` with the body `.then(step)`. -/
def forEachSum : Block :=
  { id := "e", fields := [("VAR", "x")],
    inputList := [⟨"LIST", INPUT_VALUE, some "sum"⟩, ⟨"DO", 3, some "body"⟩] }

/-- The generator state after `x` has been bound. -/
def refStateX : GenState NameDB :=
  { variableDB_ := { reserved := [], db := [(("x", "VARIABLE"), "x")], issued := ["x"] },
    definitions_ := [] }

/-- The generator state after `x` has been bound and `x_list` and `x_index`
issued. -/
def refStateXListIndex : GenState NameDB :=
  { variableDB_ :=
      { reserved := [], db := [(("x", "VARIABLE"), "x")], issued := ["x", "x_list", "x_index"] },
    definitions_ := [] }

/-- More leaves: a negative step, and operands of a call. -/
def moreLeaves : List (String × Leaf) :=
  [("minusTwo", { code := "-2" }), ("one", { code := "1" }), ("ten", { code := "10" }),
   ("body", { code := ".then(step)" }), ("a", { code := "a" })]

/-- A counting loop from 10 to 1 by -2. -/
def forTenToOneByMinusTwo : Block :=
  { id := "f", fields := [("VAR", "i")],
    inputList := [⟨"FROM", INPUT_VALUE, some "ten"⟩, ⟨"TO", INPUT_VALUE, some "one"⟩,
      ⟨"BY", INPUT_VALUE, some "minusTwo"⟩, ⟨"DO", 3, some "body"⟩] }

/-- A counting loop whose slots FROM, TO and BY are all empty. -/
def forEmpty : Block :=
  { id := "f", fields := [("VAR", "i")],
    inputList := [⟨"FROM", INPUT_VALUE, none⟩, ⟨"TO", INPUT_VALUE, none⟩,
      ⟨"BY", INPUT_VALUE, none⟩, ⟨"DO", 3, some "body"⟩] }

/-- A call of the procedure `go` with two arguments, none of them plugged
in. -/
def callEmpty : Block :=
  { id := "c", fields := [("NAME", "go")], inputList := [], arguments_ := ["p", "q"] }

/-- The generator state at the start of a pass whose table of definitions
holds the declaration of one variable. -/
def refVars : GenState NameDB :=
  { variableDB_ := { reserved := [], db := [], issued := [] },
    definitions_ := [("variables", "int x;")] }

/-- The state `refVars` after the procedure name `go` has been bound. -/
def refVarsGoName : GenState NameDB :=
  { variableDB_ :=
      { reserved := [], db := [(("go", "PROCEDURE"), "go")], issued := ["go"] },
    definitions_ := [("variables", "int x;")] }

/-- The state `refVars` after `go`, `p` and `q` have been bound. -/
def refVarsGo : GenState NameDB :=
  { variableDB_ :=
      { reserved := [],
        db := [(("go", "PROCEDURE"), "go"), (("p", "VARIABLE"), "p"), (("q", "VARIABLE"), "q")],
        issued := ["go", "p", "q"] },
    definitions_ := [("variables", "int x;")] }

/-- A generator object at the end of a pass: the table of definitions holds
the entries `variables` and `go`. -/
def generatorAtEnd : Generator NameDB :=
  { variableDB_ := some { reserved := [], db := [], issued := ["go"] },
    definitions_ := some [("variables", "int x;"), ("go", "function go() \x7b\x7d")],
    functionNames_ := some [] }

/-- A generator object after `finish`: both tables are deleted and the name
database is reset. -/
def generatorFinished : Generator NameDB :=
  { variableDB_ := some { reserved := [], db := [], issued := [] },
    definitions_ := none, functionNames_ := none }

/-- A generator object before its first pass. -/
def generatorFresh : Generator NameDB :=
  { variableDB_ := none, definitions_ := none, functionNames_ := none }

/-! ## Comments and the next statement: scrub_ -/

/-- The helper `Blockly.Ch.scrub_` of ch.js. -/
def Ch.scrub_ {ν : Type} (G : Core ν) (block : Block) (code : String) (s : GenState ν) :
    Except String (Out ν) := do
  let commentCode := ""
  let unplugged := match block.outputConnection with
    | some (some _) => false
    | _ => true
  let commentCode :=
    if unplugged then
      let comment := block.getCommentText
      let commentCode := if comment ≠ "" then
          commentCode ++ G.prefixLines comment "// " ++ "\n"
        else commentCode
      block.inputList.foldl (fun acc inp =>
        if inp.type == INPUT_VALUE then
          match inp.targetBlock with
          | some childBlock =>
            let comment := G.allNestedComments childBlock
            if comment ≠ "" then acc ++ G.prefixLines comment "// " else acc
          | none => acc
        else acc) commentCode
    else commentCode
  let nextBlock := match block.nextConnection with
    | some target => target
    | none => none
  let r ← G.blockToCode nextBlock s
  pure (commentCode ++ code ++ r.1, r.2)

/-- The texts of a list, one after the other. -/
def concatAll : List String → String
  | [] => ""
  | a :: rest => a ++ concatAll rest

/-- The comment prefix of a block, as the spec describes it: nothing for a
value block whose output is plugged into another block; otherwise the
comment of the block itself, when it has one, behind `// ` and followed by a
line break, and then, for the value inputs in the order of the input list,
the nested comments of the block plugged into the input, when there are any,
behind `// `. -/
def commentPrefix {ν : Type} (G : Core ν) (block : Block) : String :=
  match block.outputConnection with
  | some (some _) => ""
  | _ =>
    (if block.getCommentText ≠ "" then G.prefixLines block.getCommentText "// " ++ "\n"
      else "") ++
    concatAll
      ((((block.inputList.filter (fun i => i.type == INPUT_VALUE)).filterMap
          (fun i => i.targetBlock)).map G.allNestedComments).filter (fun c => c ≠ "")
        |>.map (fun c => G.prefixLines c "// "))

/-- The block that follows a block: `block.nextConnection &&
block.nextConnection.targetBlock()`. -/
def Block.nextBlock (block : Block) : Option String :=
  match block.nextConnection with
  | some target => target
  | none => none

/-- Leaves with comments: an operand, a nested statement and a next block. -/
def commentLeaves : List (String × Leaf) :=
  [("arg", { code := "a", comments := "the bound" }),
   ("inner", { code := ".then(step)", comments := "hidden" }),
   ("after", { code := ".then(stop)", comments := "later" })]

/-- A statement block with a comment, a plugged value input, a plugged
statement input and a next block. -/
def commented : Block :=
  { id := "m", fields := [],
    inputList := [⟨"DO", 3, some "inner"⟩, ⟨"TO", INPUT_VALUE, some "arg"⟩,
      ⟨"BY", INPUT_VALUE, none⟩],
    nextConnection := some (some "after"), comment := "count\nup" }

/-- The block `commented` as a value block plugged into another block. -/
def commentedInline : Block :=
  { id := "m", fields := [],
    inputList := [⟨"DO", 3, some "inner"⟩, ⟨"TO", INPUT_VALUE, some "arg"⟩,
      ⟨"BY", INPUT_VALUE, none⟩],
    outputConnection := some (some "parent"), comment := "count\nup" }

/-! ## A full pass -/

/-- The name database a pass starts from: a new one over the reserved words
when the generator has none, the old one after `reset()` otherwise (ch.js,
lines 101 to 106). -/
def Names.startDB {ν : Type} (N : Names ν) (g : Generator ν) : ν :=
  match g.variableDB_ with
  | none => N.create RESERVED_WORDS_
  | some db => N.reset db

/-- Modelled from the spec: the Generator Driver (`workspaceToCode` of
Blockly core, not part of these sources) orchestrates a full pass: `init`,
then the walk of the emitters over the block graph, which yields the program
body, then `finish`.  The walk is the argument `emit`. -/
def Ch.runPass {ν : Type} (N : Names ν) (G : Core ν) (variables_ : List (String × String))
    (emit : GenState ν → Except String (Out ν)) (g : Generator ν) :
    Except String (String × Generator ν) :=
  let g0 := Ch.init N G variables_ g
  match g0.pass with
  | none => .error "TypeError: the generator is not initialised"
  | some s => do
    let r ← emit s
    Ch.finish N r.1
      { variableDB_ := some r.2.variableDB_, definitions_ := some r.2.definitions_,
        functionNames_ := g0.functionNames_ }

/-- The name database over the reserved words of ch.js, with no binding. -/
def reservedDB : NameDB :=
  { reserved := splitCommas RESERVED_WORDS_.data [], db := [], issued := [] }

/-- The generator state after a pass over the variable `bot` has emitted the
loop `forFromSum`. -/
def passState : GenState NameDB :=
  { variableDB_ :=
      { reserved := splitCommas RESERVED_WORDS_.data [],
        db := [(("bot", "VARIABLE"), "bot"), (("i", "VARIABLE"), "i")],
        issued := ["bot", "i", "i_start", "i_inc"] },
    definitions_ := [("variables",
      "double bot_wheelDiameter = 3.5;\ndouble bot_trackWidth = 3.7;\nCLinkbotI bot;")] }

/-- The text that `controls_for` emits for the loop `forFromSum`. -/
def passCode : String :=
  ".then(function() \x7b\n" ++
  "var i_start = x + 1;\n" ++
  "var i_inc = 2;\n" ++
  "if (i_start > 10) \x7b\n" ++
  "  i_inc = -i_inc;\n" ++
  "\x7d\n" ++
  "return promiseWhile(\n" ++
  "    function() \x7b\n" ++
  "        return i_inc >= 0 ? i <= 10 : i >= 10;\n" ++
  "    \x7d,\n" ++
  "    function() \x7b\n" ++
  "        .then(step)\n" ++
  "        i += i_inc;\n" ++
  "    \x7d);\n" ++
  "\x7d)\n"

/-- The generator object after a pass that started from `reservedDB`. -/
def generatorDone : Generator NameDB :=
  { variableDB_ := some reservedDB, definitions_ := none, functionNames_ := none }

/-- The definition of a procedure that the user named `variables`. -/
def procVariables : Block :=
  { id := "p", fields := [("NAME", "variables")],
    inputList := [⟨"STACK", 3, some "body"⟩, ⟨"RETURN", INPUT_VALUE, none⟩] }

/-- The generator state after `Blockly.Cpp.init` over the variable `bot`. -/
def cppPassStart : GenState NameDB :=
  { variableDB_ :=
      { reserved := splitCommas RESERVED_WORDS_.data [],
        db := [(("bot", "VARIABLE"), "bot")], issued := ["bot"] },
    definitions_ := [("variables",
      "double bot_wheelDiameter = 3.5;\ndouble bot_trackWidth = 3.7;\nCLinkbot bot;")] }

/-- The text of the definition of the procedure `variables`. -/
def variablesText : String :=
  "function variables() \x7b\n" ++
  "    return new Promise( function(funcResolve, funcReject) \x7b\n" ++
  "        Promise.resolve()\n" ++
  "        .then(step)" ++
  "        .catch( function(reason) \x7b\n" ++
  "            if(reason == \"break\" || reason == \"return\") \x7b\x7d \n" ++
  "            else \x7breturn Promise.reject(reason);\x7d\n" ++
  "        \x7d );\n" ++
  "    \x7d);\n" ++
  "\x7d\n"

/-- The generator state after the procedure `variables` has been defined in
the pass that started from `cppPassStart`. -/
def cppPassAfter : GenState NameDB :=
  { variableDB_ :=
      { reserved := splitCommas RESERVED_WORDS_.data [],
        db := [(("bot", "VARIABLE"), "bot"), (("variables", "PROCEDURE"), "variables")],
        issued := ["bot", "variables"] },
    definitions_ := [("variables", variablesText)] }

/-! ## Quoting -/

/-- The backslash. -/
def backslash : Char := Char.ofNat 92
/-- The line break. -/
def newline : Char := Char.ofNat 10
/-- The single quote. -/
def quote : Char := Char.ofNat 39

/-- Every `c` of the text replaced by `rep`: `text.replace(/c/g, rep)` for a
pattern of one character and a replacement without `$`. -/
def replaceChar (c : Char) (rep : List Char) : List Char → List Char
  | [] => []
  | x :: rest =>
    if x == c then rep ++ replaceChar c rep rest else x :: replaceChar c rep rest

/-- The three replacements of `quote_`, in their order: backslashes are
doubled, then a backslash is put before every line break, then before every
single quote. -/
def quoteBody (cs : List Char) : List Char :=
  replaceChar quote [backslash, quote]
    (replaceChar newline [backslash, newline]
      (replaceChar backslash [backslash, backslash] cs))

/-- The function `Blockly.Ch.quote_` of ch.js. -/
def Ch.quote_ (string : String) : String :=
  let string := String.mk (quoteBody string.data)
  "\x27" ++ string ++ "\x27"

/-- The function `Blockly.Cpp.quote_` of cpp.js. -/
def Cpp.quote_ (string : String) : String :=
  let string := String.mk (quoteBody string.data)
  "\x27" ++ string ++ "\x27"

/-- One character as the claim describes it in quoted text: a backslash, a
line break and a single quote stand behind an escaping backslash, every other
character stands as it is. -/
def escapeChar (c : Char) : List Char :=
  if c == backslash || c == newline || c == quote then [backslash, c] else [c]

/-- A text with every character written as `escapeChar` writes it. -/
def escapeAll : List Char → List Char
  | [] => []
  | c :: rest => escapeChar c ++ escapeAll rest

/-- The number of backslashes that end a text. -/
def trailingBackslashes (cs : List Char) : Nat :=
  (cs.reverse.takeWhile (fun c => c == backslash)).length

/-- The text behind the escapes: a backslash stands for the character after
it. -/
def unescape : List Char → List Char
  | [] => []
  | [c] => [c]
  | c :: d :: rest => if c == backslash then d :: unescape rest else c :: unescape (d :: rest)

/-- A decoding function for quoted text: the first and the last character are
dropped and the escapes are undone. -/
def unquote (text : String) : String :=
  String.mk (unescape text.data.tail.dropLast)

/-! ## Literals that a double does not hold -/

/-- Leaves whose codes are literals that are not doubles: the integer
`2 ^ 53 + 1`, next to `2 ^ 53`, and a fraction a little above 1. -/
def roundingLeaves : List (String × Leaf) :=
  [("big", { code := "9007199254740993" }), ("lessBig", { code := "9007199254740992" }),
   ("nearOne", { code := "1.00000000000000000001" }), ("one", { code := "1" }),
   ("five", { code := "5" }), ("body", { code := ".then(step)" })]

/-- A counting loop from `2 ^ 53 + 1` down to `2 ^ 53` by 1. -/
def forBigToLessBig : Block :=
  { id := "f", fields := [("VAR", "i")],
    inputList := [⟨"FROM", INPUT_VALUE, some "big"⟩, ⟨"TO", INPUT_VALUE, some "lessBig"⟩,
      ⟨"BY", INPUT_VALUE, some "one"⟩, ⟨"DO", 3, some "body"⟩] }

/-- A counting loop from 1 to 5 by a step a little above 1. -/
def forOneToFiveByNearOne : Block :=
  { id := "f", fields := [("VAR", "i")],
    inputList := [⟨"FROM", INPUT_VALUE, some "one"⟩, ⟨"TO", INPUT_VALUE, some "five"⟩,
      ⟨"BY", INPUT_VALUE, some "nearOne"⟩, ⟨"DO", 3, some "body"⟩] }

/-! # Theorems -/

/-! ## Helper lemmas -/

theorem jsOr_of_ne {a d : String} (h : a ≠ "") : jsOr a d = a := by
  simp [jsOr, h]

theorem bang_append_ne (g : String) : "!" ++ g ≠ "" := by
  intro h
  have h2 := congrArg String.length h
  rw [String.length_append] at h2
  have h3 : "!".length = 1 := rfl
  have h4 : "".length = 0 := rfl
  omega

/-! ## Decimal literals -/

theorem digitChar_spec : ∀ k, k < 10 →
    isDigit (Nat.digitChar k) = true ∧ (Nat.digitChar k).toNat - 48 = k := by
  decide

theorem digitsVal_append_single (l : List Char) (d : Char) :
    digitsVal (l ++ [d]) = 10 * digitsVal l + (d.toNat - 48) := by
  simp [digitsVal, List.foldl_append]

theorem toDigitsCore_spec : ∀ (fuel n : Nat) (ds : List Char), n < fuel →
    ∃ l, Nat.toDigitsCore 10 fuel n ds = l ++ ds ∧ l ≠ [] ∧
      (∀ c ∈ l, isDigit c = true) ∧ digitsVal l = n := by
  intro fuel
  induction fuel with
  | zero => intro n ds h; omega
  | succ fuel ih =>
    intro n ds h
    have hd := digitChar_spec (n % 10) (Nat.mod_lt _ (by decide))
    unfold Nat.toDigitsCore
    by_cases h0 : n / 10 = 0
    · refine ⟨[Nat.digitChar (n % 10)], ?_, by simp, ?_, ?_⟩
      · simp [h0]
      · intro c hc
        simp at hc
        rw [hc]
        exact hd.1
      · have := digitsVal_append_single [] (Nat.digitChar (n % 10))
        simp at this
        rw [this, hd.2]
        have : digitsVal [] = 0 := rfl
        omega
    · obtain ⟨l, hl, _, hall, hval⟩ := ih (n / 10) (Nat.digitChar (n % 10) :: ds) (by omega)
      refine ⟨l ++ [Nat.digitChar (n % 10)], ?_, by simp, ?_, ?_⟩
      · simp [h0, hl]
      · intro c hc
        simp at hc
        rcases hc with hc | hc
        · exact hall c hc
        · rw [hc]; exact hd.1
      · rw [digitsVal_append_single, hval, hd.2]
        omega

theorem repr_digits (n : Nat) :
    (Nat.repr n).data ≠ [] ∧ (∀ c ∈ (Nat.repr n).data, isDigit c = true) ∧
      digitsVal (Nat.repr n).data = n := by
  obtain ⟨l, hl, hne, hall, hval⟩ := toDigitsCore_spec (n + 1) n [] (by omega)
  have : (Nat.repr n).data = l := by
    simp [Nat.repr, Nat.toDigits, hl, List.asString]
  rw [this]
  exact ⟨hne, hall, hval⟩

theorem isSpace_of_isDigit {c : Char} (h : isDigit c = true) : isSpace c = false := by
  simp [isDigit] at h
  simp [isSpace]
  omega

theorem scanUnsigned_digits (l : List Char) (hne : l ≠ [])
    (hall : ∀ c ∈ l, isDigit c = true) :
    scanUnsigned l = some (⟨digitsVal l, 0⟩, []) := by
  have ht : l.takeWhile isDigit = l := List.takeWhile_eq_self_iff.mpr hall
  have hd : l.dropWhile isDigit = [] := List.dropWhile_eq_nil_iff.mpr hall
  simp [scanUnsigned, ht, hd, hne]

theorem scanNumber_digits (l : List Char) (hne : l ≠ [])
    (hall : ∀ c ∈ l, isDigit c = true) :
    scanNumber l = some (⟨digitsVal l, 0⟩, []) := by
  cases l with
  | nil => exact absurd rfl hne
  | cons c t =>
    have hc : isDigit c = true := hall c (by simp)
    have hs : isSpace c = false := isSpace_of_isDigit hc
    have hdw : (c :: t).dropWhile isSpace = c :: t := by simp [List.dropWhile, hs]
    have hminus : c ≠ '-' := by
      intro h
      rw [h] at hc
      revert hc
      decide
    unfold scanNumber
    rw [hdw]
    split
    · rename_i r heq
      simp at heq
      exact absurd heq.1 hminus
    · rename_i r heq
      exact scanUnsigned_digits _ hne hall

theorem readInt_repr (n : Nat) : readInt (Nat.repr n).data = some (n : Int) := by
  obtain ⟨hne, hall, hval⟩ := repr_digits n
  simp [readInt, scanNumber_digits _ hne hall, hval]

/-! ## Doubles -/

theorem bitLengthAux_zero (fuel : Nat) : bitLengthAux fuel 0 = 0 := by
  cases fuel <;> simp [bitLengthAux]

theorem bitLengthAux_spec : ∀ (fuel n : Nat), n ≤ fuel → n ≠ 0 →
    2 ^ (bitLengthAux fuel n - 1) ≤ n ∧ n < 2 ^ bitLengthAux fuel n := by
  intro fuel
  induction fuel with
  | zero => intro n h hn; omega
  | succ fuel ih =>
    intro n h hn
    simp only [bitLengthAux, hn, if_false]
    by_cases h2 : n / 2 = 0
    · rw [h2, bitLengthAux_zero]
      have : n = 1 := by omega
      subst this
      decide
    · obtain ⟨h3, h4⟩ := ih (n / 2) (by omega) h2
      have hb : bitLengthAux fuel (n / 2) ≠ 0 := by
        intro hb
        rw [hb] at h4
        simp at h4
        exact h2 h4
      obtain ⟨b, hb2⟩ : ∃ b, bitLengthAux fuel (n / 2) = b + 1 :=
        ⟨bitLengthAux fuel (n / 2) - 1, by omega⟩
      rw [hb2] at h3 h4 ⊢
      simp only [Nat.add_sub_cancel] at h3 ⊢
      rw [Nat.pow_succ] at h4 ⊢
      rw [Nat.pow_succ]
      constructor <;> omega

theorem bitLength_spec (n : Nat) (hn : n ≠ 0) :
    2 ^ (bitLength n - 1) ≤ n ∧ n < 2 ^ bitLength n :=
  bitLengthAux_spec n n (Nat.le_refl n) hn

theorem bitLength_le {n m : Nat} (h : n < 2 ^ m) : bitLength n ≤ m := by
  by_cases hn : n = 0
  · subst hn
    have : bitLength 0 = 0 := rfl
    omega
  · have h1 := (bitLength_spec n hn).1
    have h2 : 2 ^ (bitLength n - 1) < 2 ^ m := Nat.lt_of_le_of_lt h1 h
    have h3 := (Nat.pow_lt_pow_iff_right (by decide : 1 < 2)).mp h2
    omega

theorem bitLength_pos {n : Nat} (hn : n ≠ 0) : 1 ≤ bitLength n := by
  have h := (bitLength_spec n hn).2
  by_contra h0
  have : bitLength n = 0 := by omega
  rw [this] at h
  simp at h
  exact hn h

theorem lt_bitLength {n m : Nat} (h : 2 ^ m ≤ n) : m < bitLength n := by
  have hn : n ≠ 0 := by
    have : 0 < 2 ^ m := Nat.pow_pos (by decide)
    omega
  have h1 := (bitLength_spec n hn).2
  have h2 : 2 ^ m < 2 ^ bitLength n := Nat.lt_of_le_of_lt h h1
  exact (Nat.pow_lt_pow_iff_right (by decide : 1 < 2)).mp h2

theorem binaryExponent_one (n : Nat) (hn : n ≠ 0) :
    binaryExponent n 1 = (bitLength n : Int) - 1 := by
  have h1 := (bitLength_spec n hn).1
  have hp := bitLength_pos hn
  have hb : bitLength 1 = 1 := rfl
  have e1 : ((bitLength n : Int) - (1 : Nat)).toNat = bitLength n - 1 := by omega
  have e2 : (-((bitLength n : Int) - (1 : Nat))).toNat = 0 := by omega
  simp only [binaryExponent, hb, e1, e2, Nat.pow_zero, Nat.mul_one, Nat.one_mul, h1, if_true]
  rfl

theorem roundHalfEven_one (n : Nat) : roundHalfEven n 1 = n := by
  simp [roundHalfEven, Nat.mod_one]

theorem le_roundHalfEven (n d : Nat) : n / d ≤ roundHalfEven n d := by
  unfold roundHalfEven
  simp only
  split
  · omega
  · split
    · split <;> omega
    · omega

theorem reduceDecimal_pow (n : Nat) : ∀ k, reduceDecimal (n * 10 ^ k) k = (n, 0) := by
  intro k
  induction k with
  | zero => simp [reduceDecimal]
  | succ k ih =>
    have h1 : n * 10 ^ (k + 1) % 10 = 0 := by
      rw [Nat.pow_succ, ← Nat.mul_assoc]
      exact Nat.mul_mod_left _ _
    have h2 : n * 10 ^ (k + 1) / 10 = n * 10 ^ k := by
      rw [Nat.pow_succ, ← Nat.mul_assoc]
      exact Nat.mul_div_cancel _ (by decide)
    simp only [reduceDecimal, h1, if_true, h2, ih]

theorem toDouble_int (a : Int) (h : a.natAbs < 2 ^ 53) :
    toDouble ⟨a, 0⟩ = .finite ⟨a, 0⟩ := by
  by_cases hn : a.natAbs = 0
  · have : a = 0 := Int.natAbs_eq_zero.mp hn
    subst this
    rfl
  · have hb := bitLength_le h
    have hp := bitLength_pos hn
    have e1 : (max ((bitLength a.natAbs : Int) - 1) (-1022) - 52).toNat = 0 := by omega
    have e2 : (-(max ((bitLength a.natAbs : Int) - 1) (-1022) - 52)).toNat =
        53 - bitLength a.natAbs := by omega
    have hlt : a.natAbs * 2 ^ (53 - bitLength a.natAbs) < 2 ^ 53 := by
      have h1 := (bitLength_spec a.natAbs hn).2
      have h2 : a.natAbs * 2 ^ (53 - bitLength a.natAbs) <
          2 ^ bitLength a.natAbs * 2 ^ (53 - bitLength a.natAbs) :=
        Nat.mul_lt_mul_of_pos_right h1 (Nat.pow_pos (by decide))
      rw [← Nat.pow_add] at h2
      have h3 : bitLength a.natAbs + (53 - bitLength a.natAbs) = 53 := by omega
      rw [h3] at h2
      exact h2
    have hover : ¬ (1024 < bitLength (a.natAbs * 2 ^ (53 - bitLength a.natAbs))) := by
      have := bitLength_le hlt
      omega
    have hred : reduceDecimal
        (a.natAbs * 2 ^ (53 - bitLength a.natAbs) * 5 ^ (53 - bitLength a.natAbs))
        (53 - bitLength a.natAbs) = (a.natAbs, 0) := by
      rw [Nat.mul_assoc, ← Nat.mul_pow]
      exact reduceDecimal_pow a.natAbs _
    have hsign : (if a < 0 then -(a.natAbs : Int) else (a.natAbs : Int)) = a := by
      split <;> omega
    simp only [toDouble, hn, if_false, Nat.pow_zero, binaryExponent_one a.natAbs hn,
      e1, e2, quantize, Nat.mul_one, roundHalfEven_one, hover, hred, decide_eq_true_eq, hsign]

theorem jsAbs_quantize (negative : Bool) (n d up down : Nat) :
    jsAbs (quantize negative n d up down) = quantize false n d up down := by
  unfold quantize
  simp only
  split
  · rfl
  · cases negative <;> simp [jsAbs]

theorem jsAbs_toDouble (x : Decimal) :
    jsAbs (toDouble x) = toDouble ⟨(x.mantissa.natAbs : Int), x.scale⟩ := by
  have hneg : ¬ ((x.mantissa.natAbs : Int) < 0) := by omega
  by_cases hn : x.mantissa.natAbs = 0
  · simp [toDouble, hn, jsAbs]
  · simp only [toDouble, hn, if_false, jsAbs_quantize, Int.natAbs_ofNat, hneg, decide_False]

theorem jsAbs_toDouble_neg (m : Int) (scale : Nat) :
    jsAbs (toDouble ⟨-m, scale⟩) = jsAbs (toDouble ⟨m, scale⟩) := by
  rw [jsAbs_toDouble, jsAbs_toDouble]
  simp only [Int.natAbs_neg]

theorem toDouble_large (c : Nat) (h : 2 ^ 53 ≤ c) :
    toDouble ⟨(c : Int), 0⟩ = .Infinity false ∨
      ∃ v : Nat, 2 ^ 53 ≤ v ∧ toDouble ⟨(c : Int), 0⟩ = .finite ⟨(v : Int), 0⟩ := by
  have hn : c ≠ 0 := by
    have : 0 < 2 ^ 53 := Nat.pow_pos (by decide)
    omega
  have hb := lt_bitLength h
  have e1 : (max ((bitLength c : Int) - 1) (-1022) - 52).toNat = bitLength c - 53 := by omega
  have e2 : (-(max ((bitLength c : Int) - 1) (-1022) - 52)).toNat = 0 := by omega
  have hneg : ¬ ((c : Int) < 0) := by omega
  have hr : 2 ^ 52 ≤ roundHalfEven c (2 ^ (bitLength c - 53)) := by
    refine Nat.le_trans ?_ (le_roundHalfEven _ _)
    rw [Nat.le_div_iff_mul_le (Nat.pow_pos (by decide)), ← Nat.pow_add]
    have h3 : 52 + (bitLength c - 53) = bitLength c - 1 := by omega
    rw [h3]
    exact (bitLength_spec c hn).1
  have hv : 2 ^ 53 ≤ roundHalfEven c (2 ^ (bitLength c - 53)) * 2 ^ (bitLength c - 53) := by
    have h4 : 2 ≤ 2 ^ (bitLength c - 53) := by
      have : 2 ^ 1 ≤ 2 ^ (bitLength c - 53) := Nat.pow_le_pow_right (by decide) (by omega)
      simpa using this
    calc 2 ^ 53 = 2 ^ 52 * 2 := by rw [← Nat.pow_succ]
      _ ≤ roundHalfEven c (2 ^ (bitLength c - 53)) * 2 ^ (bitLength c - 53) :=
        Nat.mul_le_mul hr h4
  simp only [toDouble, Int.natAbs_ofNat, hn, if_false, Nat.pow_zero, binaryExponent_one c hn,
    e1, e2, quantize, Nat.mul_one, Nat.one_mul, hneg, decide_False, Bool.false_eq_true,
    reduceDecimal]
  split
  · exact Or.inl rfl
  · exact Or.inr ⟨_, hv, rfl⟩

theorem toDigitsCore_length : ∀ (fuel n : Nat) (ds : List Char) (m : Nat), n < fuel →
    n < 10 ^ m → 1 ≤ m → (Nat.toDigitsCore 10 fuel n ds).length ≤ m + ds.length := by
  intro fuel
  induction fuel with
  | zero => intro n ds m h; omega
  | succ fuel ih =>
    intro n ds m h hm h1
    unfold Nat.toDigitsCore
    by_cases h0 : n / 10 = 0
    · simp [h0]
      omega
    · simp only [h0, if_false]
      obtain ⟨j, rfl⟩ : ∃ j, m = j + 1 := ⟨m - 1, by omega⟩
      have hj : 1 ≤ j := by
        by_contra hj
        have : j = 0 := by omega
        subst this
        simp at hm
        omega
      have hlt : n / 10 < 10 ^ j := by
        rw [Nat.div_lt_iff_lt_mul (by decide)]
        rw [Nat.pow_succ] at hm
        exact hm
      have := ih (n / 10) (Nat.digitChar (n % 10) :: ds) j (by omega) hlt hj
      simp only [List.length_cons] at this
      omega

theorem repr_length_le (n m : Nat) (h : n < 10 ^ m) (h1 : 1 ≤ m) : (Nat.repr n).length ≤ m := by
  have := toDigitsCore_length (n + 1) n [] m (by omega) h h1
  simpa [Nat.repr, Nat.toDigits, List.asString, String.length] using this

theorem hasValue_nat (c n : Nat) (h : c < 2 ^ 53) :
    (toDouble ⟨((c : Nat) : Int), 0⟩).hasValue n 0 = decide (c = n) := by
  rw [toDouble_int (c : Int) (by simpa using h)]
  simp only [JSNumber.hasValue, pow_zero, mul_one]
  congr 1
  apply propext
  constructor
  · intro h; exact_mod_cast h
  · intro h; exact_mod_cast h

theorem hasValue_ne (c n : Nat) (hn : n < 2 ^ 53) (h : c ≠ n) :
    (toDouble ⟨((c : Nat) : Int), 0⟩).hasValue n 0 = false := by
  by_cases hc : c < 2 ^ 53
  · rw [hasValue_nat c n hc]
    simpa using h
  · rcases toDouble_large c (by omega) with h1 | ⟨v, hv, h1⟩
    · rw [h1]; rfl
    · rw [h1]
      simp only [JSNumber.hasValue, pow_zero, mul_one]
      have : (v : Int) ≠ (n : Int) := by omega
      simpa using this

theorem shortestDigits_nat (n len : Nat) (hn : n < 2 ^ 53) :
    ∀ (fuel k : Nat), k + fuel = len + 1 →
      ∃ s j, shortestDigits n 0 len fuel k = (s, j, (len : Int)) ∧ j ≤ len ∧
        s * 10 ^ (len - j) = n := by
  intro fuel
  induction fuel with
  | zero =>
    intro k _
    exact ⟨n, len, by simp [shortestDigits], Nat.le_refl _, by simp⟩
  | succ fuel ih =>
    intro k hk
    by_cases hdiv : n % 10 ^ (len - k) = 0
    · have hmul : n / 10 ^ (len - k) * 10 ^ (len - k) = n :=
        Nat.div_mul_cancel (Nat.dvd_of_mod_eq_zero hdiv)
      have hback : (toDouble ⟨((n / 10 ^ (len - k) * 10 ^ (len - k) : Nat) : Int), 0⟩).hasValue n 0
          = true := by
        rw [hmul, hasValue_nat n n hn]
        simp
      refine ⟨n / 10 ^ (len - k), k, ?_, by omega, hmul⟩
      simp only [shortestDigits, digitsOfLength, hdiv, if_true, hback]
      simp
    · have hlo : n / 10 ^ (len - k) * 10 ^ (len - k) ≠ n := by
        intro h
        apply hdiv
        rw [← h]
        exact Nat.mul_mod_left _ _
      have hhi : (n / 10 ^ (len - k) + 1) * 10 ^ (len - k) ≠ n := by
        intro h
        apply hdiv
        rw [← h]
        exact Nat.mul_mod_left _ _
      have hkl : k < len := by
        by_contra h
        have hz : len - k = 0 := by omega
        rw [hz] at hdiv
        simp [Nat.mod_one] at hdiv
      obtain ⟨s, j, h1, h2, h3⟩ := ih (k + 1) (by omega)
      refine ⟨s, j, ?_, h2, h3⟩
      simp only [shortestDigits, digitsOfLength, hdiv, if_false, hasValue_ne _ n hn hlo,
        hasValue_ne _ n hn hhi, h1]

theorem jsNumberToString_nat (n : Nat) (hn : n < 2 ^ 53) :
    jsNumberToString (.finite ⟨(n : Int), 0⟩) = Nat.repr n := by
  by_cases h0 : n = 0
  · subst h0
    rfl
  · have hneg : ¬ ((n : Int) < 0) := by omega
    have hlen : (Nat.repr n).length ≤ 21 :=
      repr_length_le n 21 (Nat.lt_trans hn (by decide)) (by decide)
    obtain ⟨s, j, h1, h2, h3⟩ :=
      shortestDigits_nat n (Nat.repr n).length hn (Nat.repr n).length 1 (by omega)
    have hc : ((j : Int) ≤ ((Nat.repr n).length : Int) ∧ ((Nat.repr n).length : Int) ≤ 21) :=
      ⟨by omega, by omega⟩
    simp only [jsNumberToString, Int.natAbs_ofNat, h0, if_false, h1, hneg, formatDigits, hc,
      and_self, if_true, Int.toNat_ofNat, h3, String.empty_append]

theorem jsNumberToString_abs_int (a : Int) (h : a.natAbs < 2 ^ 53) :
    jsNumberToString (jsAbs (toDouble ⟨a, 0⟩)) = Nat.repr a.natAbs := by
  rw [toDouble_int a h]
  exact jsNumberToString_nat a.natAbs h

theorem jsIsOne_abs_int (a : Int) (h : a.natAbs < 2 ^ 53) :
    jsIsOne (jsAbs (toDouble ⟨a, 0⟩)) = decide (a.natAbs = 1) := by
  rw [toDouble_int a h]
  simp only [jsIsOne, jsAbs, pow_zero]
  congr 1
  apply propext
  constructor
  · intro h; exact_mod_cast h
  · intro h; exact_mod_cast h

theorem jsLe_int (a b : Int) (ha : a.natAbs < 2 ^ 53) (hb : b.natAbs < 2 ^ 53) :
    jsLe (toDouble ⟨a, 0⟩) (toDouble ⟨b, 0⟩) = decide (a ≤ b) := by
  rw [toDouble_int a ha, toDouble_int b hb]
  simp [jsLe]

/-! ## Literals read as doubles -/

theorem isNumber_of_readInt {c : String} {a : Int} (h : readInt c.data = some a) :
    isNumber c = true ∧ parseFloat c = toDouble ⟨a, 0⟩ := by
  unfold readInt at h
  unfold isNumber parseFloat
  split at h
  · rename_i m rest heq
    split at h
    · rename_i hr
      simp at h
      simp [heq, hr, h]
    · simp at h
  · simp at h

theorem ne_empty_of_isNumber {c : String} (h : isNumber c = true) : c ≠ "" := by
  intro he
  rw [he] at h
  revert h
  decide

theorem readGuard_le {bound : String} {b : Int} (h : readInt bound.data = some b) (v : Int) :
    readGuard " <= " bound v = some (decide (v ≤ b)) := by
  simp [readGuard, h]

theorem readGuard_ge {bound : String} {b : Int} (h : readInt bound.data = some b) (v : Int) :
    readGuard " >= " bound v = some (decide (v ≥ b)) := by
  simp [readGuard, h]

theorem readUpdate_static (up : Bool) {increment : String} {st : Int}
    (h : readInt increment.data = some st) (hsafe : st.natAbs < 2 ^ 53) (v : Int) :
    readUpdate (Ch.forStaticUpdate up increment) v =
      some (if up then v + (st.natAbs : Int) else v - (st.natAbs : Int)) := by
  have hp := (isNumber_of_readInt h).2
  unfold Ch.forStaticUpdate
  simp only [hp, jsIsOne_abs_int st hsafe, jsNumberToString_abs_int st hsafe]
  by_cases h1 : st.natAbs = 1
  · cases up <;> simp [h1, readUpdate]
  · cases up <;> simp [h1, readUpdate, readInt_repr]

theorem promiseWhile_ascending (b t : Int) (ht : 0 < t) :
    ∀ (k : Nat) (x : Int) (fuel : Nat), x + k * t ≤ b → b < x + (k + 1) * t → k + 1 < fuel →
      promiseWhile (fun v => some (decide (v ≤ b))) (fun v => some (v + t)) fuel x =
        some (List.iterate (fun v => v + t) x (k + 1)) := by
  intro k
  induction k with
  | zero =>
    intro x fuel h1 h2 hf
    obtain ⟨f1, rfl⟩ : ∃ f1, fuel = f1 + 2 := ⟨fuel - 2, by omega⟩
    have hx : x ≤ b := by simpa using h1
    have hx2 : ¬ (x + t ≤ b) := by simp at h2; omega
    simp [promiseWhile, hx, hx2, List.iterate]
  | succ k ih =>
    intro x fuel h1 h2 hf
    obtain ⟨f1, rfl⟩ : ∃ f1, fuel = f1 + 1 := ⟨fuel - 1, by omega⟩
    have hkt : (0 : Int) ≤ (k : Int) * t := mul_nonneg (Int.natCast_nonneg k) (le_of_lt ht)
    have hx : x ≤ b := by push_cast at h1; nlinarith
    have r := ih (x + t) f1 (by push_cast at h1 ⊢; nlinarith) (by push_cast at h2 ⊢; nlinarith)
      (by omega)
    simp [promiseWhile, hx, r, List.iterate]

theorem promiseWhile_descending (b t : Int) (ht : 0 < t) :
    ∀ (k : Nat) (x : Int) (fuel : Nat), b ≤ x - k * t → x - (k + 1) * t < b → k + 1 < fuel →
      promiseWhile (fun v => some (decide (v ≥ b))) (fun v => some (v - t)) fuel x =
        some (List.iterate (fun v => v - t) x (k + 1)) := by
  intro k
  induction k with
  | zero =>
    intro x fuel h1 h2 hf
    obtain ⟨f1, rfl⟩ : ∃ f1, fuel = f1 + 2 := ⟨fuel - 2, by omega⟩
    have hx : b ≤ x := by simpa using h1
    have hx2 : ¬ (b ≤ x - t) := by simp at h2; omega
    simp [promiseWhile, hx, hx2, List.iterate]
  | succ k ih =>
    intro x fuel h1 h2 hf
    obtain ⟨f1, rfl⟩ : ∃ f1, fuel = f1 + 1 := ⟨fuel - 1, by omega⟩
    have hkt : (0 : Int) ≤ (k : Int) * t := mul_nonneg (Int.natCast_nonneg k) (le_of_lt ht)
    have hx : b ≤ x := by push_cast at h1; nlinarith
    have r := ih (x - t) f1 (by push_cast at h1 ⊢; nlinarith) (by push_cast at h2 ⊢; nlinarith)
      (by omega)
    simp [promiseWhile, hx, r, List.iterate]

theorem scanNumber_of_digit_head (c : Char) (t : List Char) (hc : isDigit c = true) :
    scanNumber (c :: t) = scanUnsigned (c :: t) := by
  have hs : isSpace c = false := isSpace_of_isDigit hc
  have hdw : (c :: t).dropWhile isSpace = c :: t := by simp [List.dropWhile, hs]
  have hminus : c ≠ '-' := by
    intro h
    rw [h] at hc
    revert hc
    decide
  unfold scanNumber
  rw [hdw]
  split
  · rename_i r heq
    simp at heq
    exact absurd heq.1 hminus
  · rfl

theorem scanNumber_minus (cs : List Char) :
    scanNumber ('-' :: cs) =
      (scanUnsigned cs).map (fun p => (⟨-p.1.mantissa, p.1.scale⟩, p.2)) := by
  have hdw : ('-' :: cs).dropWhile isSpace = '-' :: cs := by
    have : isSpace '-' = false := by decide
    simp [List.dropWhile, this]
  unfold scanNumber
  simp only [hdw]

theorem minus_data (t : String) : ("-" ++ t).data = '-' :: t.data := by
  simp [String.data_append]

theorem parseFloat_minus {t : String} (h : startsWithDigit t = true) :
    jsAbs (parseFloat ("-" ++ t)) = jsAbs (parseFloat t) ∧
      isNumber ("-" ++ t) = isNumber t := by
  unfold startsWithDigit at h
  unfold parseFloat isNumber
  rw [minus_data, scanNumber_minus]
  cases hd : t.data with
  | nil => rw [hd] at h; simp at h
  | cons c r =>
    rw [hd] at h
    simp only at h
    rw [scanNumber_of_digit_head c r h]
    cases scanUnsigned (c :: r) with
    | none => simp
    | some q => simp [jsAbs_toDouble_neg]

theorem forStaticUpdate_minus (up : Bool) {t : String} (h : startsWithDigit t = true) :
    Ch.forStaticUpdate up ("-" ++ t) = Ch.forStaticUpdate up t := by
  unfold Ch.forStaticUpdate
  rw [(parseFloat_minus h).1]

/-! ## Condition loops -/

/-- C1, as stated, fails for the empty operand code: with an empty guard slot
the until-loop emits the guard `!false`, while a while-loop whose guard code
is `'!' + ''` emits the guard `!`. -/
theorem C1_until_empty_guard_differs :
    (refCore sampleLeaves).valueToCode untilEmpty "BOOL" ORDER_LOGICAL_NOT refState
        = .ok ("", refState) ∧
      (refCore sampleLeaves).valueToCode whileBang "BOOL" ORDER_NONE refState
        = .ok ("!" ++ "", refState) ∧
      Ch.controls_whileUntil (refCore sampleLeaves) untilEmpty refState ≠
        Ch.controls_whileUntil (refCore sampleLeaves) whileBang refState := by
  refine ⟨rfl, rfl, ?_⟩
  intro h
  have h2 := congrArg (fun r => match r with | Except.ok p => p.1 | Except.error _ => "") h
  revert h2
  decide

/-- C1, amended: for every operand code `g`, requested at the precedence of
`!`, and every body code `b`, the until-loop emits exactly what the same block
emits in while mode for the guard code `'!' + g'`, where `g'` is `g`, or
`false` when the operand slot yields no code; the guard it emits is
`( !g' )`. -/
theorem C1_until_is_while_of_negation {ν : Type} (G : Core ν) (bu bw : Block)
    (s s1 s2 : GenState ν) (g b : String)
    (hid : bu.id = bw.id)
    (hu : bu.getFieldValue "MODE" = some "UNTIL")
    (hw : bw.getFieldValue "MODE" = some "WHILE")
    (hgu : G.valueToCode bu "BOOL" ORDER_LOGICAL_NOT s = .ok (g, s1))
    (hgw : G.valueToCode bw "BOOL" ORDER_NONE s = .ok ("!" ++ jsOr g "false", s1))
    (hbu : G.statementToCode bu "DO" s1 = .ok (b, s2))
    (hbw : G.statementToCode bw "DO" s1 = .ok (b, s2)) :
    Ch.controls_whileUntil G bu s = Ch.controls_whileUntil G bw s ∧
      Ch.controls_whileUntil G bu s = .ok (
        ".then(function() \x7b\n" ++
        "    return promiseWhile( \n" ++
        "        function() \x7b return ( " ++ ("!" ++ jsOr g "false") ++ " ) \x7d,\n" ++
        "        function() \x7b\n" ++
        "            return Promise.resolve()\n" ++
        "            " ++ G.addLoopTrap b bu.id ++ "\n" ++
        "        \x7d\n" ++
        "    );\n" ++
        "\x7d)\n", s2) := by
  have e1 : Ch.controls_whileUntil G bu s = .ok (
        ".then(function() \x7b\n" ++
        "    return promiseWhile( \n" ++
        "        function() \x7b return ( " ++ ("!" ++ jsOr g "false") ++ " ) \x7d,\n" ++
        "        function() \x7b\n" ++
        "            return Promise.resolve()\n" ++
        "            " ++ G.addLoopTrap b bu.id ++ "\n" ++
        "        \x7d\n" ++
        "    );\n" ++
        "\x7d)\n", s2) := by
    simp [Ch.controls_whileUntil, hu, hgu, hbu, bind, Except.bind, pure, Except.pure]
  refine ⟨?_, e1⟩
  rw [e1]
  simp [Ch.controls_whileUntil, hw, hgw, hbw, bind, Except.bind, pure, Except.pure,
    jsOr_of_ne (bang_append_ne _), hid]

/-- C1, amended, at the until-loop over `done` and the while-loop over
`!done`. -/
theorem C1_until_is_while_of_negation_witness :
    Ch.controls_whileUntil (refCore sampleLeaves) untilDone refState =
        Ch.controls_whileUntil (refCore sampleLeaves) whileNotDone refState ∧
      Ch.controls_whileUntil (refCore sampleLeaves) untilDone refState = .ok (
        ".then(function() \x7b\n" ++
        "    return promiseWhile( \n" ++
        "        function() \x7b return ( " ++ ("!" ++ jsOr "done" "false") ++ " ) \x7d,\n" ++
        "        function() \x7b\n" ++
        "            return Promise.resolve()\n" ++
        "            " ++ (refCore sampleLeaves).addLoopTrap ".then(step)" untilDone.id ++ "\n" ++
        "        \x7d\n" ++
        "    );\n" ++
        "\x7d)\n", refState) :=
  C1_until_is_while_of_negation (refCore sampleLeaves) untilDone whileNotDone
    refState refState refState "done" ".then(step)" rfl rfl rfl rfl rfl rfl rfl

/-! ## Flow statements -/

/-- C7: for every block whose field FLOW is BREAK, whatever else the block
holds, `controls_flow_statements` returns the one chain stage that sets
`blockly_loop_break_flag` to true and then returns `Promise.resolve()`. -/
theorem C7_break_sets_flag_and_resolves (block : Block)
    (h : block.getFieldValue "FLOW" = some "BREAK") :
    Ch.controls_flow_statements block = .ok
      ".then( function() \x7b blockly_loop_break_flag = true; return Promise.resolve(); \x7d)" := by
  simp [Ch.controls_flow_statements, h]

/-- C7 at a block that also has a comment and a following block. -/
theorem C7_break_sets_flag_and_resolves_witness :
    Ch.controls_flow_statements
      { id := "k", fields := [("FLOW", "BREAK")], comment := "leave",
        nextConnection := some (some "body") } = .ok
      ".then( function() \x7b blockly_loop_break_flag = true; return Promise.resolve(); \x7d)" :=
  C7_break_sets_flag_and_resolves _ rfl

/-- C8: `controls_flow_statements` returns text exactly when FLOW is BREAK;
for every other value of FLOW, CONTINUE among them, it throws
`Unknown flow statement.`. -/
theorem C8_only_break_is_known (block : Block) :
    ((∃ code, Ch.controls_flow_statements block = .ok code) ↔
        block.getFieldValue "FLOW" = some "BREAK") ∧
      (block.getFieldValue "FLOW" ≠ some "BREAK" →
        Ch.controls_flow_statements block = .error "Unknown flow statement.") ∧
      (block.getFieldValue "FLOW" = some "CONTINUE" →
        Ch.controls_flow_statements block = .error "Unknown flow statement.") := by
  have key : block.getFieldValue "FLOW" ≠ some "BREAK" →
      Ch.controls_flow_statements block = .error "Unknown flow statement." := by
    intro h
    unfold Ch.controls_flow_statements
    split
    · contradiction
    · rfl
  refine ⟨⟨?_, ?_⟩, key, ?_⟩
  · rintro ⟨code, hc⟩
    by_contra hne
    rw [key hne] at hc
    cases hc
  · intro h
    refine ⟨".then( function() \x7b blockly_loop_break_flag = true; return Promise.resolve(); \x7d)", ?_⟩
    simp [Ch.controls_flow_statements, h]
  · intro h
    apply key
    rw [h]
    decide

/-- C8 at a block whose field FLOW is CONTINUE. -/
theorem C8_only_break_is_known_witness :
    Ch.controls_flow_statements { id := "k", fields := [("FLOW", "CONTINUE")] }
      = .error "Unknown flow statement." :=
  (C8_only_break_is_known { id := "k", fields := [("FLOW", "CONTINUE")] }).2.2 rfl

/-! ## Counting loops -/

/-- C2, as stated, fails for integer literals that a double does not hold.
With FROM `9007199254740993` (which is `2 ^ 53 + 1`), TO `9007199254740992`
and BY `1` the start is above the end, but both literals are read as the same
double, so `controls_for` emits the guard `i <= 9007199254740992` and the
update `i++` of an ascending loop; read as an integer loop, that guard fails
at once and the body runs no time, where the claim counts two descending
steps. -/
theorem C2_unsafe_integer_bounds_reverse_direction :
    readInt "9007199254740993".data = some 9007199254740993 ∧
      readInt "9007199254740992".data = some 9007199254740992 ∧
      ¬ ((9007199254740993 : Int) ≤ 9007199254740992) ∧
      jsLe (parseFloat "9007199254740993") (parseFloat "9007199254740992") = true ∧
      Ch.controls_for (refCore roundingLeaves) forBigToLessBig refState = .ok (
        ".then(function() \x7b\n" ++
        "    i = 9007199254740993;\n" ++
        "   return promiseWhile(\n" ++
        "       function()\x7breturn (i <= 9007199254740992);\x7d,\n" ++
        "       function() \x7b\n" ++
        "           return Promise.resolve()\n" ++
        "           .then(step)\n" ++
        "           .then( function() \x7b\n" ++
        "           i++;\n" ++
        "           \x7d)\n" ++
        "       \x7d);\n" ++
        "\x7d)\n", refStateI) ∧
      promiseWhile (readGuard " <= " "9007199254740992") (readUpdate "++") 3 9007199254740993
        = some [] ∧
      ((9007199254740992 : Int) - 9007199254740993).natAbs / (1 : Int).natAbs + 1 = 2 := by
  refine ⟨rfl, rfl, by decide, rfl, rfl, rfl, rfl⟩

/-- C2, amended: when the FROM, TO and BY codes are the integer literals `a`,
`b` and `s` with `s` not zero, all three of magnitude below `2 ^ 53` (the
integers that a double holds exactly), `controls_for` assigns `a` to the loop
variable, emits the guard `v <= b` when `a <= b` and `v >= b` otherwise, and an
update by `|s|` towards `b`; read as an integer loop, the emitted guard and
update run the body exactly `|b - a| / |s| + 1` times, on `a`, `a + |s|`, ...
when `a <= b` and on `a`, `a - |s|`, ... otherwise. -/
theorem C2_safe_integer_for_counts {ν : Type} (G : Core ν) (block : Block)
    (s s1 s2 s3 s4 : GenState ν) (ca cb cs body : String) (a b st : Int)
    (hFrom : G.valueToCode block "FROM" ORDER_ASSIGNMENT
      (G.dbGetName ((block.getFieldValue "VAR").getD "") Variables.NAME_TYPE s).2 = .ok (ca, s1))
    (hTo : G.valueToCode block "TO" ORDER_ASSIGNMENT s1 = .ok (cb, s2))
    (hBy : G.valueToCode block "BY" ORDER_ASSIGNMENT s2 = .ok (cs, s3))
    (hDo : G.statementToCode block "DO" s3 = .ok (body, s4))
    (ha : readInt ca.data = some a) (hb : readInt cb.data = some b)
    (hs : readInt cs.data = some st) (hst : st ≠ 0)
    (hsa : a.natAbs < 2 ^ 53) (hsb : b.natAbs < 2 ^ 53) (hss : st.natAbs < 2 ^ 53) :
    let v := (G.dbGetName ((block.getFieldValue "VAR").getD "") Variables.NAME_TYPE s).1
    let op := if a ≤ b then " <= " else " >= "
    let update := if st.natAbs = 1 then (if a ≤ b then "++" else "--")
      else (if a ≤ b then " += " else " -= ") ++ Nat.repr st.natAbs
    let count := (b - a).natAbs / st.natAbs + 1
    Ch.controls_for G block s = .ok (
        ".then(function() \x7b\n" ++
        "    " ++ v ++ " = " ++ ca ++ ";\n" ++
        "   return promiseWhile(\n" ++
        "       function()\x7breturn (" ++ v ++ op ++ cb ++ ");\x7d,\n" ++
        "       function() \x7b\n" ++
        "           return Promise.resolve()\n" ++
        "           " ++ G.addLoopTrap body block.id ++ "\n" ++
        "           .then( function() \x7b\n" ++
        "           " ++ v ++ update ++ ";\n" ++
        "           \x7d)\n" ++
        "       \x7d);\n" ++
        "\x7d)\n", s4) ∧
      (∀ x, readGuard op cb x = some (if a ≤ b then decide (x ≤ b) else decide (x ≥ b))) ∧
      (∀ x, readUpdate update x =
        some (if a ≤ b then x + (st.natAbs : Int) else x - (st.natAbs : Int))) ∧
      ∀ fuel, count < fuel →
        promiseWhile (readGuard op cb) (readUpdate update) fuel a =
          some (List.iterate
            (fun x => if a ≤ b then x + (st.natAbs : Int) else x - (st.natAbs : Int)) a count) := by
  intro v op update count
  obtain ⟨na, pa⟩ := isNumber_of_readInt ha
  obtain ⟨nb, pb⟩ := isNumber_of_readInt hb
  obtain ⟨ns, ps⟩ := isNumber_of_readInt hs
  have hupd : Ch.forStaticUpdate (decide (a ≤ b)) cs = update := by
    unfold Ch.forStaticUpdate
    simp only [ps, jsIsOne_abs_int st hss, jsNumberToString_abs_int st hss]
    by_cases h1 : st.natAbs = 1 <;> by_cases h2 : a ≤ b <;> simp [update, h1, h2]
  have hguard : ∀ x, readGuard op cb x =
      some (if a ≤ b then decide (x ≤ b) else decide (x ≥ b)) := by
    intro x
    by_cases h2 : a ≤ b
    · simp only [op, h2, if_true]; exact readGuard_le hb x
    · simp only [op, h2, if_false]; exact readGuard_ge hb x
  have hupdate : ∀ x, readUpdate update x =
      some (if a ≤ b then x + (st.natAbs : Int) else x - (st.natAbs : Int)) := by
    intro x
    rw [← hupd, readUpdate_static (decide (a ≤ b)) hs hss x]
    by_cases h2 : a ≤ b <;> simp [h2]
  refine ⟨?_, hguard, hupdate, ?_⟩
  · simp only [Ch.controls_for, hFrom, hTo, hBy, hDo, bind, Except.bind, pure, Except.pure,
      jsOr_of_ne (ne_empty_of_isNumber na), jsOr_of_ne (ne_empty_of_isNumber nb),
      jsOr_of_ne (ne_empty_of_isNumber ns), na, nb, ns, Bool.and_self, if_true,
      Ch.forStatic, pa, pb, jsLe_int a b hsa hsb, hupd]
    by_cases h2 : a ≤ b <;> simp [op, h2, v, String.append_assoc]
  · intro fuel hf
    have ht : (0 : Int) < (st.natAbs : Int) := by
      have := Int.natAbs_pos.mpr hst
      exact_mod_cast this
    have htn : 0 < st.natAbs := Int.natAbs_pos.mpr hst
    have hk1 : ((b - a).natAbs / st.natAbs) * st.natAbs ≤ (b - a).natAbs :=
      Nat.div_mul_le_self _ _
    have hk2 : (b - a).natAbs < ((b - a).natAbs / st.natAbs + 1) * st.natAbs := by
      have h1 := Nat.div_add_mod (b - a).natAbs st.natAbs
      have h2 := Nat.mod_lt (b - a).natAbs htn
      have h3 : ((b - a).natAbs / st.natAbs + 1) * st.natAbs =
          st.natAbs * ((b - a).natAbs / st.natAbs) + st.natAbs := by ring
      omega
    have hk1z : (((b - a).natAbs / st.natAbs : Nat) : Int) * (st.natAbs : Int) ≤
        ((b - a).natAbs : Int) := by exact_mod_cast hk1
    have hk2z : ((b - a).natAbs : Int) <
        ((((b - a).natAbs / st.natAbs : Nat) : Int) + 1) * (st.natAbs : Int) := by
      exact_mod_cast hk2
    by_cases h2 : a ≤ b
    · have hg : readGuard op cb = fun x => some (decide (x ≤ b)) := by
        funext x; rw [hguard x]; simp [h2]
      have hu : readUpdate update = fun x => some (x + (st.natAbs : Int)) := by
        funext x; rw [hupdate x]; simp [h2]
      have habs : ((b - a).natAbs : Int) = b - a := Int.natAbs_of_nonneg (by omega)
      rw [hg, hu]
      simp only [h2, if_true]
      exact promiseWhile_ascending b _ ht _ a fuel (by rw [habs] at hk1z; linarith)
        (by rw [habs] at hk2z; linarith) hf
    · have hg : readGuard op cb = fun x => some (decide (x ≥ b)) := by
        funext x; rw [hguard x]; simp [h2]
      have hu : readUpdate update = fun x => some (x - (st.natAbs : Int)) := by
        funext x; rw [hupdate x]; simp [h2]
      have habs : ((b - a).natAbs : Int) = a - b := by
        rw [← Int.natAbs_neg, Int.natAbs_of_nonneg (by omega)]; ring
      rw [hg, hu]
      simp only [h2, if_false]
      exact promiseWhile_descending b _ ht _ a fuel (by rw [habs] at hk1z; linarith)
        (by rw [habs] at hk2z; linarith) hf

/-- C2 at the loops 1 to 5 by 1 and 5 to 1 by 1: five ascending and five
descending steps. -/
theorem C2_safe_integer_for_counts_witness :
    Ch.controls_for (refCore sampleLeaves) forOneToFive refState = .ok (
        ".then(function() \x7b\n" ++
        "    i = 1;\n" ++
        "   return promiseWhile(\n" ++
        "       function()\x7breturn (i <= 5);\x7d,\n" ++
        "       function() \x7b\n" ++
        "           return Promise.resolve()\n" ++
        "           .then(step)\n" ++
        "           .then( function() \x7b\n" ++
        "           i++;\n" ++
        "           \x7d)\n" ++
        "       \x7d);\n" ++
        "\x7d)\n", refStateI) ∧
      promiseWhile (readGuard " <= " "5") (readUpdate "++") 6 1 = some [1, 2, 3, 4, 5] ∧
      promiseWhile (readGuard " >= " "1") (readUpdate "--") 6 5 = some [5, 4, 3, 2, 1] :=
  ⟨(C2_safe_integer_for_counts (refCore sampleLeaves) forOneToFive refState refStateI refStateI
      refStateI refStateI "1" "5" "1" ".then(step)" 1 5 1 rfl rfl rfl rfl rfl rfl rfl
      (by decide) (by decide) (by decide) (by decide)).1,
    (C2_safe_integer_for_counts (refCore sampleLeaves) forOneToFive refState refStateI refStateI
      refStateI refStateI "1" "5" "1" ".then(step)" 1 5 1 rfl rfl rfl rfl rfl rfl rfl
      (by decide) (by decide) (by decide) (by decide)).2.2.2 6 (by decide),
    (C2_safe_integer_for_counts (refCore sampleLeaves) forFiveToOne refState refStateI refStateI
      refStateI refStateI "5" "1" "1" ".then(step)" 5 1 1 rfl rfl rfl rfl rfl rfl rfl
      (by decide) (by decide) (by decide) (by decide)).2.2.2 6 (by decide)⟩

theorem controls_for_dynamic_eq {ν : Type} (G : Core ν) (block : Block)
    (s s1 s2 s3 s4 : GenState ν) (r0 r1 r2 body : String)
    (hFrom : G.valueToCode block "FROM" ORDER_ASSIGNMENT
      (G.dbGetName ((block.getFieldValue "VAR").getD "") Variables.NAME_TYPE s).2 = .ok (r0, s1))
    (hTo : G.valueToCode block "TO" ORDER_ASSIGNMENT s1 = .ok (r1, s2))
    (hBy : G.valueToCode block "BY" ORDER_ASSIGNMENT s2 = .ok (r2, s3))
    (hDo : G.statementToCode block "DO" s3 = .ok (body, s4))
    (hdyn : (isNumber (jsOr r0 "0") && isNumber (jsOr r1 "0") && isNumber (jsOr r2 "1")) = false) :
    Ch.controls_for G block s = .ok (Ch.forDynamic G
      (G.dbGetName ((block.getFieldValue "VAR").getD "") Variables.NAME_TYPE s).1
      (jsOr r0 "0") (jsOr r1 "0") (jsOr r2 "1") (G.addLoopTrap body block.id) s4) := by
  simp only [Ch.controls_for, hFrom, hTo, hBy, hDo, bind, Except.bind, pure, Except.pure, hdyn]
  rfl

theorem controls_for_static_eq {ν : Type} (G : Core ν) (block : Block)
    (s s1 s2 s3 s4 : GenState ν) (r0 r1 r2 body : String)
    (hFrom : G.valueToCode block "FROM" ORDER_ASSIGNMENT
      (G.dbGetName ((block.getFieldValue "VAR").getD "") Variables.NAME_TYPE s).2 = .ok (r0, s1))
    (hTo : G.valueToCode block "TO" ORDER_ASSIGNMENT s1 = .ok (r1, s2))
    (hBy : G.valueToCode block "BY" ORDER_ASSIGNMENT s2 = .ok (r2, s3))
    (hDo : G.statementToCode block "DO" s3 = .ok (body, s4))
    (hst : (isNumber (jsOr r0 "0") && isNumber (jsOr r1 "0") && isNumber (jsOr r2 "1")) = true) :
    Ch.controls_for G block s = .ok (Ch.forStatic
      (G.dbGetName ((block.getFieldValue "VAR").getD "") Variables.NAME_TYPE s).1
      (jsOr r0 "0") (jsOr r1 "0") (jsOr r2 "1") (G.addLoopTrap body block.id), s4) := by
  simp only [Ch.controls_for, hFrom, hTo, hBy, hDo, bind, Except.bind, pure, Except.pure, hst]
  rfl

theorem forDynamic_eq {ν : Type} (G : Core ν) (v start stop step branch : String)
    (s4 : GenState ν) :
    let hoistStart := !isWord start && !isNumber start
    let hoistEnd := !isWord stop && !isNumber stop
    let sa := if hoistStart then G.dbGetDistinctName (v ++ "_start") Variables.NAME_TYPE s4
      else (start, s4)
    let sb := if hoistEnd then G.dbGetDistinctName (v ++ "_end") Variables.NAME_TYPE sa.2
      else (stop, sa.2)
    let si := G.dbGetDistinctName (v ++ "_inc") Variables.NAME_TYPE sb.2
    Ch.forDynamic G v start stop step branch s4 = (
      ".then(function() \x7b\n" ++
      ((if hoistStart then "var " ++ sa.1 ++ " = " ++ start ++ ";\n" else "") ++
        (if hoistEnd then "var " ++ sb.1 ++ " = " ++ stop ++ ";\n" else "")) ++
      "var " ++ si.1 ++ " = " ++
      (if isNumber step then jsNumberToString (jsAbs (parseFloat step)) ++ ";\n"
        else "Math.abs(" ++ step ++ ");\n") ++
      ("if (" ++ sa.1 ++ " > " ++ sb.1 ++ ") \x7b\n" ++
        G.INDENT ++ si.1 ++ " = -" ++ si.1 ++ ";\n" ++ "\x7d\n") ++
      "return promiseWhile(\n" ++
      "    function() \x7b\n" ++
      ("        return " ++ si.1 ++ " >= 0 ? " ++ v ++ " <= " ++ sb.1 ++ " : " ++
        v ++ " >= " ++ sb.1 ++ ";\n") ++
      "    \x7d,\n" ++
      "    function() \x7b\n" ++
      "        " ++ branch ++ "\n" ++
      ("        " ++ v ++ " += " ++ si.1 ++ ";\n") ++
      "    \x7d);\n" ++
      "\x7d)\n", si.2) := by
  intro hoistStart hoistEnd sa sb si
  refine Prod.ext ?_ ?_
  · cases h1 : (!isWord start && !isNumber start) <;>
    cases h2 : (!isWord stop && !isNumber stop) <;>
    cases h3 : isNumber step <;>
    simp only [Ch.forDynamic, si, sb, sa, hoistStart, hoistEnd, h1, h2, h3, String.append_assoc,
      String.empty_append, String.append_empty, if_true, if_false, Bool.false_eq_true]
  · simp only [Ch.forDynamic, si, sb, sa, hoistStart, hoistEnd]

/-- C3: when FROM, TO and BY are not all numeric literals, the text emitted
by `controls_for` is, after the hoisted declarations, the declaration of a
fresh step variable holding the absolute step, then the one test
`if (start > end)` that negates the step variable, then the call of
`promiseWhile`; the guard inside the call chooses between `v <= end` and
`v >= end` by the sign of the step variable, and the update adds the step
variable; neither compares start with end. -/
theorem C3_dynamic_direction_decided_once {ν : Type} (G : Core ν) (block : Block)
    (s s1 s2 s3 s4 : GenState ν) (r0 r1 r2 body : String)
    (hFrom : G.valueToCode block "FROM" ORDER_ASSIGNMENT
      (G.dbGetName ((block.getFieldValue "VAR").getD "") Variables.NAME_TYPE s).2 = .ok (r0, s1))
    (hTo : G.valueToCode block "TO" ORDER_ASSIGNMENT s1 = .ok (r1, s2))
    (hBy : G.valueToCode block "BY" ORDER_ASSIGNMENT s2 = .ok (r2, s3))
    (hDo : G.statementToCode block "DO" s3 = .ok (body, s4))
    (hdyn : (isNumber (jsOr r0 "0") && isNumber (jsOr r1 "0") && isNumber (jsOr r2 "1")) = false) :
    let v := (G.dbGetName ((block.getFieldValue "VAR").getD "") Variables.NAME_TYPE s).1
    let start := jsOr r0 "0"
    let stop := jsOr r1 "0"
    let step := jsOr r2 "1"
    let hoistStart := !isWord start && !isNumber start
    let hoistEnd := !isWord stop && !isNumber stop
    let sa := if hoistStart then G.dbGetDistinctName (v ++ "_start") Variables.NAME_TYPE s4
      else (start, s4)
    let sb := if hoistEnd then G.dbGetDistinctName (v ++ "_end") Variables.NAME_TYPE sa.2
      else (stop, sa.2)
    let si := G.dbGetDistinctName (v ++ "_inc") Variables.NAME_TYPE sb.2
    let startVar := sa.1
    let endVar := sb.1
    let incVar := si.1
    let hoists := (if hoistStart then "var " ++ startVar ++ " = " ++ start ++ ";\n" else "") ++
      (if hoistEnd then "var " ++ endVar ++ " = " ++ stop ++ ";\n" else "")
    let absStep := if isNumber step then jsNumberToString (jsAbs (parseFloat step)) ++ ";\n"
      else "Math.abs(" ++ step ++ ");\n"
    let decision := "if (" ++ startVar ++ " > " ++ endVar ++ ") \x7b\n" ++
      G.INDENT ++ incVar ++ " = -" ++ incVar ++ ";\n" ++ "\x7d\n"
    let guard := "        return " ++ incVar ++ " >= 0 ? " ++ v ++ " <= " ++ endVar ++ " : " ++
      v ++ " >= " ++ endVar ++ ";\n"
    let update := "        " ++ v ++ " += " ++ incVar ++ ";\n"
    Ch.controls_for G block s = .ok (
      ".then(function() \x7b\n" ++ hoists ++
      "var " ++ incVar ++ " = " ++ absStep ++
      decision ++
      "return promiseWhile(\n" ++
      "    function() \x7b\n" ++
      guard ++
      "    \x7d,\n" ++
      "    function() \x7b\n" ++
      "        " ++ G.addLoopTrap body block.id ++ "\n" ++
      update ++
      "    \x7d);\n" ++
      "\x7d)\n", si.2) := by
  intro v start stop step hoistStart hoistEnd sa sb si startVar endVar incVar hoists absStep
    decision guard update
  rw [controls_for_dynamic_eq G block s s1 s2 s3 s4 r0 r1 r2 body hFrom hTo hBy hDo hdyn]
  exact congrArg Except.ok (forDynamic_eq G v start stop step _ s4)

/-- C3 at the loop from the variable `a` to 10 by 2. -/
theorem C3_dynamic_direction_decided_once_witness :
    Ch.controls_for (refCore sampleLeaves) forFromVariable refState = .ok (
      ".then(function() \x7b\n" ++
      "var i_inc = 2;\n" ++
      "if (a > 10) \x7b\n" ++
      "  i_inc = -i_inc;\n" ++
      "\x7d\n" ++
      "return promiseWhile(\n" ++
      "    function() \x7b\n" ++
      "        return i_inc >= 0 ? i <= 10 : i >= 10;\n" ++
      "    \x7d,\n" ++
      "    function() \x7b\n" ++
      "        .then(step)\n" ++
      "        i += i_inc;\n" ++
      "    \x7d);\n" ++
      "\x7d)\n",
      refStateIInc) :=
  C3_dynamic_direction_decided_once (refCore sampleLeaves) forFromVariable refState refStateI
    refStateI refStateI refStateI "a" "10" "2" ".then(step)" rfl rfl rfl rfl rfl

/-- C4, as stated, fails for the step: in the loop from the variable `a` to 10
by 2 the step code `2` is a numeric literal, yet the fresh variable `i_inc`
is issued by the name allocator and declared in the emitted text. -/
theorem C4_literal_step_still_gets_variable :
    isNumber "2" = true ∧
      (refCore sampleLeaves).valueToCode forFromVariable "BY" ORDER_ASSIGNMENT refStateI
        = .ok ("2", refStateI) ∧
      Ch.controls_for (refCore sampleLeaves) forFromVariable refState = .ok (
        ".then(function() \x7b\n" ++
        "var i_inc = 2;\n" ++
        "if (a > 10) \x7b\n" ++
        "  i_inc = -i_inc;\n" ++
        "\x7d\n" ++
        "return promiseWhile(\n" ++
        "    function() \x7b\n" ++
        "        return i_inc >= 0 ? i <= 10 : i >= 10;\n" ++
        "    \x7d,\n" ++
        "    function() \x7b\n" ++
        "        .then(step)\n" ++
        "        i += i_inc;\n" ++
        "    \x7d);\n" ++
        "\x7d)\n", refStateIInc) ∧
      refStateIInc.variableDB_.issued = refStateI.variableDB_.issued ++ ["i_inc"] := by
  refine ⟨by decide, rfl, rfl, rfl⟩

/-- C4, amended: in `controls_for` the start bound and the end bound are
each hoisted into a freshly synthesized variable, declared before the loop,
exactly when the code is neither a numeric literal nor a bare identifier, and
are used directly otherwise.  The step is not: when FROM, TO and BY are not
all numeric literals a fresh variable `<v>_inc` is always synthesized and
declared, holding the absolute value of the step; when all three are numeric
literals nothing is synthesized or declared. -/
theorem C4_bounds_hoisted_step_always {ν : Type} (G : Core ν) (block : Block)
    (s s1 s2 s3 s4 : GenState ν) (r0 r1 r2 body : String)
    (hFrom : G.valueToCode block "FROM" ORDER_ASSIGNMENT
      (G.dbGetName ((block.getFieldValue "VAR").getD "") Variables.NAME_TYPE s).2 = .ok (r0, s1))
    (hTo : G.valueToCode block "TO" ORDER_ASSIGNMENT s1 = .ok (r1, s2))
    (hBy : G.valueToCode block "BY" ORDER_ASSIGNMENT s2 = .ok (r2, s3))
    (hDo : G.statementToCode block "DO" s3 = .ok (body, s4)) :
    let v := (G.dbGetName ((block.getFieldValue "VAR").getD "") Variables.NAME_TYPE s).1
    let start := jsOr r0 "0"
    let stop := jsOr r1 "0"
    let step := jsOr r2 "1"
    let literals := isNumber start && isNumber stop && isNumber step
    let hoistStart := !isWord start && !isNumber start
    let hoistEnd := !isWord stop && !isNumber stop
    let sa := if hoistStart then G.dbGetDistinctName (v ++ "_start") Variables.NAME_TYPE s4
      else (start, s4)
    let sb := if hoistEnd then G.dbGetDistinctName (v ++ "_end") Variables.NAME_TYPE sa.2
      else (stop, sa.2)
    let si := G.dbGetDistinctName (v ++ "_inc") Variables.NAME_TYPE sb.2
    let up := jsLe (parseFloat start) (parseFloat stop)
    (literals = true →
      Ch.controls_for G block s = .ok (
        ".then(function() \x7b\n" ++
        "    " ++ v ++ " = " ++ start ++ ";\n" ++
        "   return promiseWhile(\n" ++
        "       function()\x7breturn (" ++ v ++ (if up then " <= " else " >= ") ++
          stop ++ ");\x7d,\n" ++
        "       function() \x7b\n" ++
        "           return Promise.resolve()\n" ++
        "           " ++ G.addLoopTrap body block.id ++ "\n" ++
        "           .then( function() \x7b\n" ++
        "           " ++ v ++ Ch.forStaticUpdate up step ++ ";\n" ++
        "           \x7d)\n" ++
        "       \x7d);\n" ++
        "\x7d)\n", s4)) ∧
    (literals = false →
      (hoistStart = false → sa = (start, s4)) ∧
      (hoistEnd = false → sb = (stop, sa.2)) ∧
      Ch.controls_for G block s = .ok (
        ".then(function() \x7b\n" ++
        ((if hoistStart then "var " ++ sa.1 ++ " = " ++ start ++ ";\n" else "") ++
          (if hoistEnd then "var " ++ sb.1 ++ " = " ++ stop ++ ";\n" else "")) ++
        "var " ++ si.1 ++ " = " ++
        (if isNumber step then jsNumberToString (jsAbs (parseFloat step)) ++ ";\n"
          else "Math.abs(" ++ step ++ ");\n") ++
        ("if (" ++ sa.1 ++ " > " ++ sb.1 ++ ") \x7b\n" ++
          G.INDENT ++ si.1 ++ " = -" ++ si.1 ++ ";\n" ++ "\x7d\n") ++
        "return promiseWhile(\n" ++
        "    function() \x7b\n" ++
        ("        return " ++ si.1 ++ " >= 0 ? " ++ v ++ " <= " ++ sb.1 ++ " : " ++
          v ++ " >= " ++ sb.1 ++ ";\n") ++
        "    \x7d,\n" ++
        "    function() \x7b\n" ++
        "        " ++ G.addLoopTrap body block.id ++ "\n" ++
        ("        " ++ v ++ " += " ++ si.1 ++ ";\n") ++
        "    \x7d);\n" ++
        "\x7d)\n", si.2)) := by
  intro v start stop step literals hoistStart hoistEnd sa sb si up
  refine ⟨?_, ?_⟩
  · intro hl
    rw [controls_for_static_eq G block s s1 s2 s3 s4 r0 r1 r2 body hFrom hTo hBy hDo hl]
    refine congrArg Except.ok (Prod.ext ?_ rfl)
    simp only [Ch.forStatic, String.append_assoc, up, start, stop, step, v]
  · intro hl
    refine ⟨?_, ?_, ?_⟩
    · intro h; simp only [sa, h, Bool.false_eq_true, if_false]
    · intro h; simp only [sb, h, Bool.false_eq_true, if_false]
    · rw [controls_for_dynamic_eq G block s s1 s2 s3 s4 r0 r1 r2 body hFrom hTo hBy hDo hl]
      exact congrArg Except.ok (forDynamic_eq G v start stop step _ s4)

/-- C4, amended, at the loop from `x + 1` to 10 by 2: the start is hoisted
into `i_start`, the end `10` is used directly and the step gets `i_inc`. -/
theorem C4_bounds_hoisted_step_always_witness :
    Ch.controls_for (refCore sampleLeaves) forFromSum refState = .ok (
      ".then(function() \x7b\n" ++
      "var i_start = x + 1;\n" ++
      "var i_inc = 2;\n" ++
      "if (i_start > 10) \x7b\n" ++
      "  i_inc = -i_inc;\n" ++
      "\x7d\n" ++
      "return promiseWhile(\n" ++
      "    function() \x7b\n" ++
      "        return i_inc >= 0 ? i <= 10 : i >= 10;\n" ++
      "    \x7d,\n" ++
      "    function() \x7b\n" ++
      "        .then(step)\n" ++
      "        i += i_inc;\n" ++
      "    \x7d);\n" ++
      "\x7d)\n", refStateIStartInc) :=
  ((C4_bounds_hoisted_step_always (refCore sampleLeaves) forFromSum refState refStateI
    refStateI refStateI refStateI "x + 1" "10" "2" ".then(step)" rfl rfl rfl rfl).2 rfl).2.2

/-! ## Emitters that miss the protocol -/

/-- C5 fails for `controls_forEach`: for the loop over `xs` it emits a native
`for ... in` statement and calls neither `promiseTimes` nor `promiseWhile`. -/
theorem C5_forEach_emits_native_for :
    Ch.controls_forEach (refCore sampleLeaves) forEachXs refState = .ok (
      "for (var x_index in xs) \x7b\n" ++
      "  x = xs[x_index];\n" ++
      "\x7d\n", refStateXIndex) ∧
    occursIn "promiseTimes" ("for (var x_index in xs) \x7b\n" ++
      "  x = xs[x_index];\n" ++
      "\x7d\n") = false ∧
    occursIn "promiseWhile" ("for (var x_index in xs) \x7b\n" ++
      "  x = xs[x_index];\n" ++
      "\x7d\n") = false ∧
    occursIn "for (" ("for (var x_index in xs) \x7b\n" ++
      "  x = xs[x_index];\n" ++
      "\x7d\n") = true := by
  refine ⟨rfl, by decide, by decide, by decide⟩

/-- C6 fails in the branch of `controls_for` for bounds that are not all
numeric literals: for the loop from the variable `a` to 10 by 2 the body
function holds the nested chain and the update only, and
`Promise.resolve()` occurs nowhere in the emitted text. -/
theorem C6_dynamic_for_body_lacks_resolve :
    (Ch.controls_for (refCore sampleLeaves) forFromVariable refState).map (fun r => r.1) = .ok (
      ".then(function() \x7b\n" ++
      "var i_inc = 2;\n" ++
      "if (a > 10) \x7b\n" ++
      "  i_inc = -i_inc;\n" ++
      "\x7d\n" ++
      "return promiseWhile(\n" ++
      "    function() \x7b\n" ++
      "        return i_inc >= 0 ? i <= 10 : i >= 10;\n" ++
      "    \x7d,\n" ++
      "    function() \x7b\n" ++
      "        .then(step)\n" ++
      "        i += i_inc;\n" ++
      "    \x7d);\n" ++
      "\x7d)\n") ∧
    occursIn "Promise.resolve()" (
      ".then(function() \x7b\n" ++
      "var i_inc = 2;\n" ++
      "if (a > 10) \x7b\n" ++
      "  i_inc = -i_inc;\n" ++
      "\x7d\n" ++
      "return promiseWhile(\n" ++
      "    function() \x7b\n" ++
      "        return i_inc >= 0 ? i <= 10 : i >= 10;\n" ++
      "    \x7d,\n" ++
      "    function() \x7b\n" ++
      "        .then(step)\n" ++
      "        i += i_inc;\n" ++
      "    \x7d);\n" ++
      "\x7d)\n") = false := by
  refine ⟨rfl, ?_⟩
  decide

/-- C10 fails in the JavaScript generator: for the conditional return of `10`
under `a` it assigns `function_return_value` and never calls `funcResolve`,
while the Cpp generator calls `funcResolve(10)` on the same block. -/
theorem C10_javascript_ifreturn_skips_funcResolve :
    JavaScript.procedures_ifreturn (refCore sampleLeaves) ifReturnTen refState = .ok (
      ".then( function() \x7b \n" ++
      "    if (a) \x7b\n" ++
      "    function_return_value = 10;\n" ++
      "    return Promise.reject(\"return\");" ++
      "    \x7d else \x7b\n" ++
      "        return Promise.resolve();\n" ++
      "    \x7d\n\x7d)\n", refState) ∧
    (JavaScript.procedures_ifreturn (refCore sampleLeaves) ifReturnTen refState).map
      (fun r => occursIn "funcResolve" r.1) = .ok false ∧
    Cpp.procedures_ifreturn (refCore sampleLeaves) ifReturnTen refState = .ok (
      ".then( function() \x7b \n" ++
      "    if (a) \x7b\n" ++
      "        funcResolve(10);\n" ++
      "        return Promise.reject(\"return\");\n" ++
      "    \x7d else \x7b\n" ++
      "        return Promise.resolve();\n" ++
      "    \x7d\n\x7d)\n", refState) := by
  exact ⟨rfl, rfl, rfl⟩

/-! ## Procedure definitions -/

theorem defreturnCode_eq {ν : Type} (G : Core ν) (block : Block)
    (s s1 s2 : GenState ν) (body r : String)
    (hStack : G.statementToCode block "STACK"
      (G.dbGetName ((block.getFieldValue "NAME").getD "") Procedures.NAME_TYPE s).2
        = .ok (body, s1))
    (hRet : G.valueToCode block "RETURN" ORDER_NONE s1 = .ok (r, s2)) :
    defreturnCode G block s = .ok
      (((G.dbGetName ((block.getFieldValue "NAME").getD "") Procedures.NAME_TYPE s).1,
        procedureText
          (G.dbGetName ((block.getFieldValue "NAME").getD "") Procedures.NAME_TYPE s).1
          (argNames G block.arguments_ s2).1
          ((if G.INFINITE_LOOP_TRAP ≠ "" then replaceId G.INFINITE_LOOP_TRAP block.id else "") ++
            (if G.STATEMENT_PREFIX ≠ "" then
              G.prefixLines (replaceId G.STATEMENT_PREFIX block.id) G.INDENT else "") ++ body)
          (if r = "" then none else some r)),
        (argNames G block.arguments_ s2).2) := by
  simp only [defreturnCode, hStack, hRet, bind, Except.bind, pure, Except.pure]
  refine congrArg Except.ok (Prod.ext (Prod.ext rfl ?_) rfl)
  by_cases h1 : G.INFINITE_LOOP_TRAP = "" <;> by_cases h2 : G.STATEMENT_PREFIX = "" <;>
    by_cases h3 : r = "" <;>
    simp [procedureText, returnStage, catchStage, jsOr, h1, h2, h3, String.append_assoc]

/-- C9: for every procedure definition block, in the Cpp and in the
JavaScript generator, `procedures_defnoreturn` is `procedures_defreturn`, and
the text it hands to `scrub_` and stores as the definition is
`function <id>(<allocated argument names joined by ', '>)` returning
`new Promise(function(funcResolve, funcReject) ...)` whose chain is
`Promise.resolve()`, the body statement chain, the stage that calls
`funcResolve(r)` and returns `Promise.reject("return")` exactly when the
RETURN slot yields a code `r` that is not empty, and the `.catch` stage. -/
theorem C9_procedure_definition_shape {ν : Type} (G : Core ν)
    (scrub : Block → String → GenState ν → Except String (Out ν)) (block : Block)
    (s s1 s2 s3 tJ : GenState ν) (body r nextCode dJ : String)
    (hStack : G.statementToCode block "STACK"
      (G.dbGetName ((block.getFieldValue "NAME").getD "") Procedures.NAME_TYPE s).2
        = .ok (body, s1))
    (hRet : G.valueToCode block "RETURN" ORDER_NONE s1 = .ok (r, s2))
    (hNext : G.blockToCode
      (match block.nextConnection with
        | some target => target
        | none => none) (argNames G block.arguments_ s2).2 = .ok (nextCode, s3))
    (hJs : scrub block
      (procedureText
        (G.dbGetName ((block.getFieldValue "NAME").getD "") Procedures.NAME_TYPE s).1
        (argNames G block.arguments_ s2).1
        ((if G.INFINITE_LOOP_TRAP ≠ "" then replaceId G.INFINITE_LOOP_TRAP block.id else "") ++
          (if G.STATEMENT_PREFIX ≠ "" then
            G.prefixLines (replaceId G.STATEMENT_PREFIX block.id) G.INDENT else "") ++ body)
        (if r = "" then none else some r))
      (argNames G block.arguments_ s2).2 = .ok (dJ, tJ)) :
    let funcName := (G.dbGetName ((block.getFieldValue "NAME").getD "") Procedures.NAME_TYPE s).1
    let text := procedureText funcName (argNames G block.arguments_ s2).1
      ((if G.INFINITE_LOOP_TRAP ≠ "" then replaceId G.INFINITE_LOOP_TRAP block.id else "") ++
        (if G.STATEMENT_PREFIX ≠ "" then
          G.prefixLines (replaceId G.STATEMENT_PREFIX block.id) G.INDENT else "") ++ body)
      (if r = "" then none else some r)
    (∃ commentCode, Cpp.procedures_defreturn G block s = .ok (none,
      { s3 with definitions_ :=
          dictSet s3.definitions_ funcName (commentCode ++ text ++ nextCode) })) ∧
    JavaScript.procedures_defreturn G scrub block s = .ok (none,
      { tJ with definitions_ := dictSet tJ.definitions_ funcName dJ }) ∧
    Cpp.procedures_defnoreturn G block s = Cpp.procedures_defreturn G block s ∧
    JavaScript.procedures_defnoreturn G scrub block s =
      JavaScript.procedures_defreturn G scrub block s := by
  intro funcName text
  have hd := defreturnCode_eq G block s s1 s2 body r hStack hRet
  refine ⟨?_, ?_, rfl, rfl⟩
  · simp only [Cpp.procedures_defreturn, hd, bind, Except.bind, pure, Except.pure,
      Cpp.scrub_, hNext]
    exact ⟨_, rfl⟩
  · simp only [JavaScript.procedures_defreturn, hd, bind, Except.bind, pure, Except.pure, hJs]

/-- C9 at the definition of `go(p, q)`, which returns `x + 1`. -/
theorem C9_procedure_definition_shape_witness :
    JavaScript.procedures_defreturn (refCore sampleLeaves) (Cpp.scrub_ (refCore sampleLeaves))
      procGo refState = .ok (none, { refStateGo with definitions_ := [("go", goText)] }) :=
  (C9_procedure_definition_shape (refCore sampleLeaves) (Cpp.scrub_ (refCore sampleLeaves))
    procGo refState refStateGoName refStateGoName refStateGo refStateGo ".then(step)" "x + 1" "" goText
    rfl rfl rfl rfl).2.1

/-! ## Procedure calls and the recovery stage -/

/-- C11 fails in the JavaScript generator: for the call of `go(a)` the stage
returns a new promise that calls `go(a)` and then resolves at once, whether
or not the call has settled, while the Cpp generator returns the pending
result of the call itself. -/
theorem C11_javascript_call_resolves_on_its_own :
    JavaScript.procedures_callnoreturn (refCore sampleLeaves) callGo refState = .ok (
      ".then( function() \x7b return new Promise( function( resolve, reject) \x7b\n" ++
      "    go(a);\n" ++
      "    resolve();\n" ++
      "\x7d); \x7d)\n", refStateGoName) ∧
    occursIn "return go(a)" (
      ".then( function() \x7b return new Promise( function( resolve, reject) \x7b\n" ++
      "    go(a);\n" ++
      "    resolve();\n" ++
      "\x7d); \x7d)\n") = false ∧
    Cpp.procedures_callnoreturn (refCore sampleLeaves) callGo refState = .ok (
      ".then( function() \x7b\n" ++
      "    return go(a);\n" ++
      "\x7d)\n", refStateGoName) := by
  refine ⟨rfl, ?_, rfl⟩
  decide

/-- C12 fails: in the definition emitted for `go(p, q)` the recovery stage
answers every other reason with `return Promise.reject(reason)` inside the
chain, whose result is dropped; `funcReject` occurs once, as the parameter of
the promise, and is called nowhere, so the promise handed to the caller is
never rejected. -/
theorem C12_recovery_stage_never_calls_funcReject :
    Cpp.procedures_defreturn (refCore sampleLeaves) procGo refState =
      .ok (none, { refStateGo with definitions_ := [("go", goText)] }) ∧
    occursIn "else \x7breturn Promise.reject(reason);\x7d" goText = true ∧
    occurrences "funcReject" goText = 1 ∧
    occursIn "function(funcResolve, funcReject)" goText = true ∧
    occursIn "funcReject(" goText = false := by
  refine ⟨rfl, ?_, ?_, ?_, ?_⟩ <;> decide

/-! ## Repeat and iterate loops -/

/-- C13: `controls_repeat_ext` passes the count code itself to `promiseTimes`
when the code is a numeric literal or a bare identifier, and nothing is
declared; otherwise it takes a fresh variable from the hint `repeat_end`,
emits the one declaration `var <end> = <count>;` before the loop stage and
passes that variable to `promiseTimes`, so the emitter writes the count code
once, in the declaration, and not in the call of the driver. -/
theorem C13_repeat_count_hoisted_once {ν : Type} (G : Core ν) (block : Block)
    (s s1 s2 : GenState ν) (repeats body : String)
    (hCount : (block.getField "TIMES" = true ∧
        repeats = G.stringOfNumber ((block.getFieldValue "TIMES").getD "") ∧ s1 = s) ∨
      (block.getField "TIMES" = false ∧
        ∃ r, G.valueToCode block "TIMES" ORDER_ASSIGNMENT s = .ok (r, s1) ∧
          repeats = jsOr r "0"))
    (hDo : G.statementToCode block "DO" s1 = .ok (body, s2)) :
    let stage := fun (count : String) =>
      ".then(function() \x7b \n" ++
      "    return promiseTimes(" ++ count ++ ", function() \x7b\n" ++
      "        return Promise.resolve()\n" ++
      "        " ++ G.addLoopTrap body block.id ++ "\n" ++
      "    \x7d);\n" ++
      "\x7d)\n"
    let loopVar := G.dbGetDistinctName "count" Variables.NAME_TYPE s2
    let endVar := G.dbGetDistinctName "repeat_end" Variables.NAME_TYPE loopVar.2
    ((isWord repeats || isNumber repeats) = true →
      Ch.controls_repeat_ext G block s = .ok (stage repeats, loopVar.2)) ∧
    ((isWord repeats || isNumber repeats) = false →
      Ch.controls_repeat_ext G block s =
        .ok ("var " ++ endVar.1 ++ " = " ++ repeats ++ ";\n" ++ stage endVar.1, endVar.2)) := by
  intro stage loopVar endVar
  constructor
  · intro h
    have h' : (!isWord repeats && !isNumber repeats) = false := by
      cases h1 : isWord repeats <;> cases h2 : isNumber repeats <;> simp_all
    rcases hCount with ⟨hf, hr, hs⟩ | ⟨hf, r, hv, hr⟩
    · subst hs
      rw [hr] at h'
      simp only [Ch.controls_repeat_ext, hf, if_true, hDo, bind, Except.bind, pure, Except.pure,
        h', Bool.false_eq_true, if_false, String.empty_append, stage, loopVar,
        String.append_assoc, hr]
    · rw [hr] at h'
      simp only [Ch.controls_repeat_ext, hf, hv, hDo, bind, Except.bind, pure, Except.pure,
        h', Bool.false_eq_true, if_false, String.empty_append, stage, loopVar,
        String.append_assoc, hr]
  · intro h
    have h' : (!isWord repeats && !isNumber repeats) = true := by
      cases h1 : isWord repeats <;> cases h2 : isNumber repeats <;> simp_all
    rcases hCount with ⟨hf, hr, hs⟩ | ⟨hf, r, hv, hr⟩
    · subst hs
      rw [hr] at h'
      simp only [Ch.controls_repeat_ext, hf, if_true, hDo, bind, Except.bind, pure, Except.pure,
        h', Bool.false_eq_true, if_false, String.empty_append, stage, loopVar, endVar,
        String.append_assoc, hr]
    · rw [hr] at h'
      simp only [Ch.controls_repeat_ext, hf, hv, hDo, bind, Except.bind, pure, Except.pure,
        h', Bool.false_eq_true, if_false, if_true, String.empty_append, stage, loopVar, endVar,
        String.append_assoc, hr]

/-- C13 at a loop that repeats `x + 1` times, where the count is hoisted and
written once, and at a loop that repeats 10 times, where it is passed on. -/
theorem C13_repeat_count_hoisted_once_witness :
    Ch.controls_repeat_ext (refCore sampleLeaves) repeatSum refState = .ok (
      "var repeat_end = x + 1;\n" ++
      (".then(function() \x7b \n" ++
      "    return promiseTimes(repeat_end, function() \x7b\n" ++
      "        return Promise.resolve()\n" ++
      "        .then(step)\n" ++
      "    \x7d);\n" ++
      "\x7d)\n"), refStateCountEnd) ∧
    occurrences "x + 1" (
      "var repeat_end = x + 1;\n" ++
      (".then(function() \x7b \n" ++
      "    return promiseTimes(repeat_end, function() \x7b\n" ++
      "        return Promise.resolve()\n" ++
      "        .then(step)\n" ++
      "    \x7d);\n" ++
      "\x7d)\n")) = 1 ∧
    Ch.controls_repeat_ext (refCore sampleLeaves) repeatTen refState = .ok (
      ".then(function() \x7b \n" ++
      "    return promiseTimes(10, function() \x7b\n" ++
      "        return Promise.resolve()\n" ++
      "        .then(step)\n" ++
      "    \x7d);\n" ++
      "\x7d)\n", refStateCount) :=
  ⟨(C13_repeat_count_hoisted_once (refCore sampleLeaves) repeatSum refState refState refState
      "x + 1" ".then(step)" (Or.inr ⟨rfl, "x + 1", rfl, rfl⟩) rfl).2 rfl,
    by decide,
    (C13_repeat_count_hoisted_once (refCore sampleLeaves) repeatTen refState refState refState
      "10" ".then(step)" (Or.inl ⟨rfl, rfl, rfl⟩) rfl).1 rfl⟩

/-- C14: `controls_forEach` uses the collection code itself when it is a bare
identifier and otherwise declares, once and before the loop, a fresh variable
from the hint `<var>_list` that holds it; it always takes a fresh variable
from the hint `<var>_index`; and the text of the loop body is the assignment
`<var> = <list>[<index>];` followed by all the nested statement code. -/
theorem C14_forEach_list_and_index {ν : Type} (G : Core ν) (block : Block)
    (s s1 s2 : GenState ν) (r body : String)
    (hList : G.valueToCode block "LIST" ORDER_ASSIGNMENT
      (G.dbGetName ((block.getFieldValue "VAR").getD "") Variables.NAME_TYPE s).2 = .ok (r, s1))
    (hDo : G.statementToCode block "DO" s1 = .ok (body, s2)) :
    let v := (G.dbGetName ((block.getFieldValue "VAR").getD "") Variables.NAME_TYPE s).1
    let list := jsOr r "[]"
    let l := if isWord list then (list, s2)
      else G.dbGetDistinctName (v ++ "_list") Variables.NAME_TYPE s2
    let i := G.dbGetDistinctName (v ++ "_index") Variables.NAME_TYPE l.2
    let loopBody := G.INDENT ++ v ++ " = " ++ l.1 ++ "[" ++ i.1 ++ "];\n" ++
      G.addLoopTrap body block.id
    Ch.controls_forEach G block s = .ok (
      (if isWord list then "" else "var " ++ l.1 ++ " = " ++ list ++ ";\n") ++
      "for (var " ++ i.1 ++ " in " ++ l.1 ++ ") \x7b\n" ++ loopBody ++ "\x7d\n", i.2) := by
  intro v list l i loopBody
  cases h : isWord (jsOr r "[]") <;>
    simp only [Ch.controls_forEach, hList, hDo, bind, Except.bind, pure, Except.pure, h,
      Bool.not_true, Bool.not_false, Bool.false_eq_true, if_false, if_true,
      String.empty_append, String.append_assoc, loopBody, i, l, list, v]

/-- C14 at the loop over the list `x + 1`, which is held in `x_list`, and at
the loop over the identifier `xs`, which is used as it is. -/
theorem C14_forEach_list_and_index_witness :
    Ch.controls_forEach (refCore sampleLeaves) forEachSum refState = .ok (
      "var x_list = x + 1;\n" ++
      "for (var x_index in x_list) \x7b\n" ++
      ("  x = x_list[x_index];\n" ++ ".then(step)") ++
      "\x7d\n", refStateXListIndex) ∧
    Ch.controls_forEach (refCore sampleLeaves) forEachXs refState = .ok (
      "" ++
      "for (var x_index in xs) \x7b\n" ++
      ("  x = xs[x_index];\n" ++ "") ++
      "\x7d\n", refStateXIndex) :=
  ⟨C14_forEach_list_and_index (refCore sampleLeaves) forEachSum refState refStateX refStateX
      "x + 1" ".then(step)" rfl rfl,
    C14_forEach_list_and_index (refCore sampleLeaves) forEachXs refState refStateX refStateX
      "xs" "" rfl rfl⟩

/-! ## The update of the counting loop -/

/-- C15, as stated, fails for step literals that a double does not hold: the
update follows the double nearest to the literal, not the literal.  The step
`1.00000000000000000001` is not 1 in absolute value, but it is read as the
double 1, so the loop from 1 to 5 is emitted with the update `i++`; the steps
`0.10000000000000000001`, `0.0000001` and `1000000000000000000000` are printed
as `0.1`, `1e-7` and `1e+21`, and the last text does not read as an integer
update. -/
theorem C15_step_literal_is_rounded_first :
    scanNumber "1.00000000000000000001".data = some (⟨100000000000000000001, 20⟩, []) ∧
      (100000000000000000001 : Int) ≠ 10 ^ 20 ∧
      isNumber "1.00000000000000000001" = true ∧
      jsIsOne (jsAbs (parseFloat "1.00000000000000000001")) = true ∧
      Ch.controls_for (refCore roundingLeaves) forOneToFiveByNearOne refState = .ok (
        ".then(function() \x7b\n" ++
        "    i = 1;\n" ++
        "   return promiseWhile(\n" ++
        "       function()\x7breturn (i <= 5);\x7d,\n" ++
        "       function() \x7b\n" ++
        "           return Promise.resolve()\n" ++
        "           .then(step)\n" ++
        "           .then( function() \x7b\n" ++
        "           i++;\n" ++
        "           \x7d)\n" ++
        "       \x7d);\n" ++
        "\x7d)\n", refStateI) ∧
      Ch.forStaticUpdate true "0.10000000000000000001" = " += 0.1" ∧
      Ch.forStaticUpdate true "0.0000001" = " += 1e-7" ∧
      Ch.forStaticUpdate false "1000000000000000000000" = " -= 1e+21" ∧
      readInt "1000000000000000000000".data = some 1000000000000000000000 ∧
      readUpdate " -= 1e+21" 0 = none := by
  refine ⟨rfl, by decide, rfl, rfl, rfl, rfl, rfl, rfl, rfl, rfl⟩

/-- C15, amended: in the branch of `controls_for` for numeric literals the
update of the loop variable is fixed by the direction and by the absolute
value of the double nearest to the step literal: `v++` or `v--` when that
value is 1, and `v += ` or `v -= ` followed by that value, printed as the host
prints a double, otherwise; read as an integer update, `++` adds 1 and `--`
adds -1; for an integer step `st` of magnitude below `2 ^ 53` (the integers
that a double holds exactly) the value is `|st|`, printed as its decimal
numeral, and the update moves the variable by `|st|` in the direction of the
loop; a step literal and its negation emit the same text. -/
theorem C15_static_update_by_direction_and_double {ν : Type} (G : Core ν) (block : Block)
    (s s1 s2 s3 s4 : GenState ν) (r0 r1 r2 body : String)
    (hFrom : G.valueToCode block "FROM" ORDER_ASSIGNMENT
      (G.dbGetName ((block.getFieldValue "VAR").getD "") Variables.NAME_TYPE s).2 = .ok (r0, s1))
    (hTo : G.valueToCode block "TO" ORDER_ASSIGNMENT s1 = .ok (r1, s2))
    (hBy : G.valueToCode block "BY" ORDER_ASSIGNMENT s2 = .ok (r2, s3))
    (hDo : G.statementToCode block "DO" s3 = .ok (body, s4))
    (hlit : (isNumber (jsOr r0 "0") && isNumber (jsOr r1 "0") && isNumber (jsOr r2 "1")) = true) :
    let v := (G.dbGetName ((block.getFieldValue "VAR").getD "") Variables.NAME_TYPE s).1
    let start := jsOr r0 "0"
    let stop := jsOr r1 "0"
    let step := jsOr r2 "1"
    let up := jsLe (parseFloat start) (parseFloat stop)
    let size := jsAbs (parseFloat step)
    let update := if jsIsOne size then (if up then "++" else "--")
      else (if up then " += " else " -= ") ++ jsNumberToString size
    Ch.controls_for G block s = .ok (
        ".then(function() \x7b\n" ++
        "    " ++ v ++ " = " ++ start ++ ";\n" ++
        "   return promiseWhile(\n" ++
        "       function()\x7breturn (" ++ v ++ (if up then " <= " else " >= ") ++
          stop ++ ");\x7d,\n" ++
        "       function() \x7b\n" ++
        "           return Promise.resolve()\n" ++
        "           " ++ G.addLoopTrap body block.id ++ "\n" ++
        "           .then( function() \x7b\n" ++
        "           " ++ v ++ update ++ ";\n" ++
        "           \x7d)\n" ++
        "       \x7d);\n" ++
        "\x7d)\n", s4) ∧
      (∀ x, readUpdate "++" x = some (x + 1)) ∧
      (∀ x, readUpdate "--" x = some (x + -1)) ∧
      (∀ st, readInt step.data = some st → st.natAbs < 2 ^ 53 →
        (jsIsOne size = decide (st.natAbs = 1)) ∧
        (jsNumberToString size = Nat.repr st.natAbs) ∧
        ∀ x, readUpdate update x =
          some (if up then x + (st.natAbs : Int) else x - (st.natAbs : Int))) ∧
      (∀ t, isNumber t = true → startsWithDigit t = true →
        isNumber ("-" ++ t) = true ∧
        Ch.forStaticUpdate up ("-" ++ t) = Ch.forStaticUpdate up t ∧
        ∀ w a b branch, Ch.forStatic w a b ("-" ++ t) branch = Ch.forStatic w a b t branch) := by
  intro v start stop step up size update
  have hupd : Ch.forStaticUpdate up step = update := rfl
  refine ⟨?_, ?_, ?_, ?_, ?_⟩
  · rw [controls_for_static_eq G block s s1 s2 s3 s4 r0 r1 r2 body hFrom hTo hBy hDo hlit]
    refine congrArg Except.ok (Prod.ext ?_ rfl)
    simp only [Ch.forStatic, Ch.forStaticUpdate, String.append_assoc, update, size, up, start,
      stop, step, v]
  · intro x; rfl
  · intro x; rfl
  · intro st hst hsafe
    have hp := (isNumber_of_readInt hst).2
    refine ⟨?_, ?_, ?_⟩
    · simp only [size, hp, jsIsOne_abs_int st hsafe]
    · simp only [size, hp, jsNumberToString_abs_int st hsafe]
    · intro x
      rw [← hupd]
      exact readUpdate_static up hst hsafe x
  · intro t ht hd
    refine ⟨?_, forStaticUpdate_minus up hd, ?_⟩
    · rw [(parseFloat_minus hd).2, ht]
    · intro w a b branch
      simp only [Ch.forStatic, forStaticUpdate_minus _ hd]

/-- C15 at the loop from 10 to 1 by -2: the update is `i -= 2`, which takes 7
to 5, and the step `2` would emit the same text. -/
theorem C15_static_update_by_direction_and_double_witness :
    Ch.controls_for (refCore moreLeaves) forTenToOneByMinusTwo refState = .ok (
        ".then(function() \x7b\n" ++
        "    i = 10;\n" ++
        "   return promiseWhile(\n" ++
        "       function()\x7breturn (i >= 1);\x7d,\n" ++
        "       function() \x7b\n" ++
        "           return Promise.resolve()\n" ++
        "           .then(step)\n" ++
        "           .then( function() \x7b\n" ++
        "           i -= 2;\n" ++
        "           \x7d)\n" ++
        "       \x7d);\n" ++
        "\x7d)\n", refStateI) ∧
      readUpdate " -= 2" 7 = some 5 ∧
      Ch.forStatic "i" "10" "1" ("-" ++ "2") ".then(step)" =
        Ch.forStatic "i" "10" "1" "2" ".then(step)" :=
  ⟨(C15_static_update_by_direction_and_double (refCore moreLeaves) forTenToOneByMinusTwo refState
      refStateI refStateI refStateI refStateI "10" "1" "-2" ".then(step)" rfl rfl rfl rfl rfl).1,
    ((C15_static_update_by_direction_and_double (refCore moreLeaves) forTenToOneByMinusTwo refState
      refStateI refStateI refStateI refStateI "10" "1" "-2" ".then(step)" rfl rfl rfl rfl
      rfl).2.2.2.1 (-2) rfl (by decide)).2.2 7,
    ((C15_static_update_by_direction_and_double (refCore moreLeaves) forTenToOneByMinusTwo refState
      refStateI refStateI refStateI refStateI "10" "1" "-2" ".then(step)" rfl rfl rfl rfl
      rfl).2.2.2.2 "2" rfl rfl).2.2 "i" "10" "1" ".then(step)"⟩

/-! ## Empty value slots -/

theorem argCodes_empty_step {ν : Type} (G : Core ν) (block : Block) (n x : Nat)
    (s s1 : GenState ν)
    (h : G.valueToCode block ("ARG" ++ Nat.repr x) ORDER_COMMA s = .ok ("", s1)) :
    argCodes G block (n + 1) x s =
      (match argCodes G block n (x + 1) s1 with
        | .ok t => .ok ("null" :: t.1, t.2)
        | .error e => .error e) := by
  simp only [argCodes, h, bind, Except.bind, pure, Except.pure, jsOr, if_true]
  cases argCodes G block n (x + 1) s1 <;> rfl

theorem argCodes_all_empty {ν : Type} (G : Core ν) (block : Block)
    (h : ∀ (k : Nat) (t : GenState ν),
      G.valueToCode block ("ARG" ++ Nat.repr k) ORDER_COMMA t = .ok ("", t)) :
    ∀ (n x : Nat) (s : GenState ν),
      argCodes G block n x s = .ok (List.replicate n "null", s) := by
  intro n
  induction n with
  | zero => intro x s; rfl
  | succ n ih =>
    intro x s
    rw [argCodes_empty_step G block n x s s (h x s), ih (x + 1) s]
    rfl

/-- C16: when `valueToCode` yields no code for a value slot and the other
collaborators return, no emitter throws and each puts its own literal in the
place of the code: `0` for the repeat count, `false` for the guard of a
while or until loop, `0`, `0` and `1` for FROM, TO and BY, `[]` for the
collection of a for-each loop, `null` for the argument of a call, `false` for
the condition and `null` for the value of a conditional return. -/
theorem C16_empty_slots_get_defaults {ν : Type} (G : Core ν) (block : Block) :
    (∀ (s s1 s2 : GenState ν) (body : String),
      block.getField "TIMES" = false →
      G.valueToCode block "TIMES" ORDER_ASSIGNMENT s = .ok ("", s1) →
      G.statementToCode block "DO" s1 = .ok (body, s2) →
      Ch.controls_repeat_ext G block s = .ok (
        ".then(function() \x7b \n" ++
        "    return promiseTimes(" ++ "0" ++ ", function() \x7b\n" ++
        "        return Promise.resolve()\n" ++
        "        " ++ G.addLoopTrap body block.id ++ "\n" ++
        "    \x7d);\n" ++
        "\x7d)\n", (G.dbGetDistinctName "count" Variables.NAME_TYPE s2).2)) ∧
    (∀ (s s1 s2 : GenState ν) (body : String),
      G.valueToCode block "BOOL"
        (if block.getFieldValue "MODE" == some "UNTIL" then ORDER_LOGICAL_NOT else ORDER_NONE) s
        = .ok ("", s1) →
      G.statementToCode block "DO" s1 = .ok (body, s2) →
      Ch.controls_whileUntil G block s = .ok (
        ".then(function() \x7b\n" ++
        "    return promiseWhile( \n" ++
        "        function() \x7b return ( " ++
          (if block.getFieldValue "MODE" == some "UNTIL" then "!" ++ "false" else "false") ++
          " ) \x7d,\n" ++
        "        function() \x7b\n" ++
        "            return Promise.resolve()\n" ++
        "            " ++ G.addLoopTrap body block.id ++ "\n" ++
        "        \x7d\n" ++
        "    );\n" ++
        "\x7d)\n", s2)) ∧
    (∀ (s s1 s2 s3 s4 : GenState ν) (r0 r1 r2 body : String),
      G.valueToCode block "FROM" ORDER_ASSIGNMENT
        (G.dbGetName ((block.getFieldValue "VAR").getD "") Variables.NAME_TYPE s).2
        = .ok (r0, s1) →
      G.valueToCode block "TO" ORDER_ASSIGNMENT s1 = .ok (r1, s2) →
      G.valueToCode block "BY" ORDER_ASSIGNMENT s2 = .ok (r2, s3) →
      G.statementToCode block "DO" s3 = .ok (body, s4) →
      let v := (G.dbGetName ((block.getFieldValue "VAR").getD "") Variables.NAME_TYPE s).1
      let start := if r0 = "" then "0" else r0
      let stop := if r1 = "" then "0" else r1
      let step := if r2 = "" then "1" else r2
      Ch.controls_for G block s = .ok (
        if isNumber start && isNumber stop && isNumber step then
          (Ch.forStatic v start stop step (G.addLoopTrap body block.id), s4)
        else Ch.forDynamic G v start stop step (G.addLoopTrap body block.id) s4)) ∧
    (∀ (s s1 s2 : GenState ν) (body : String),
      G.valueToCode block "LIST" ORDER_ASSIGNMENT
        (G.dbGetName ((block.getFieldValue "VAR").getD "") Variables.NAME_TYPE s).2
        = .ok ("", s1) →
      G.statementToCode block "DO" s1 = .ok (body, s2) →
      let v := (G.dbGetName ((block.getFieldValue "VAR").getD "") Variables.NAME_TYPE s).1
      let l := G.dbGetDistinctName (v ++ "_list") Variables.NAME_TYPE s2
      let i := G.dbGetDistinctName (v ++ "_index") Variables.NAME_TYPE l.2
      Ch.controls_forEach G block s = .ok (
        "var " ++ l.1 ++ " = " ++ "[]" ++ ";\n" ++
        "for (var " ++ i.1 ++ " in " ++ l.1 ++ ") \x7b\n" ++
        (G.INDENT ++ v ++ " = " ++ l.1 ++ "[" ++ i.1 ++ "];\n" ++ G.addLoopTrap body block.id) ++
        "\x7d\n", i.2)) ∧
    (∀ (n x : Nat) (s s1 : GenState ν),
      G.valueToCode block ("ARG" ++ Nat.repr x) ORDER_COMMA s = .ok ("", s1) →
      argCodes G block (n + 1) x s =
        (match argCodes G block n (x + 1) s1 with
          | .ok t => .ok ("null" :: t.1, t.2)
          | .error e => .error e)) ∧
    ((∀ (k : Nat) (t : GenState ν),
        G.valueToCode block ("ARG" ++ Nat.repr k) ORDER_COMMA t = .ok ("", t)) →
      ∀ (s : GenState ν),
        let n := G.dbGetName ((block.getFieldValue "NAME").getD "") Procedures.NAME_TYPE s
        let args := ", ".intercalate (List.replicate block.arguments_.length "null")
        Cpp.procedures_callreturn G block s =
          .ok ((n.1 ++ "(" ++ args ++ ")", ORDER_FUNCTION_CALL), n.2) ∧
        JavaScript.procedures_callreturn G block s =
          .ok ((n.1 ++ "(" ++ args ++ ")", ORDER_FUNCTION_CALL), n.2) ∧
        Cpp.procedures_callnoreturn G block s = .ok (
          ".then( function() \x7b\n" ++
          "    return " ++ n.1 ++ "(" ++ args ++ ");\n" ++
          "\x7d)\n", n.2) ∧
        JavaScript.procedures_callnoreturn G block s = .ok (
          ".then( function() \x7b return new Promise( function( resolve, reject) \x7b\n" ++
          "    " ++ n.1 ++ "(" ++ args ++ ");\n" ++
          "    resolve();\n" ++
          "\x7d); \x7d)\n", n.2)) ∧
    (∀ (s s1 s2 : GenState ν),
      G.valueToCode block "CONDITION" ORDER_NONE s = .ok ("", s1) →
      (block.hasReturnValue_ = true → G.valueToCode block "VALUE" ORDER_NONE s1 = .ok ("", s2)) →
      (block.hasReturnValue_ = false → s2 = s1) →
      Cpp.procedures_ifreturn G block s = .ok (
        ".then( function() \x7b \n" ++
        "    if (" ++ "false" ++ ") \x7b\n" ++
        (if block.hasReturnValue_ then
          "        funcResolve(" ++ "null" ++ ");\n" ++
          "        return Promise.reject(\"return\");\n"
        else "        return Promise.reject(\"return\");\n") ++
        "    \x7d else \x7b\n" ++
        "        return Promise.resolve();\n" ++
        "    \x7d\n\x7d)\n", s2) ∧
      JavaScript.procedures_ifreturn G block s = .ok (
        ".then( function() \x7b \n" ++
        "    if (" ++ "false" ++ ") \x7b\n" ++
        (if block.hasReturnValue_ then
          "    function_return_value = " ++ "null" ++ ";\n" ++
          "    return Promise.reject(\"return\");"
        else "    return Promise.reject(\"return\");\n") ++
        "    \x7d else \x7b\n" ++
        "        return Promise.resolve();\n" ++
        "    \x7d\n\x7d)\n", s2)) := by
  have w0 : isWord "0" = true := by decide
  have wl : isWord "[]" = false := by decide
  refine ⟨?_, ?_, ?_, ?_, ?_, ?_, ?_⟩
  · intro s s1 s2 body hf hv hd
    simp only [Ch.controls_repeat_ext, hf, hv, hd, bind, Except.bind, pure, Except.pure, jsOr,
      if_true, w0, Bool.not_true, Bool.false_and, Bool.false_eq_true, if_false,
      String.empty_append, String.append_assoc]
  · intro s s1 s2 body hv hd
    cases hm : (block.getFieldValue "MODE" == some "UNTIL") <;>
      simp only [hm, Bool.false_eq_true, if_false, if_true] at hv <;>
      simp only [Ch.controls_whileUntil, hm, hv, hd, bind, Except.bind, pure, Except.pure, jsOr,
        if_true, Bool.false_eq_true, if_false, String.append_assoc]
  · intro s s1 s2 s3 s4 r0 r1 r2 body h0 h1 h2 hd v start stop step
    simp only [Ch.controls_for, h0, h1, h2, hd, bind, Except.bind, pure, Except.pure, jsOr,
      start, stop, step, v]
    exact (apply_ite Except.ok _ _ _).symm
  · intro s s1 s2 body hv hd v l i
    simp only [Ch.controls_forEach, hv, hd, bind, Except.bind, pure, Except.pure, jsOr,
      if_true, wl, Bool.not_false, String.empty_append, String.append_assoc, i, l, v]
  · intro n x s s1 h
    exact argCodes_empty_step G block n x s s1 h
  · intro h s n args
    have ha := argCodes_all_empty G block h block.arguments_.length 0 n.2
    refine ⟨?_, ?_, ?_, ?_⟩
    · simp only [Cpp.procedures_callreturn, ha, bind, Except.bind, pure, Except.pure, args, n]
    · simp only [JavaScript.procedures_callreturn, ha, bind, Except.bind, pure, Except.pure,
        args, n]
    · simp only [Cpp.procedures_callnoreturn, ha, bind, Except.bind, pure, Except.pure, args, n,
        String.append_assoc]
    · simp only [JavaScript.procedures_callnoreturn, ha, bind, Except.bind, pure, Except.pure,
        args, n, String.append_assoc]
  · intro s s1 s2 hc hv hn
    cases hr : block.hasReturnValue_
    · have e := hn hr
      subst e
      constructor
      · simp only [Cpp.procedures_ifreturn, hc, hr, bind, Except.bind, pure, Except.pure, jsOr,
          if_true, Bool.false_eq_true, if_false, String.append_assoc]
      · simp only [JavaScript.procedures_ifreturn, hc, hr, bind, Except.bind, pure, Except.pure,
          jsOr, if_true, Bool.false_eq_true, if_false, String.append_assoc]
    · have e := hv hr
      constructor
      · simp only [Cpp.procedures_ifreturn, hc, hr, e, bind, Except.bind, pure, Except.pure,
          jsOr, if_true, String.append_assoc]
      · simp only [JavaScript.procedures_ifreturn, hc, hr, e, bind, Except.bind, pure,
          Except.pure, jsOr, if_true, String.append_assoc]

/-- C16 at an until-loop without a guard, at a counting loop without
bounds and step, and at a call with two arguments that are not plugged in. -/
theorem C16_empty_slots_get_defaults_witness :
    Ch.controls_whileUntil (refCore sampleLeaves) untilEmpty refState = .ok (
        ".then(function() \x7b\n" ++
        "    return promiseWhile( \n" ++
        "        function() \x7b return ( " ++ "!false" ++ " ) \x7d,\n" ++
        "        function() \x7b\n" ++
        "            return Promise.resolve()\n" ++
        "            " ++ ".then(step)" ++ "\n" ++
        "        \x7d\n" ++
        "    );\n" ++
        "\x7d)\n", refState) ∧
      Ch.controls_for (refCore sampleLeaves) forEmpty refState =
        .ok (Ch.forStatic "i" "0" "0" "1" ".then(step)", refStateI) ∧
      Cpp.procedures_callnoreturn (refCore sampleLeaves) callEmpty refState = .ok (
        ".then( function() \x7b\n" ++
        "    return " ++ "go" ++ "(" ++ "null, null" ++ ");\n" ++
        "\x7d)\n", refStateGoName) :=
  ⟨(C16_empty_slots_get_defaults (refCore sampleLeaves) untilEmpty).2.1
      refState refState refState ".then(step)" rfl rfl,
    (C16_empty_slots_get_defaults (refCore sampleLeaves) forEmpty).2.2.1
      refState refStateI refStateI refStateI refStateI "" "" "" ".then(step)" rfl rfl rfl rfl,
    ((C16_empty_slots_get_defaults (refCore sampleLeaves) callEmpty).2.2.2.2.2.1
      (fun _ _ => rfl) refState).2.2.1⟩

/-! ## The definition table -/

theorem dictGet_append_single (d : List (String × String)) (k v k2 : String) :
    dictGet (d ++ [(k, v)]) k2 =
      if d.any (fun e => e.1 == k2) then dictGet d k2
      else if k = k2 then some v else none := by
  induction d with
  | nil =>
    by_cases h : k = k2 <;> simp [dictGet, h]
  | cons e rest ih =>
    by_cases he : e.1 = k2
    · simp [dictGet, he]
    · have ih2 := ih
      simp only [dictGet] at ih2
      have hb : (e.1 == k2) = false := by simpa using he
      simp only [dictGet, List.cons_append, List.find?_cons, hb, List.any_cons, Bool.false_or]
      exact ih2

theorem dictGet_map_set (d : List (String × String)) (k v k2 : String) :
    dictGet (d.map (fun e => if e.1 == k then (k, v) else e)) k2 =
      if k2 = k then (if d.any (fun e => e.1 == k) then some v else none)
      else dictGet d k2 := by
  induction d with
  | nil => by_cases h : k2 = k <;> simp [dictGet, h]
  | cons e rest ih =>
    have ih2 := ih
    simp only [dictGet] at ih2
    by_cases he : e.1 = k
    · by_cases h2 : k2 = k
      · simp [dictGet, he, h2]
      · have hb : (k == k2) = false := by simpa using (fun h => h2 h.symm)
        simp only [dictGet, List.map_cons, he, beq_self_eq_true, if_true, List.find?_cons, hb,
          h2, if_false]
        simpa [h2] using ih2
    · have hb : (e.1 == k) = false := by simpa using he
      by_cases h2 : k2 = k
      · have hb2 : (e.1 == k2) = false := by rw [h2]; exact hb
        simp only [dictGet, List.map_cons, hb, Bool.false_eq_true, if_false, List.find?_cons,
          hb2, List.any_cons, Bool.false_or]
        simpa [dictGet, h2] using ih2
      · by_cases h3 : e.1 = k2
        · simp [dictGet, hb, h3, h2]
        · have hb3 : (e.1 == k2) = false := by simpa using h3
          simp only [dictGet, List.map_cons, hb, Bool.false_eq_true, if_false, List.find?_cons,
            hb3]
          simpa [dictGet, h2] using ih2

theorem dictGet_dictSet_same (d : List (String × String)) (k v : String) :
    dictGet (dictSet d k v) k = some v := by
  unfold dictSet
  by_cases h : d.any (fun e => e.1 == k) = true
  · rw [if_pos h, dictGet_map_set]
    simp [h]
  · rw [if_neg h, dictGet_append_single]
    simp [h]

theorem dictGet_dictSet_other (d : List (String × String)) (k v k2 : String) (hne : k2 ≠ k) :
    dictGet (dictSet d k v) k2 = dictGet d k2 := by
  unfold dictSet
  by_cases h : d.any (fun e => e.1 == k) = true
  · rw [if_pos h, dictGet_map_set]
    simp [hne]
  · rw [if_neg h, dictGet_append_single]
    by_cases h2 : d.any (fun e => e.1 == k2) = true
    · simp [h2]
    · have hn : dictGet d k2 = none := by
        simp only [dictGet, Option.map_eq_none']
        rw [List.find?_eq_none]
        intro x hx
        intro hx2
        apply h2
        rw [List.any_eq_true]
        exact ⟨x, hx, hx2⟩
      simp [h2, hn, Ne.symm hne]

/-- C17: `procedures_defreturn`, in the Cpp and in the JavaScript generator,
returns `null` and changes the table of definitions in one entry only: under
the identifier allocated for the procedure it stores the text that `scrub_`
returned for the definition, and the entry under every other key is the one
the table held before the assignment. -/
theorem C17_one_definition_entry_set {ν : Type} (G : Core ν)
    (scrub : Block → String → GenState ν → Except String (Out ν)) (block : Block)
    (s s1 s2 tC tJ : GenState ν) (body r dC dJ : String)
    (hStack : G.statementToCode block "STACK"
      (G.dbGetName ((block.getFieldValue "NAME").getD "") Procedures.NAME_TYPE s).2
        = .ok (body, s1))
    (hRet : G.valueToCode block "RETURN" ORDER_NONE s1 = .ok (r, s2))
    (hCpp : Cpp.scrub_ G block
      (procedureText
        (G.dbGetName ((block.getFieldValue "NAME").getD "") Procedures.NAME_TYPE s).1
        (argNames G block.arguments_ s2).1
        ((if G.INFINITE_LOOP_TRAP ≠ "" then replaceId G.INFINITE_LOOP_TRAP block.id else "") ++
          (if G.STATEMENT_PREFIX ≠ "" then
            G.prefixLines (replaceId G.STATEMENT_PREFIX block.id) G.INDENT else "") ++ body)
        (if r = "" then none else some r))
      (argNames G block.arguments_ s2).2 = .ok (dC, tC))
    (hJs : scrub block
      (procedureText
        (G.dbGetName ((block.getFieldValue "NAME").getD "") Procedures.NAME_TYPE s).1
        (argNames G block.arguments_ s2).1
        ((if G.INFINITE_LOOP_TRAP ≠ "" then replaceId G.INFINITE_LOOP_TRAP block.id else "") ++
          (if G.STATEMENT_PREFIX ≠ "" then
            G.prefixLines (replaceId G.STATEMENT_PREFIX block.id) G.INDENT else "") ++ body)
        (if r = "" then none else some r))
      (argNames G block.arguments_ s2).2 = .ok (dJ, tJ)) :
    let funcName := (G.dbGetName ((block.getFieldValue "NAME").getD "") Procedures.NAME_TYPE s).1
    (∃ st, Cpp.procedures_defreturn G block s = .ok (none, st) ∧
      st.variableDB_ = tC.variableDB_ ∧
      dictGet st.definitions_ funcName = some dC ∧
      ∀ k, k ≠ funcName → dictGet st.definitions_ k = dictGet tC.definitions_ k) ∧
    (∃ st, JavaScript.procedures_defreturn G scrub block s = .ok (none, st) ∧
      st.variableDB_ = tJ.variableDB_ ∧
      dictGet st.definitions_ funcName = some dJ ∧
      ∀ k, k ≠ funcName → dictGet st.definitions_ k = dictGet tJ.definitions_ k) := by
  intro funcName
  have hd := defreturnCode_eq G block s s1 s2 body r hStack hRet
  constructor
  · refine ⟨{ tC with definitions_ := dictSet tC.definitions_ funcName dC }, ?_, rfl,
      dictGet_dictSet_same _ _ _, fun k hk => dictGet_dictSet_other _ _ _ _ hk⟩
    simp only [Cpp.procedures_defreturn, hd, bind, Except.bind, pure, Except.pure, hCpp,
      funcName]
  · refine ⟨{ tJ with definitions_ := dictSet tJ.definitions_ funcName dJ }, ?_, rfl,
      dictGet_dictSet_same _ _ _, fun k hk => dictGet_dictSet_other _ _ _ _ hk⟩
    simp only [JavaScript.procedures_defreturn, hd, bind, Except.bind, pure, Except.pure, hJs,
      funcName]

/-- C17 at the definition of `go(p, q)` in a pass whose table already holds
the entry `variables`: the entry `go` is added and `variables` is kept. -/
theorem C17_one_definition_entry_set_witness :
    ∃ st, Cpp.procedures_defreturn (refCore sampleLeaves) procGo refVars = .ok (none, st) ∧
      dictGet st.definitions_ "go" = some goText ∧
      dictGet st.definitions_ "variables" = some "int x;" := by
  obtain ⟨st, h1, _, h3, h4⟩ :=
    (C17_one_definition_entry_set (refCore sampleLeaves) (Cpp.scrub_ (refCore sampleLeaves))
      procGo refVars refVarsGoName refVarsGoName refVarsGo refVarsGo ".then(step)" "x + 1"
      goText goText rfl rfl rfl rfl).1
  refine ⟨st, h1, h3, ?_⟩
  rw [h4 "variables" (by decide)]
  rfl

/-! ## The generator driver -/

theorem intercalate_go_spec (sep : String) :
    ∀ (l : List String) (acc : String),
      ∃ t, String.intercalate.go acc sep l = acc ++ t ∧
        ∀ v ∈ l, ∃ a b, t = a ++ v ++ b := by
  intro l
  induction l with
  | nil =>
    intro acc
    exact ⟨"", by simp [String.intercalate.go], by simp⟩
  | cons x rest ih =>
    intro acc
    obtain ⟨t, ht, hall⟩ := ih (acc ++ sep ++ x)
    refine ⟨sep ++ x ++ t, ?_, ?_⟩
    · show String.intercalate.go (acc ++ sep ++ x) sep rest = _
      rw [ht]
      simp only [String.append_assoc]
    · intro v hv
      rcases List.mem_cons.mp hv with h | h
      · exact ⟨sep, t, by rw [h]⟩
      · obtain ⟨a, b, hab⟩ := hall v h
        exact ⟨sep ++ x ++ a, b, by rw [hab]; simp only [String.append_assoc]⟩

theorem intercalate_mem (sep : String) (l : List String) :
    ∀ v ∈ l, ∃ a b, sep.intercalate l = a ++ v ++ b := by
  intro v hv
  cases l with
  | nil => simp at hv
  | cons x rest =>
    obtain ⟨t, ht, hall⟩ := intercalate_go_spec sep rest x
    rcases List.mem_cons.mp hv with h | h
    · refine ⟨"", t, ?_⟩
      simp only [String.intercalate, ht, h, String.empty_append]
    · obtain ⟨a, b, hab⟩ := hall v h
      refine ⟨x ++ a, b, ?_⟩
      simp only [String.intercalate, ht, hab, String.append_assoc]

/-- C18: for every program text `code` and every table of definitions,
`finish(code)`, in the Ch and in the Cpp generator, returns the values of the
table in insertion order joined by a blank line, then `"\n\n\n"`, then `code`
unchanged; `code` ends the result and every definition stands in the part
before it. -/
theorem C18_finish_definitions_then_code {ν : Type} (N : Names ν) (code : String)
    (g : Generator ν) (db : ν) (d : List (String × String))
    (hdb : g.variableDB_ = some db) (hd : g.definitions_ = some d) :
    let head := "\n\n".intercalate (d.map (fun e => e.2)) ++ "\n\n\n"
    Ch.finish N code g = .ok (head ++ code,
        { variableDB_ := some (N.reset db), definitions_ := none, functionNames_ := none }) ∧
      Cpp.finish N code g = .ok (head ++ code,
        { variableDB_ := some (N.reset db), definitions_ := none, functionNames_ := none }) ∧
      (head ++ code).data.drop head.data.length = code.data ∧
      ∀ e ∈ d, ∃ a b, head = a ++ e.2 ++ b := by
  intro head
  refine ⟨?_, ?_, ?_, ?_⟩
  · simp only [Ch.finish, finishWith, hdb, hd, head]
  · simp only [Cpp.finish, finishWith, hdb, hd, head]
  · simp [String.data_append]
  · intro e he
    obtain ⟨a, b, hab⟩ := intercalate_mem "\n\n" (d.map (fun e => e.2)) e.2
      (List.mem_map_of_mem _ he)
    exact ⟨a, b ++ "\n\n\n", by simp only [head, hab, String.append_assoc]⟩

/-- C18 at a table with the entries `variables` and `go` and the program
`main();`. -/
theorem C18_finish_definitions_then_code_witness :
    Ch.finish refNames "main();" generatorAtEnd =
      .ok ("int x;" ++ "\n\n" ++ "function go() \x7b\x7d" ++ "\n\n\n" ++ "main();",
        generatorFinished) :=
  (C18_finish_definitions_then_code refNames "main();" generatorAtEnd
    { reserved := [], db := [], issued := ["go"] }
    [("variables", "int x;"), ("go", "function go() \x7b\x7d")] rfl rfl).1

/-- C19 fails: for a workspace with the one variable `x` of kind `Number`
the entry `variables` is `undefineddouble x;`, and for a variable `n` of
another kind it is `undefinedint n;`: the element of `defvars` is extended
with `+=` before it was ever assigned, so the word `undefined` precedes the
declaration; only a `Linkbot` variable assigns the element first. -/
theorem C19_plain_variable_declared_after_undefined :
    (Ch.init refNames (refCore sampleLeaves) [("x", "Number")] generatorFresh).definitions_
        = some [("variables", "undefined" ++ "double x;")] ∧
      (Cpp.init refNames (refCore sampleLeaves) [("x", "Number")] generatorFresh).definitions_
        = some [("variables", "undefined" ++ "double x;")] ∧
      (Ch.init refNames (refCore sampleLeaves) [("n", "")] generatorFresh).definitions_
        = some [("variables", "undefined" ++ "int n;")] ∧
      (Ch.init refNames (refCore sampleLeaves) [("x", "Number"), ("n", "")]
          generatorFresh).definitions_
        = some [("variables", "undefined" ++ "double x;" ++ "\n" ++ "undefined" ++ "int n;")] := by
  refine ⟨rfl, rfl, rfl, rfl⟩

theorem NameDB.getName_idem (name type : String) (d : NameDB) :
    NameDB.getName name type (NameDB.getName name type d).2 = NameDB.getName name type d := by
  cases h : d.db.find? (fun e => e.1 == (name, type)) with
  | some e => simp [NameDB.getName, h]
  | none =>
    simp [NameDB.getName, h, NameDB.getDistinctName, List.find?_append]

theorem initVariables_append {ν : Type} (G : Core ν) (linkbotType : String)
    (pre post : List (String × String)) (db : ν) :
    initVariables G linkbotType (pre ++ post) db =
      ((initVariables G linkbotType pre db).1 ++
        (initVariables G linkbotType post (initVariables G linkbotType pre db).2).1,
       (initVariables G linkbotType post (initVariables G linkbotType pre db).2).2) := by
  induction pre generalizing db with
  | nil => simp [initVariables]
  | cons v rest ih => simp [initVariables, ih]

theorem initVariable_linkbot {ν : Type} (G : Core ν) (linkbotType name : String) (db : ν)
    (hidem : ∀ (n : String) (d : ν),
      G.getName n Variables.NAME_TYPE (G.getName n Variables.NAME_TYPE d).2 =
        G.getName n Variables.NAME_TYPE d) :
    initVariable G linkbotType (name, "Linkbot") db =
      ("double " ++ (G.getName name Variables.NAME_TYPE db).1 ++ "_wheelDiameter = 3.5;\n" ++
        "double " ++ (G.getName name Variables.NAME_TYPE db).1 ++ "_trackWidth = 3.7;\n" ++
        linkbotType ++ " " ++ (G.getName name Variables.NAME_TYPE db).1 ++ ";",
       (G.getName name Variables.NAME_TYPE db).2) := by
  have h1 := hidem name db
  simp only [initVariable, beq_self_eq_true, if_true, h1, jsPlusAssign, String.append_assoc]

/-- C20: for a workspace variable of kind `Linkbot`, over a name database
whose `getName` answers a repeated call with the same identifier, `init`
puts three lines into the entry `variables`, all with the identifier `<id>`
allocated for the variable: `double <id>_wheelDiameter = 3.5;`, then
`double <id>_trackWidth = 3.7;`, then `CLinkbotI <id>;` in the Ch generator
and `CLinkbot <id>;` in the Cpp generator. -/
theorem C20_linkbot_three_lines {ν : Type} (N : Names ν) (G : Core ν)
    (pre post : List (String × String)) (name : String) (g : Generator ν)
    (hidem : ∀ (n : String) (d : ν),
      G.getName n Variables.NAME_TYPE (G.getName n Variables.NAME_TYPE d).2 =
        G.getName n Variables.NAME_TYPE d) :
    let db0 := match g.variableDB_ with
      | none => N.create RESERVED_WORDS_
      | some db => N.reset db
    let lines := fun (type id : String) =>
      "double " ++ id ++ "_wheelDiameter = 3.5;\n" ++
      "double " ++ id ++ "_trackWidth = 3.7;\n" ++
      type ++ " " ++ id ++ ";"
    let entry := fun (type : String) =>
      let before := initVariables G type pre db0
      let named := G.getName name Variables.NAME_TYPE before.2
      "\n".intercalate (before.1 ++ lines type named.1 :: (initVariables G type post named.2).1)
    (Ch.init N G (pre ++ (name, "Linkbot") :: post) g).definitions_ =
        some [("variables", entry "CLinkbotI")] ∧
      (Cpp.init N G (pre ++ (name, "Linkbot") :: post) g).definitions_ =
        some [("variables", entry "CLinkbot")] := by
  intro db0 lines entry
  have key : ∀ type : String,
      (initWith N G type (pre ++ (name, "Linkbot") :: post) g).definitions_ =
        some [("variables", entry type)] := by
    intro type
    simp only [initWith, initVariables_append, initVariables, initVariable_linkbot G type name _ hidem,
      dictSet, List.any_nil, Bool.false_eq_true, if_false, List.nil_append, entry, lines, db0]
  exact ⟨key "CLinkbotI", key "CLinkbot"⟩

/-- C20 at a workspace with the one variable `bot` of kind `Linkbot`. -/
theorem C20_linkbot_three_lines_witness :
    (Ch.init refNames (refCore sampleLeaves) [("bot", "Linkbot")] generatorFresh).definitions_ =
        some [("variables",
          "double bot_wheelDiameter = 3.5;\n" ++
          "double bot_trackWidth = 3.7;\n" ++
          "CLinkbotI bot;")] ∧
      (Cpp.init refNames (refCore sampleLeaves) [("bot", "Linkbot")] generatorFresh).definitions_ =
        some [("variables",
          "double bot_wheelDiameter = 3.5;\n" ++
          "double bot_trackWidth = 3.7;\n" ++
          "CLinkbot bot;")] :=
  C20_linkbot_three_lines refNames (refCore sampleLeaves) [] [] "bot" generatorFresh
    (fun n d => NameDB.getName_idem n Variables.NAME_TYPE d)

/-! ## Comments and the next statement -/

theorem scrub_fold_eq {ν : Type} (G : Core ν) (l : List Input) (acc : String) :
    l.foldl (fun acc inp =>
        if inp.type == INPUT_VALUE then
          match inp.targetBlock with
          | some childBlock =>
            if G.allNestedComments childBlock ≠ "" then
              acc ++ G.prefixLines (G.allNestedComments childBlock) "// " else acc
          | none => acc
        else acc) acc =
      acc ++ concatAll
        ((((l.filter (fun i => i.type == INPUT_VALUE)).filterMap
            (fun i => i.targetBlock)).map G.allNestedComments).filter (fun c => c ≠ "")
          |>.map (fun c => G.prefixLines c "// ")) := by
  induction l generalizing acc with
  | nil => simp [concatAll]
  | cons inp rest ih =>
    simp only [List.foldl_cons]
    rw [ih]
    by_cases ht : (inp.type == INPUT_VALUE) = true
    · cases hc : inp.targetBlock with
      | none => simp [ht, hc, List.filter_cons]
      | some child =>
        by_cases hn : G.allNestedComments child = ""
        · simp [ht, hc, hn, List.filter_cons]
        · simp [ht, hc, hn, List.filter_cons, concatAll, String.append_assoc]
    · simp [ht, List.filter_cons]

theorem scrub_comment_eq {ν : Type} (G : Core ν) (block : Block) :
    (if (match block.outputConnection with
          | some (some _) => false
          | _ => true) = true then
        block.inputList.foldl (fun acc inp =>
          if inp.type == INPUT_VALUE then
            match inp.targetBlock with
            | some childBlock =>
              if G.allNestedComments childBlock ≠ "" then
                acc ++ G.prefixLines (G.allNestedComments childBlock) "// " else acc
            | none => acc
          else acc)
          (if block.getCommentText ≠ "" then
            "" ++ G.prefixLines block.getCommentText "// " ++ "\n" else "")
      else "") = commentPrefix G block := by
  unfold commentPrefix
  rw [scrub_fold_eq]
  cases h : block.outputConnection with
  | none => simp
  | some t =>
    cases t with
    | none => simp
    | some u => simp

/-- C21: `scrub_(block, code)`, in ch.js and in cpp.js, is the comment prefix
followed by `code` and by the code of the next statement of the block.  The
prefix is empty for a value block whose output is plugged into another
block; otherwise it is the comment of the block behind `// ` with a line
break after it, when the block has a comment, followed by the nested
comments, behind `// `, of the blocks plugged into the value inputs, in the
order of the inputs; inputs that are not value inputs add nothing. -/
theorem C21_scrub_is_prefix_code_next {ν : Type} (G : Core ν) (block : Block)
    (code nextCode : String) (s t : GenState ν)
    (hNext : G.blockToCode block.nextBlock s = .ok (nextCode, t)) :
    Ch.scrub_ G block code s = .ok (commentPrefix G block ++ code ++ nextCode, t) ∧
    Cpp.scrub_ G block code s = .ok (commentPrefix G block ++ code ++ nextCode, t) ∧
    ((∃ parent, block.outputConnection = some (some parent)) → commentPrefix G block = "") ∧
    ((¬ ∃ parent, block.outputConnection = some (some parent)) →
      commentPrefix G block =
        (if block.getCommentText ≠ "" then G.prefixLines block.getCommentText "// " ++ "\n"
          else "") ++
        concatAll
          ((((block.inputList.filter (fun i => i.type == INPUT_VALUE)).filterMap
              (fun i => i.targetBlock)).map G.allNestedComments).filter (fun c => c ≠ "")
            |>.map (fun c => G.prefixLines c "// "))) ∧
    commentPrefix G
        { block with inputList := block.inputList.filter (fun i => i.type == INPUT_VALUE) } =
      commentPrefix G block := by
  have hN : G.blockToCode
      (match block.nextConnection with
        | some target => target
        | none => none) s = .ok (nextCode, t) := hNext
  refine ⟨?_, ?_, ?_, ?_, ?_⟩
  · simp only [Ch.scrub_, hN, bind, Except.bind, pure, Except.pure, scrub_comment_eq]
  · simp only [Cpp.scrub_, hN, bind, Except.bind, pure, Except.pure, scrub_comment_eq]
  · rintro ⟨parent, hp⟩
    simp [commentPrefix, hp]
  · intro hno
    unfold commentPrefix
    split
    · rename_i u hu
      exact absurd ⟨u, hu⟩ hno
    · rfl
  · simp [commentPrefix, Block.getCommentText, List.filter_filter]

/-- C21 at a commented statement block with a plugged value input, a plugged
statement input and a next block, and at the same block as a plugged value
block. -/
theorem C21_scrub_is_prefix_code_next_witness :
    Cpp.scrub_ (refCore commentLeaves) commented ".then(run)" refState = .ok (
        ("// count\n// up" ++ "\n" ++ "// the bound") ++ ".then(run)" ++ ".then(stop)",
        refState) ∧
      Ch.scrub_ (refCore commentLeaves) commentedInline "x" refState =
        .ok ("" ++ "x" ++ "", refState) :=
  ⟨(C21_scrub_is_prefix_code_next (refCore commentLeaves) commented ".then(run)" ".then(stop)"
      refState refState rfl).2.1,
    (C21_scrub_is_prefix_code_next (refCore commentLeaves) commentedInline "x" ""
      refState refState rfl).1⟩

/-! ## Passes -/

theorem init_fields {ν : Type} (N : Names ν) (G : Core ν) (vars : List (String × String))
    (g : Generator ν) :
    (Ch.init N G vars g).definitions_ = some [("variables",
        "\n".intercalate (initVariables G "CLinkbotI" vars (N.startDB g)).1)] ∧
      (Ch.init N G vars g).functionNames_ = some [] ∧
      (Ch.init N G vars g).variableDB_ =
        some (initVariables G "CLinkbotI" vars (N.startDB g)).2 := by
  refine ⟨?_, rfl, rfl⟩
  simp only [Ch.init, initWith, dictSet, List.any_nil, Bool.false_eq_true, if_false,
    List.nil_append, Names.startDB]

theorem init_pass {ν : Type} (N : Names ν) (G : Core ν) (vars : List (String × String))
    (g : Generator ν) :
    (Ch.init N G vars g).pass = some
      { variableDB_ := (initVariables G "CLinkbotI" vars (N.startDB g)).2,
        definitions_ := [("variables",
          "\n".intercalate (initVariables G "CLinkbotI" vars (N.startDB g)).1)] } := by
  obtain ⟨h1, _, h3⟩ := init_fields N G vars g
  simp only [Generator.pass, h1, h3]

/-- C22: `finish` deletes the table of definitions and the table of function
names and resets the name database; `init` installs a table whose only entry
is `variables`, an empty table of function names and a name database that is
new or reset; so after `finish` and `init` the table holds no entry under
another key and the name database is built from a reset one; and when
`reset` gives back the database the pass started from, a second pass of
`init`, the same emitters and `finish` returns the same text as the first. -/
theorem C22_pass_leaves_nothing_behind {ν : Type} (N : Names ν) (G : Core ν)
    (vars : List (String × String)) (emit : GenState ν → Except String (Out ν))
    (g : Generator ν) (code : String) (s1 : GenState ν)
    (hEmit : emit
      { variableDB_ := (initVariables G "CLinkbotI" vars (N.startDB g)).2,
        definitions_ := [("variables",
          "\n".intercalate (initVariables G "CLinkbotI" vars (N.startDB g)).1)] }
      = .ok (code, s1))
    (hClear : N.reset s1.variableDB_ = N.startDB g)
    (hStart : N.reset (N.startDB g) = N.startDB g) :
    let out := "\n\n".intercalate (s1.definitions_.map (fun e => e.2)) ++ "\n\n\n" ++ code
    let done : Generator ν :=
      { variableDB_ := some (N.startDB g), definitions_ := none, functionNames_ := none }
    (∀ (c : String) (h : Generator ν) (db : ν), h.variableDB_ = some db →
      ∃ text, Ch.finish N c h = .ok (text,
        { variableDB_ := some (N.reset db), definitions_ := none, functionNames_ := none })) ∧
    (∀ (h : Generator ν),
      (Ch.init N G vars h).definitions_ = some [("variables",
        "\n".intercalate (initVariables G "CLinkbotI" vars (N.startDB h)).1)] ∧
      (Ch.init N G vars h).functionNames_ = some [] ∧
      (Ch.init N G vars h).variableDB_ =
        some (initVariables G "CLinkbotI" vars (N.startDB h)).2) ∧
    (∀ (c text : String) (h h2 : Generator ν) (db : ν), h.variableDB_ = some db →
      Ch.finish N c h = .ok (text, h2) →
      N.startDB h2 = N.reset (N.reset db) ∧
      ∀ d, (Ch.init N G vars h2).definitions_ = some d →
        ∀ k, k ≠ "variables" → dictGet d k = none) ∧
    Ch.runPass N G vars emit g = .ok (out, done) ∧
    Ch.runPass N G vars emit done = .ok (out, done) := by
  intro out done
  have hfin : ∀ (c : String) (h : Generator ν) (db : ν), h.variableDB_ = some db →
      Ch.finish N c h = .ok
        ("\n\n".intercalate
          ((match h.definitions_ with
            | some d => d.map (fun e => e.2)
            | none => [])) ++ "\n\n\n" ++ c,
        { variableDB_ := some (N.reset db), definitions_ := none, functionNames_ := none }) := by
    intro c h db hdb
    simp only [Ch.finish, finishWith, hdb]
  have hdone : N.startDB done = N.startDB g := by
    simp only [Names.startDB, done]
    exact hStart
  refine ⟨?_, ?_, ?_, ?_, ?_⟩
  · intro c h db hdb
    exact ⟨_, hfin c h db hdb⟩
  · intro h
    exact init_fields N G vars h
  · intro c text h h2 db hdb hf
    rw [hfin c h db hdb] at hf
    have h2eq : h2 = ⟨some (N.reset db), none, none⟩ := by
      injection hf with hf
      exact (congrArg Prod.snd hf).symm
    subst h2eq
    refine ⟨rfl, ?_⟩
    intro d hd k hk
    rw [(init_fields N G vars _).1] at hd
    injection hd with hd
    subst hd
    have hb : ("variables" == k) = false := by simpa using (fun e => hk e.symm)
    simp [dictGet, hb]
  · simp only [Ch.runPass, init_pass, hEmit, bind, Except.bind, Ch.finish, finishWith, hClear,
      out, done]
  · simp only [Ch.runPass, init_pass, hdone, hEmit, bind, Except.bind, Ch.finish, finishWith,
      hClear, out, done]

/-- C22 at two passes over the variable `bot` and the loop `forFromSum`,
the first from a generator that was never initialised. -/
theorem C22_pass_leaves_nothing_behind_witness :
    Ch.runPass refNames (refCore sampleLeaves) [("bot", "Linkbot")]
        (Ch.controls_for (refCore sampleLeaves) forFromSum) generatorFresh =
      .ok ("double bot_wheelDiameter = 3.5;\ndouble bot_trackWidth = 3.7;\nCLinkbotI bot;" ++
        "\n\n\n" ++ passCode, generatorDone) ∧
    Ch.runPass refNames (refCore sampleLeaves) [("bot", "Linkbot")]
        (Ch.controls_for (refCore sampleLeaves) forFromSum) generatorDone =
      .ok ("double bot_wheelDiameter = 3.5;\ndouble bot_trackWidth = 3.7;\nCLinkbotI bot;" ++
        "\n\n\n" ++ passCode, generatorDone) :=
  (C22_pass_leaves_nothing_behind refNames (refCore sampleLeaves) [("bot", "Linkbot")]
    (Ch.controls_for (refCore sampleLeaves) forFromSum) generatorFresh passCode passState
    rfl rfl rfl).2.2.2

/-! ## Stages and the start of the counting loop -/

/-- C23 fails for `controls_repeat_ext` and for `controls_forEach`: for the
loop that repeats `x + 1` times the text begins with the declaration
`var repeat_end = x + 1;`, which stands before the stage, and for the loop
over `xs` it begins with `for (`; the loop that repeats 10 times, which
needs no declaration, begins with `.then(`. -/
theorem C23_hoisted_repeat_and_forEach_begin_otherwise :
    Ch.controls_repeat_ext (refCore sampleLeaves) repeatSum refState = .ok (
      "var repeat_end = x + 1;\n" ++
      ".then(function() \x7b \n" ++
      "    return promiseTimes(repeat_end, function() \x7b\n" ++
      "        return Promise.resolve()\n" ++
      "        .then(step)\n" ++
      "    \x7d);\n" ++
      "\x7d)\n", refStateCountEnd) ∧
    beginsWith ".then(" (
      "var repeat_end = x + 1;\n" ++
      ".then(function() \x7b \n" ++
      "    return promiseTimes(repeat_end, function() \x7b\n" ++
      "        return Promise.resolve()\n" ++
      "        .then(step)\n" ++
      "    \x7d);\n" ++
      "\x7d)\n") = false ∧
    Ch.controls_forEach (refCore sampleLeaves) forEachXs refState = .ok (
      "for (var x_index in xs) \x7b\n" ++
      "  x = xs[x_index];\n" ++
      "\x7d\n", refStateXIndex) ∧
    beginsWith ".then(" (
      "for (var x_index in xs) \x7b\n" ++
      "  x = xs[x_index];\n" ++
      "\x7d\n") = false ∧
    Ch.controls_repeat_ext (refCore sampleLeaves) repeatTen refState = .ok (
      ".then(function() \x7b \n" ++
      "    return promiseTimes(10, function() \x7b\n" ++
      "        return Promise.resolve()\n" ++
      "        .then(step)\n" ++
      "    \x7d);\n" ++
      "\x7d)\n", refStateCount) ∧
    beginsWith ".then(" (
      ".then(function() \x7b \n" ++
      "    return promiseTimes(10, function() \x7b\n" ++
      "        return Promise.resolve()\n" ++
      "        .then(step)\n" ++
      "    \x7d);\n" ++
      "\x7d)\n") = true := by
  refine ⟨rfl, ?_, rfl, ?_, rfl, ?_⟩ <;> decide

/-- C24 fails in the branch of `controls_for` for bounds that are not all
numeric literals: for the loop from the variable `a` to 10 by 2 the emitted
text never assigns to the loop variable `i` before the call of
`promiseWhile`; the only assignments are to `i_inc`, and `i` is changed by
`i += i_inc` inside the body.  The branch for numeric literals assigns
`i = 1;` before the call. -/
theorem C24_dynamic_for_never_assigns_start :
    Ch.controls_for (refCore sampleLeaves) forFromVariable refState = .ok (
      ".then(function() \x7b\n" ++
      "var i_inc = 2;\n" ++
      "if (a > 10) \x7b\n" ++
      "  i_inc = -i_inc;\n" ++
      "\x7d\n" ++
      "return promiseWhile(\n" ++
      "    function() \x7b\n" ++
      "        return i_inc >= 0 ? i <= 10 : i >= 10;\n" ++
      "    \x7d,\n" ++
      "    function() \x7b\n" ++
      "        .then(step)\n" ++
      "        i += i_inc;\n" ++
      "    \x7d);\n" ++
      "\x7d)\n", refStateIInc) ∧
    occursIn "i = " (
      ".then(function() \x7b\n" ++
      "var i_inc = 2;\n" ++
      "if (a > 10) \x7b\n" ++
      "  i_inc = -i_inc;\n" ++
      "\x7d\n" ++
      "return promiseWhile(\n" ++
      "    function() \x7b\n" ++
      "        return i_inc >= 0 ? i <= 10 : i >= 10;\n" ++
      "    \x7d,\n" ++
      "    function() \x7b\n" ++
      "        .then(step)\n" ++
      "        i += i_inc;\n" ++
      "    \x7d);\n" ++
      "\x7d)\n") = false ∧
    occursIn ("    i = 1;\n" ++ "   return promiseWhile(")
      (Ch.forStatic "i" "1" "5" "1" ".then(step)") = true := by
  refine ⟨rfl, ?_, ?_⟩ <;> decide

/-! ## The key of the variable declarations -/

/-- C25 fails for the procedure name `variables`, which is not a reserved
word: the name database returns the identifier `variables`, and
`procedures_defreturn` stores the definition under the key that `init` used
for the declarations, so the declarations of `bot` are gone and `finish`
emits the function only. -/
theorem C25_procedure_named_variables_replaces_declarations :
    (splitCommas RESERVED_WORDS_.data []).contains "variables" = false ∧
    (Cpp.init refNames (refCore sampleLeaves) [("bot", "Linkbot")] generatorFresh).pass
      = some cppPassStart ∧
    dictGet cppPassStart.definitions_ "variables" =
      some "double bot_wheelDiameter = 3.5;\ndouble bot_trackWidth = 3.7;\nCLinkbot bot;" ∧
    Cpp.procedures_defreturn (refCore sampleLeaves) procVariables cppPassStart
      = .ok (none, cppPassAfter) ∧
    dictGet cppPassAfter.definitions_ "variables" = some variablesText ∧
    Cpp.finish refNames ".then(main)"
        { variableDB_ := some cppPassAfter.variableDB_,
          definitions_ := some cppPassAfter.definitions_, functionNames_ := some [] }
      = .ok (variablesText ++ "\n\n\n" ++ ".then(main)", generatorDone) ∧
    occursIn "CLinkbot bot;" (variablesText ++ "\n\n\n" ++ ".then(main)") = false := by
  refine ⟨by decide, rfl, rfl, rfl, rfl, rfl, by decide⟩

/-! ## Quoting -/

theorem special_chars_differ :
    (backslash == newline) = false ∧ (backslash == quote) = false ∧
      (newline == backslash) = false ∧ (newline == quote) = false ∧
      (quote == backslash) = false ∧ (quote == newline) = false := by
  decide

theorem quoteBody_eq_escapeAll (cs : List Char) : quoteBody cs = escapeAll cs := by
  obtain ⟨h1, h2, h3, h4, h5, h6⟩ := special_chars_differ
  induction cs with
  | nil => rfl
  | cons c rest ih =>
    unfold quoteBody at ih ⊢
    by_cases hb : (c == backslash) = true
    · have hc : c = backslash := by simpa using hb
      subst hc
      simp [replaceChar, escapeAll, escapeChar, h1, h2, ih]
    · have hb2 : (c == backslash) = false := by simpa using hb
      by_cases hn : (c == newline) = true
      · have hc : c = newline := by simpa using hn
        subst hc
        simp [replaceChar, escapeAll, escapeChar, h1, h2, h3, h4, ih]
      · have hn2 : (c == newline) = false := by simpa using hn
        by_cases hq : (c == quote) = true
        · have hc : c = quote := by simpa using hq
          subst hc
          simp [replaceChar, escapeAll, escapeChar, h1, h2, h5, h6, ih]
        · have hq2 : (c == quote) = false := by simpa using hq
          simp [replaceChar, escapeAll, escapeChar, hb2, hn2, hq2, ih]

theorem escapeAll_append (a b : List Char) : escapeAll (a ++ b) = escapeAll a ++ escapeAll b := by
  induction a with
  | nil => rfl
  | cons c rest ih => simp [escapeAll, ih]

theorem trailingBackslashes_concat (l : List Char) (x : Char) :
    trailingBackslashes (l ++ [x]) =
      if (x == backslash) = true then trailingBackslashes l + 1 else 0 := by
  by_cases h : (x == backslash) = true
  · simp [trailingBackslashes, List.takeWhile_cons, h]
  · simp [trailingBackslashes, List.takeWhile_cons, h]

theorem trailingBackslashes_escapeChar (l : List Char) (c : Char) :
    trailingBackslashes (l ++ escapeChar c) =
      if (c == backslash) = true then trailingBackslashes l + 2 else 0 := by
  obtain ⟨h1, h2, h3, h4, h5, h6⟩ := special_chars_differ
  by_cases hb : (c == backslash) = true
  · have hc : c = backslash := by simpa using hb
    subst hc
    have e : l ++ escapeChar backslash = (l ++ [backslash]) ++ [backslash] := by
      simp [escapeChar]
    rw [e, trailingBackslashes_concat, trailingBackslashes_concat]
    simp
  · have hb2 : (c == backslash) = false := by simpa using hb
    by_cases hs : (c == newline || c == quote) = true
    · have e : l ++ escapeChar c = (l ++ [backslash]) ++ [c] := by
        simp [escapeChar, hb2, hs]
      rw [e, trailingBackslashes_concat]
      simp [hb2]
    · have hs2 : (c == newline || c == quote) = false := by simpa using hs
      have e : l ++ escapeChar c = l ++ [c] := by
        simp [escapeChar, hb2, hs2]
      rw [e, trailingBackslashes_concat]
      simp [hb2]

theorem trailingBackslashes_escapeAll_even (s : List Char) :
    trailingBackslashes (escapeAll s) % 2 = 0 := by
  induction s using List.reverseRecOn with
  | nil => rfl
  | append_singleton l c ih =>
    have e : escapeAll (l ++ [c]) = escapeAll l ++ escapeChar c := by
      rw [escapeAll_append]; simp [escapeAll]
    rw [e, trailingBackslashes_escapeChar]
    split <;> omega

theorem escapeChar_ne_quote_cons (c : Char) (post : List Char) :
    escapeChar c ≠ quote :: post := by
  obtain ⟨h1, h2, h3, h4, h5, h6⟩ := special_chars_differ
  intro h
  by_cases hs : (c == backslash || c == newline || c == quote) = true
  · simp only [escapeChar, hs, if_true] at h
    injection h with h _
    rw [h] at h5
    simp at h5
  · have hs2 : (c == backslash || c == newline || c == quote) = false := by simpa using hs
    simp only [escapeChar, hs2, Bool.false_eq_true, if_false] at h
    injection h with h _
    rw [h] at hs2
    simp at hs2

theorem escapeChar_split (c : Char) (x : Char) (mid post : List Char)
    (h : escapeChar c = x :: (mid ++ quote :: post)) :
    x = backslash ∧ mid = [] := by
  by_cases hs : (c == backslash || c == newline || c == quote) = true
  · simp only [escapeChar, hs, if_true] at h
    injection h with hx ht
    refine ⟨hx.symm, ?_⟩
    cases mid with
    | nil => rfl
    | cons m rest =>
      have := congrArg List.length ht
      simp at this
  · have hs2 : (c == backslash || c == newline || c == quote) = false := by simpa using hs
    simp only [escapeChar, hs2, Bool.false_eq_true, if_false] at h
    injection h with _ ht
    have := congrArg List.length ht
    simp at this
    omega

theorem quote_in_escapeAll_odd (s : List Char) :
    ∀ pre post, escapeAll s = pre ++ quote :: post → trailingBackslashes pre % 2 = 1 := by
  induction s using List.reverseRecOn with
  | nil =>
    intro pre post h
    have := congrArg List.length h
    simp [escapeAll] at this
    omega
  | append_singleton l c ih =>
    intro pre post h
    have e : escapeAll (l ++ [c]) = escapeAll l ++ escapeChar c := by
      rw [escapeAll_append]; simp [escapeAll]
    rw [e, List.append_eq_append_iff] at h
    rcases h with ⟨a, hpre, hc⟩ | ⟨c2, hl, hq⟩
    · cases a with
      | nil =>
        exact absurd hc (escapeChar_ne_quote_cons c post)
      | cons x mid =>
        obtain ⟨hx, hmid⟩ := escapeChar_split c x mid post hc
        subst hx hmid
        rw [hpre, trailingBackslashes_concat]
        have := trailingBackslashes_escapeAll_even l
        simp
        omega
    · cases c2 with
      | nil =>
        simp at hq
        exact absurd hq.symm (escapeChar_ne_quote_cons c post)
      | cons y rest =>
        simp at hq
        obtain ⟨hy, _⟩ := hq
        subst hy
        exact ih pre rest hl

theorem unescape_cons_of_ne (c : Char) (rest : List Char) (h : (c == backslash) = false) :
    unescape (c :: rest) = c :: unescape rest := by
  cases rest with
  | nil => rfl
  | cons d r => simp [unescape, h]

theorem unescape_escapeAll (s : List Char) : unescape (escapeAll s) = s := by
  induction s with
  | nil => rfl
  | cons c rest ih =>
    by_cases hs : (c == backslash || c == newline || c == quote) = true
    · simp [escapeAll, escapeChar, hs, unescape, ih]
    · have hs2 : (c == backslash || c == newline || c == quote) = false := by simpa using hs
      have hb : (c == backslash) = false := by
        simp only [Bool.or_eq_false_iff] at hs2
        exact hs2.1.1
      simp only [escapeAll, escapeChar, hs2, Bool.false_eq_true, if_false, List.singleton_append]
      rw [unescape_cons_of_ne c _ hb, ih]

theorem quote_data (string : String) :
    (Ch.quote_ string).data = quote :: (escapeAll string.data ++ [quote]) ∧
      Cpp.quote_ string = Ch.quote_ string := by
  refine ⟨?_, rfl⟩
  simp only [Ch.quote_, String.data_append, quoteBody_eq_escapeAll]
  rfl

theorem unquote_quote (string : String) : unquote (Ch.quote_ string) = string := by
  unfold unquote
  rw [(quote_data string).1]
  simp [unescape_escapeAll]

/-- C26: for every input, `quote_`, in ch.js and in cpp.js, returns the input
between one single quote before and one after it, in which every backslash,
every line break and every single quote of the input stands behind an
escaping backslash and every other character stands as it is; so every
single quote between the two delimiters stands behind an odd number of
backslashes, that is, none is left without its escape. -/
theorem C26_quote_escapes_special_chars (string : String) :
    Ch.quote_ string = "\x27" ++ String.mk (escapeAll string.data) ++ "\x27" ∧
    Cpp.quote_ string = "\x27" ++ String.mk (escapeAll string.data) ++ "\x27" ∧
    (Ch.quote_ string).data = quote :: (escapeAll string.data ++ [quote]) ∧
    (∀ c, escapeChar c =
      if c = backslash ∨ c = newline ∨ c = quote then [backslash, c] else [c]) ∧
    (∀ pre post, escapeAll string.data = pre ++ quote :: post →
      trailingBackslashes pre % 2 = 1) := by
  refine ⟨?_, ?_, (quote_data string).1, ?_, quote_in_escapeAll_odd string.data⟩
  · simp only [Ch.quote_, quoteBody_eq_escapeAll]
  · simp only [Cpp.quote_, quoteBody_eq_escapeAll]
  · intro c
    simp [escapeChar, or_assoc]

/-- C26 at the input `a'b`: the quoted text is `'a\'b'`, and the quote inside
stands behind one backslash. -/
theorem C26_quote_escapes_special_chars_witness :
    Ch.quote_ "a\x27b" = "\x27" ++ "a\x5c\x27b" ++ "\x27" ∧
      trailingBackslashes ['a', backslash] % 2 = 1 :=
  ⟨(C26_quote_escapes_special_chars "a\x27b").1,
    (C26_quote_escapes_special_chars "a\x27b").2.2.2.2 ['a', backslash] ['b'] rfl⟩

/-- C27: `quote_` is injective, in ch.js and in cpp.js: the decoding function
`unquote` gives back the input from the quoted text, so two inputs with the
same quoted text are the same. -/
theorem C27_quote_injective (string : String) :
    unquote (Ch.quote_ string) = string ∧
    unquote (Cpp.quote_ string) = string ∧
    (∀ other, Ch.quote_ string = Ch.quote_ other → string = other) ∧
    (∀ other, Cpp.quote_ string = Cpp.quote_ other → string = other) := by
  have key : ∀ other, Ch.quote_ string = Ch.quote_ other → string = other := by
    intro other h
    rw [← unquote_quote string, ← unquote_quote other, h]
  exact ⟨unquote_quote string, unquote_quote string, key, key⟩

/-- C27 at two inputs that differ in a backslash only: the quoted texts
differ. -/
theorem C27_quote_injective_witness :
    unquote (Ch.quote_ "a\x5c\x27") = "a\x5c\x27" ∧
      Ch.quote_ "a\x5c\x27" ≠ Ch.quote_ "a\x27" :=
  ⟨(C27_quote_injective "a\x5c\x27").1,
    fun h => absurd ((C27_quote_injective "a\x5c\x27").2.2.1 "a\x27" h) (by decide)⟩

end Blockly
